import Mathlib

/-!
# TransTrack route service: bus-to-route assignment

A shallow embedding of the two assignment scripts of the route service,
`scripts/auto-assign-from-schedule.js` and `scripts/assign-buses-to-routes.js`,
together with the `POST /api/routes/:id/assign-bus` handler they call.

The `routes` table is a list of rows; every SQL statement of the scripts is a
pure function on that list.  Calls that can fail (HTTP requests, store queries)
take their outcome from an explicit environment, so that every theorem
quantifies over the failures the code can meet.
-/

namespace TransTrack

/-! ## Data model -/

/-- A row of the `routes` table (the columns the scripts read or write).
`bus_id` is a nullable `text` column, `numeric_id` a nullable `integer`. -/
structure Route where
  id : String
  route_name : String
  route_code : String
  status : String
  bus_id : Option String
  numeric_id : Option Int
  deriving DecidableEq, Repr

/-- A bus record as returned by the bus service or read from the `buses` table.
The scripts read the identifier as `bus.id || bus.uuid`. -/
structure Bus where
  id : Option String
  uuid : Option String
  plate : String
  deriving DecidableEq, Repr

/-- An entry of the schedule feed.  `time` is the parsed `TIMESTAMPTZ` value in
milliseconds (`new Date(time).getTime()`), `none` when the field is absent. -/
structure Schedule where
  routeId : Option String
  busId : Option String
  time : Option Int
  routeName : Option String
  routeCode : Option String
  deriving DecidableEq, Repr

/-- JavaScript truthiness of a value that is a string, `null` or `undefined`. -/
def truthy (v : Option String) : Bool :=
  match v with
  | some s => decide (s ≠ "")
  | none => false

/-- The identifier the scripts use for a bus: `bus.id || bus.uuid`. -/
def busKey (bus : Bus) : Option String :=
  if truthy bus.id then bus.id else bus.uuid

/-! ## Stable sorting

`Array.prototype.sort` and SQL `ORDER BY` are modelled by one stable sort: an
element is inserted before the first element it may precede, so elements that
compare equal keep their input order. -/

/-- Insertion of `a` into a sorted list, before the first element `x` with
`le a x`. -/
def insertBy {α : Type} (le : α → α → Bool) (a : α) : List α → List α
  | [] => [a]
  | x :: xs => if le a x then a :: x :: xs else x :: insertBy le a xs

/-- Stable insertion sort by the order `le`. -/
def sortBy {α : Type} (le : α → α → Bool) : List α → List α
  | [] => []
  | a :: as => insertBy le a (sortBy le as)

/-! ## SQL statements on the `routes` table -/

/-- Rows selected by `SELECT ... FROM routes WHERE id = $1`. -/
def selectById (table : List Route) (routeId : String) : List Route :=
  table.filter (fun r => decide (r.id = routeId))

/-- Rows selected by `SELECT ... FROM routes WHERE bus_id = $1 AND id != $2`
(before `LIMIT 1`, which does not change whether a row is returned). -/
def busUsedRows (table : List Route) (busId routeId : String) : List Route :=
  table.filter (fun r => decide (r.bus_id = some busId) && decide (r.id ≠ routeId))

/-- The table after `UPDATE routes SET bus_id = $1 WHERE id = $2`. -/
def updateBusId (table : List Route) (busId routeId : String) : List Route :=
  table.map (fun r => if r.id = routeId then { r with bus_id := some busId } else r)

/-- The table after `UPDATE routes SET bus_id = $1 WHERE id = $2 AND bus_id IS NULL`. -/
def updateBusIdIfNull (table : List Route) (busId routeId : String) : List Route :=
  table.map (fun r =>
    if r.id = routeId ∧ r.bus_id = none then { r with bus_id := some busId } else r)

/-- Values of `SELECT DISTINCT bus_id FROM routes WHERE bus_id IS NOT NULL`. -/
def usedBusIdsOf (table : List Route) : List String :=
  (table.filterMap (fun r => r.bus_id)).dedup

/-- The value of `SELECT COUNT(*) FROM routes WHERE bus_id IS NULL`. -/
def nullCount (table : List Route) : Nat :=
  table.countP (fun r => decide (r.bus_id = none))

/-- The `bus_id` stored for a route id: `none` when no row has that id. -/
def busIdOf (table : List Route) (routeId : String) : Option (Option String) :=
  (table.find? (fun r => decide (r.id = routeId))).map (fun r => r.bus_id)

/-! ## Grouping of the schedule feed (auto-assign-from-schedule.js, lines 76-98) -/

/-- The sort key of an entry: `a.time ? new Date(a.time).getTime() : 0`. -/
def timeOf (e : Schedule) : Int :=
  match e.time with
  | some t => t
  | none => 0

/-- The comparator of the sort, `timeB - timeA`, read as "`a` may stand before
`b`": it is not positive exactly when the time of `b` is not later. -/
def laterFirst (a b : Schedule) : Bool :=
  decide (timeOf b ≤ timeOf a)

/-- The array `sortedSchedules`: a stable sort with comparator `timeB - timeA`. -/
def sortedSchedules (schedules : List Schedule) : List Schedule :=
  sortBy laterFirst schedules

/-- The value stored in `routeBusMap` for a route id. -/
structure Selection where
  busId : String
  time : Option Int
  routeName : Option String
  routeCode : Option String
  deriving DecidableEq, Repr

/-- One call of the `forEach` callback: an entry with a truthy `routeId` and
`busId` is stored unless the map already has its route. -/
def groupStep (m : List (String × Selection)) (e : Schedule) : List (String × Selection) :=
  match e.routeId, e.busId with
  | some r, some b =>
    if truthy (some r) && truthy (some b) then
      if m.any (fun kv => decide (kv.1 = r)) then m
      else m ++ [(r, { busId := b, time := e.time, routeName := e.routeName,
                       routeCode := e.routeCode })]
    else m
  | _, _ => m

/-- The map `routeBusMap` of `autoAssignFromSchedule`, as the list of its entries
in insertion order. -/
def routeBusMap (schedules : List Schedule) : List (String × Selection) :=
  (sortedSchedules schedules).foldl groupStep []

/-- The bus selected for a route: `routeBusMap.get(routeId).busId`. -/
def selectedBus (schedules : List Schedule) (routeId : String) : Option String :=
  ((routeBusMap schedules).find? (fun kv => decide (kv.1 = routeId))).map (fun kv => kv.2.busId)

/-! ## The schedule pass (auto-assign-from-schedule.js, lines 125-194) -/

/-- Which of the three queries of one loop iteration throws, if any. -/
inductive QueryFault where
  | none
  | check
  | busUsed
  | update
  deriving DecidableEq, Repr

/-- State of the loop over `routeBusMap`: the table, the three counters and the
list of the `routeId → busId` lines printed for the successful updates. -/
structure ScheduleRun where
  table : List Route
  successCount : Nat
  skipCount : Nat
  failCount : Nat
  assigned : List (String × String)
  deriving DecidableEq, Repr

/-- One iteration of `for (const [routeId, { busId }] of routeBusMap.entries())`. -/
def scheduleStep (fault : String → QueryFault) (s : ScheduleRun)
    (entry : String × Selection) : ScheduleRun :=
  let routeId := entry.1
  let busId := entry.2.busId
  if fault routeId = QueryFault.check then { s with failCount := s.failCount + 1 }
  else
    match selectById s.table routeId with
    | [] => { s with skipCount := s.skipCount + 1 }
    | currentRoute :: _ =>
      if currentRoute.bus_id = some busId then { s with skipCount := s.skipCount + 1 }
      else if fault routeId = QueryFault.busUsed then { s with failCount := s.failCount + 1 }
      else if 0 < (busUsedRows s.table busId routeId).length then
        { s with skipCount := s.skipCount + 1 }
      else if fault routeId = QueryFault.update then { s with failCount := s.failCount + 1 }
      else if 0 < (selectById s.table routeId).length then
        { s with table := updateBusId s.table busId routeId,
                 successCount := s.successCount + 1,
                 assigned := s.assigned ++ [(routeId, busId)] }
      else { s with table := updateBusId s.table busId routeId }

/-- The loop over the entries of `routeBusMap`, from a given state. -/
def scheduleLoop (fault : String → QueryFault) (s : ScheduleRun)
    (entries : List (String × Selection)) : ScheduleRun :=
  entries.foldl (scheduleStep fault) s

/-- The schedule-derived pass: the loop over `routeBusMap` from zeroed counters. -/
def schedulePass (fault : String → QueryFault) (table : List Route)
    (schedules : List Schedule) : ScheduleRun :=
  scheduleLoop fault
    { table := table, successCount := 0, skipCount := 0, failCount := 0, assigned := [] }
    (routeBusMap schedules)

/-! ## Results and collaborator answers -/

/-- The object a pass resolves to; a field is `none` when the object lacks it. -/
structure AssignResult where
  success : Bool
  message : Option String
  updated : Option Nat
  failed : Option Nat
  skipped : Option Nat
  deriving DecidableEq, Repr

/-- The result `{ success: false, message: error.message }` of an outer `catch`.
The text of a caught store or network error is not modelled. -/
def caught (message : String) : AssignResult :=
  { success := false, message := some message, updated := none, failed := none,
    skipped := none }

/-- Outcome of `axios.get` with `validateStatus: status < 500`: an answer with a
status below 500 (with `data.success` and `data.data`), or a thrown error, of
which the scripts tell `ECONNREFUSED` and `ECONNRESET` from the rest (timeout,
status 500 and above, ...). -/
inductive HttpAnswer (α : Type) where
  | answered (status : Nat) (success : Bool) (data : Option (List α))
  | refused
  | reset
  | failed
  deriving Repr

/-- Outcome of one access to the store through a pool: the client is acquired
and the query runs, the query throws, or acquiring the client throws. -/
inductive Access where
  | ok
  | queryError
  | connectError
  deriving DecidableEq, Repr

/-! ## autoAssignFromSchedule (auto-assign-from-schedule.js, lines 29-398) -/

/-- What `autoAssignFromSchedule` meets outside the `routes` table. -/
structure ScheduleEnv where
  /-- a database URL is configured -/
  databaseUrl : Bool
  /-- the answer of `GET /api/schedules?limit=1000` -/
  response : HttpAnswer Schedule
  /-- `pool.connect()` resolves -/
  connect : Bool
  /-- the `COUNT(*)` query of the empty-map branch resolves -/
  countQuery : Bool
  /-- per route id, the query of its loop iteration that throws -/
  fault : String → QueryFault

/-- The array `schedules` after the request (lines 53-62), for an answer that
did not throw. -/
def schedulesOf (status : Nat) (success : Bool) (data : Option (List Schedule)) :
    List Schedule :=
  if status = 200 ∧ success = true then data.getD [] else []

/-- The function `autoAssignFromSchedule`: the final table and the resolved
object.  After the loop over `routeBusMap` the function evaluates
`${safeSchema}` (line 199) outside the block that declares `safeSchema`
(line 132), which throws a `ReferenceError`; the outer `catch` (line 391) turns
it into `{ success: false, message }`, so lines 202-390 never run. -/
def autoAssignFromSchedule (env : ScheduleEnv) (table : List Route) :
    List Route × AssignResult :=
  if env.databaseUrl = false then
    (table, { success := false, message := some "DATABASE_URL tidak tersedia",
              updated := none, failed := none, skipped := none })
  else
    match env.response with
    | HttpAnswer.refused | HttpAnswer.reset =>
      (table, { success := false, message := some "ScheduleService tidak tersedia",
                updated := some 0, failed := none, skipped := none })
    | HttpAnswer.failed => (table, caught "error")
    | HttpAnswer.answered status success data =>
      let schedules := schedulesOf status success data
      if schedules.length = 0 then
        (table, { success := true, message := some "Tidak ada schedules",
                  updated := some 0, failed := none, skipped := none })
      else if (routeBusMap schedules).length = 0 then
        if env.connect = true ∧ env.countQuery = true then
          (table, { success := true, message := some "Tidak ada routes untuk assign",
                    updated := some 0, failed := none, skipped := none })
        else (table, caught "error")
      else if env.connect = false then (table, caught "error")
      else
        ((schedulePass env.fault table schedules).table,
          caught "safeSchema is not defined")

/-! ## Step 6 of autoAssignFromSchedule (lines 223-385) -/

/-- Which of the three queries of one `try` block of Step 6 throws, if any. -/
inductive Step6Fault where
  | none
  | busUsed
  | recheck
  | update
  deriving DecidableEq, Repr

/-- State of the loops of Step 6 and of `assignBusesToRoutes`: the table, the
set `usedBusIds` and the three counters. -/
structure FallbackRun where
  table : List Route
  usedBusIds : List String
  successCount : Nat
  failCount : Nat
  skipCount : Nat
  deriving DecidableEq, Repr

/-- The order of `ORDER BY CASE WHEN status = 'active' THEN 1 ELSE 2 END`. -/
def statusRank (r : Route) : Nat :=
  if r.status = "active" then 1 else 2

/-- Order of two strings by code points, the `ORDER BY route_code ASC` of a
database with the `C` collation. -/
def charsLe : List Char → List Char → Bool
  | [], _ => true
  | _ :: _, [] => false
  | a :: as, b :: bs =>
    if a.toNat < b.toNat then true
    else if b.toNat < a.toNat then false
    else charsLe as bs

/-- Order of route codes: `a.route_code <= b.route_code`. -/
def codeLe (a b : Route) : Bool :=
  charsLe a.route_code.data b.route_code.data

/-- The order of Step 6: active routes first, then by route code. -/
def activeFirst (a b : Route) : Bool :=
  if statusRank a < statusRank b then true
  else if statusRank b < statusRank a then false
  else codeLe a b

/-- The rows `routesNull` (lines 235-242): routes with `bus_id IS NULL`, active
ones first, then by route code. -/
def routesNull (table : List Route) : List Route :=
  sortBy activeFirst (table.filter (fun r => decide (r.bus_id = none)))

/-- The filter `busId && !usedBusIds.has(busId)` of both scripts. -/
def isUnused (usedBusIds : List String) (bus : Bus) : Bool :=
  match busKey bus with
  | some busId => truthy (some busId) && !(decide (busId ∈ usedBusIds))
  | none => false

/-- The inner `for` loop of Step 6 for one route (lines 300-365).  It returns the
new state and the flag `assigned`. -/
def step6Scan (fault : String → String → Step6Fault) (route : Route) :
    List Bus → FallbackRun → FallbackRun × Bool
  | [], s => (s, false)
  | bus :: rest, s =>
    match busKey bus with
    | none => step6Scan fault route rest s
    | some busId =>
      if truthy (some busId) = false then step6Scan fault route rest s
      else if busId ∈ s.usedBusIds then step6Scan fault route rest s
      else if fault route.id busId = Step6Fault.busUsed then
        step6Scan fault route rest
          { s with failCount := s.failCount + 1, usedBusIds := busId :: s.usedBusIds }
      else if 0 < (busUsedRows s.table busId route.id).length then
        step6Scan fault route rest { s with usedBusIds := busId :: s.usedBusIds }
      else if fault route.id busId = Step6Fault.recheck then
        step6Scan fault route rest
          { s with failCount := s.failCount + 1, usedBusIds := busId :: s.usedBusIds }
      else if 0 < (busUsedRows s.table busId route.id).length then
        step6Scan fault route rest { s with usedBusIds := busId :: s.usedBusIds }
      else if fault route.id busId = Step6Fault.update then
        step6Scan fault route rest
          { s with failCount := s.failCount + 1, usedBusIds := busId :: s.usedBusIds }
      else if 0 < (s.table.filter
          (fun r => decide (r.id = route.id) && decide (r.bus_id = none))).length then
        ({ s with table := updateBusIdIfNull s.table busId route.id,
                  successCount := s.successCount + 1,
                  usedBusIds := busId :: s.usedBusIds }, true)
      else
        step6Scan fault route rest
          { s with table := updateBusIdIfNull s.table busId route.id,
                   usedBusIds := busId :: s.usedBusIds }

/-- The outer loop of Step 6 over `routesNull.rows` (lines 296-373). -/
def step6Loop (fault : String → String → Step6Fault) (unusedBuses : List Bus) :
    List Route → FallbackRun → FallbackRun
  | [], s => s
  | route :: rest, s =>
    match step6Scan fault route unusedBuses s with
    | (s1, true) => step6Loop fault unusedBuses rest s1
    | (s1, false) => step6Loop fault unusedBuses rest { s1 with skipCount := s1.skipCount + 1 }

/-- Step 6 (lines 223-385) for a given list `allBuses`: the state after the
unused-bus assignment, with the counters `unusedSuccessCount`,
`unusedFailCount` and `unusedSkipCount`. -/
def step6 (fault : String → String → Step6Fault) (allBuses : List Bus)
    (table : List Route) : FallbackRun :=
  let start : FallbackRun :=
    { table := table, usedBusIds := usedBusIdsOf table, successCount := 0,
      failCount := 0, skipCount := 0 }
  if 0 < nullCount table then
    let unusedBuses := allBuses.filter (isUnused (usedBusIdsOf table))
    if 0 < unusedBuses.length ∧ 0 < (routesNull table).length then
      step6Loop fault unusedBuses (routesNull table) start
    else start
  else start

/-! ## The assign-bus endpoint (routes/routes.js, lines 1017-1106) -/

/-- The handler of `POST /api/routes/:id/assign-bus` when none of its queries
throws: the table after the request, the status and the `success` flag of the
answer.  `busKnown` is whether `busService.getBusById` finds the bus. -/
def assignBusHandler (busKnown : String → Bool) (table : List Route) (id : String)
    (busId : Option String) : List Route × Nat × Bool :=
  match busId with
  | none => (table, 400, false)
  | some b =>
    if truthy (some b) = false then (table, 400, false)
    else if (selectById table id).length = 0 then (table, 404, false)
    else if busKnown b = false then (table, 400, false)
    else (updateBusId table b id, 200, true)

/-! ## assign-buses-to-routes.js -/

/-- Where the direct-update fallback of `assignBusToRouteWithPool` fails, if it
does: acquiring the client (outside the `try`), the re-check query, or the
`UPDATE`. -/
inductive DirectFault where
  | none
  | connect
  | check
  | update
  deriving DecidableEq, Repr

/-- Where the buses come from: the answer of `GET /api/buses?limit=1000` and the
local `buses` table (its rows in `ORDER BY created_at ASC, plate ASC`). -/
structure BusSource where
  api : HttpAnswer Bus
  dbAccess : Access
  tableExists : Bool
  rows : List Bus

/-- What `assignBusesToRoutes` meets outside the `routes` table. -/
structure AssignEnv where
  /-- the bus service and the local `buses` table -/
  buses : BusSource
  /-- outcome of the query of `getRoutesWithPool` -/
  routesQuery : Access
  /-- outcome of the `SELECT DISTINCT bus_id` query -/
  usedQuery : Access
  /-- per bus id and route id, outcome of the conflict check of line 283 -/
  firstCheck : String → String → Access
  /-- per bus id and route id, outcome of the conflict check of line 366 -/
  secondCheck : String → String → Access
  /-- per route id and bus id, whether the `POST` to the route service is
  answered with a status below 500 -/
  apiAnswers : String → String → Bool
  /-- whether the bus service knows a bus id (`getBusById` inside the handler) -/
  busKnown : String → Bool
  /-- per route id and bus id, the failure of the direct update -/
  direct : String → String → DirectFault

/-- The function `getBusesFromAPI`: `none` stands for `null`. -/
def getBusesFromAPI (src : BusSource) : Option (List Bus) :=
  match src.api with
  | HttpAnswer.answered status success data =>
    if status = 200 ∧ success = true then some (data.getD []) else none
  | _ => none

/-- The function `getBusesFromDatabase`: `none` stands for a rejected promise
(`pool.connect()` is outside the `try`). -/
def getBusesFromDatabase (src : BusSource) : Option (List Bus) :=
  match src.dbAccess with
  | Access.connectError => none
  | Access.queryError => some []
  | Access.ok => if src.tableExists then some (src.rows.take 1000) else some []

/-- The function `getBuses`: `none` stands for a rejected promise. -/
def getBuses (src : BusSource) : Option (List Bus) :=
  match getBusesFromAPI src with
  | some busesFromAPI => some busesFromAPI
  | none =>
    match getBusesFromDatabase src with
    | none => none
    | some busesFromDB => if 0 < busesFromDB.length then some busesFromDB else some []

/-- Order of `numeric_id ASC`: nulls come last. -/
def numericLt : Option Int → Option Int → Bool
  | some a, some b => decide (a < b)
  | some _, none => true
  | none, _ => false

/-- The order of `ORDER BY numeric_id ASC, route_code ASC`. -/
def byNumericId (a b : Route) : Bool :=
  if numericLt a.numeric_id b.numeric_id then true
  else if numericLt b.numeric_id a.numeric_id then false
  else codeLe a b

/-- The rows returned by `getRoutesWithPool` (and by `getRoutes`). -/
def getRoutesWithPool (table : List Route) : List Route :=
  sortBy byNumericId table

/-- The function `checkBusUsedInOtherRoute`: `none` stands for a rejected
promise (`poolInstance.connect()` is outside the `try`). -/
def checkBusUsedInOtherRoute (access : Access) (table : List Route)
    (busId currentRouteId : String) : Option Bool :=
  match access with
  | Access.connectError => none
  | Access.queryError => some true
  | Access.ok => some (decide (0 < (busUsedRows table busId currentRouteId).length))

/-- The function `assignBusToRouteViaAPI`: the table after the call and the
boolean returned. -/
def assignBusToRouteViaAPI (env : AssignEnv) (table : List Route)
    (routeId busId : String) : List Route × Bool :=
  if env.apiAnswers routeId busId then
    match assignBusHandler env.busKnown table routeId (some busId) with
    | (t, status, success) =>
      if status = 200 ∧ success = true then (t, true) else (table, false)
  else (table, false)

/-- The function `assignBusToRouteWithPool`: the table after the call and the
boolean returned, `none` for a rejected promise. -/
def assignBusToRouteWithPool (env : AssignEnv) (table : List Route)
    (routeId busId : String) : List Route × Option Bool :=
  match checkBusUsedInOtherRoute (env.secondCheck busId routeId) table busId routeId with
  | none => (table, none)
  | some true => (table, some false)
  | some false =>
    match assignBusToRouteViaAPI env table routeId busId with
    | (t, true) => (t, some true)
    | (t, false) =>
      if env.direct routeId busId = DirectFault.connect then (t, none)
      else if env.direct routeId busId = DirectFault.check then (t, some false)
      else if 0 < (busUsedRows t busId routeId).length then (t, some false)
      else if env.direct routeId busId = DirectFault.update then (t, some false)
      else (updateBusId t busId routeId, some true)

/-- How the inner loop of `assignBusesToRoutes` ends for one route. -/
inductive Scan where
  | assigned
  | exhausted
  | thrown
  deriving DecidableEq, Repr

/-- The inner `for` loop of `assignBusesToRoutes` for one route (lines 269-303). -/
def scanBuses (env : AssignEnv) (route : Route) :
    List Bus → FallbackRun → FallbackRun × Scan
  | [], s => (s, Scan.exhausted)
  | bus :: rest, s =>
    match busKey bus with
    | none => scanBuses env route rest s
    | some busId =>
      if truthy (some busId) = false then scanBuses env route rest s
      else if busId ∈ s.usedBusIds then scanBuses env route rest s
      else
        match checkBusUsedInOtherRoute (env.firstCheck busId route.id) s.table busId
            route.id with
        | none => (s, Scan.thrown)
        | some true => scanBuses env route rest { s with usedBusIds := busId :: s.usedBusIds }
        | some false =>
          match assignBusToRouteWithPool env s.table route.id busId with
          | (t, none) => ({ s with table := t }, Scan.thrown)
          | (t, some true) =>
            ({ s with table := t, successCount := s.successCount + 1,
                      usedBusIds := busId :: s.usedBusIds }, Scan.assigned)
          | (t, some false) =>
            scanBuses env route rest { s with table := t, usedBusIds := busId :: s.usedBusIds }

/-- The outer loop of `assignBusesToRoutes` over `routesWithoutBus`
(lines 265-310); the flag tells whether an error left the loop. -/
def routeLoop (env : AssignEnv) (unusedBuses : List Bus) :
    List Route → FallbackRun → FallbackRun × Bool
  | [], s => (s, false)
  | route :: rest, s =>
    match scanBuses env route unusedBuses s with
    | (s1, Scan.thrown) => (s1, true)
    | (s1, Scan.assigned) => routeLoop env unusedBuses rest s1
    | (s1, Scan.exhausted) =>
      routeLoop env unusedBuses rest { s1 with skipCount := s1.skipCount + 1 }

/-- The array `routesWithoutBus`: `routes.filter(r => !r.bus_id)`. -/
def routesWithoutBus (routes : List Route) : List Route :=
  routes.filter (fun r => !(truthy r.bus_id))

/-- The array `unusedBuses` of `assignBusesToRoutes` (lines 229-249). -/
def unusedBuses (table : List Route) (buses : List Bus) : List Bus :=
  buses.filter (isUnused (usedBusIdsOf table))

/-- The function `assignBusesToRoutes`: the final table and the resolved object. -/
def assignBusesToRoutes (env : AssignEnv) (table : List Route) :
    List Route × AssignResult :=
  match env.routesQuery with
  | Access.queryError | Access.connectError => (table, caught "error")
  | Access.ok =>
    match getBuses env.buses with
    | none => (table, caught "error")
    | some buses =>
      if (getRoutesWithPool table).length = 0 then
        (table, { success := true, message := some "Tidak ada routes", updated := some 0,
                  failed := none, skipped := none })
      else if buses.length = 0 then
        (table, { success := false, message := some "Tidak ada buses tersedia",
                  updated := some 0, failed := none, skipped := none })
      else if (routesWithoutBus (getRoutesWithPool table)).length = 0 then
        (table, { success := true, message := some "Semua routes sudah ter-assign",
                  updated := some 0, failed := none, skipped := none })
      else
        match env.usedQuery with
        | Access.queryError | Access.connectError => (table, caught "error")
        | Access.ok =>
          if (unusedBuses table buses).length = 0 then
            (table, { success := false, message := some "Semua buses sudah terpakai",
                      updated := some 0, failed := none, skipped := none })
          else
            match routeLoop env (unusedBuses table buses)
                (routesWithoutBus (getRoutesWithPool table))
                { table := table, usedBusIds := usedBusIdsOf table, successCount := 0,
                  failCount := 0, skipCount := 0 } with
            | (s, true) => (s.table, caught "error")
            | (s, false) =>
              (s.table, { success := true, message := none, updated := some s.successCount,
                          failed := some s.failCount, skipped := none })

/-! ## Start-up sequence (scripts/dev.js, Step 5) -/

/-- Step 5 of `dev.js`: `autoAssignFromSchedule` to completion, then
`assignBusesToRoutes`.  It gives the final table and both resolved objects. -/
def step5 (senv : ScheduleEnv) (aenv : AssignEnv) (table : List Route) :
    List Route × AssignResult × AssignResult :=
  let first := autoAssignFromSchedule senv table
  let second := assignBusesToRoutes aenv first.1
  (second.1, first.2, second.2)

/-! ## Properties stated by the specification -/

/-- One bus, one route: two rows that hold the same bus have the same route id. -/
def OneBusOneRoute (table : List Route) : Prop :=
  ∀ r1 ∈ table, ∀ r2 ∈ table, r1.bus_id ≠ none → r1.bus_id = r2.bus_id → r1.id = r2.id

instance (table : List Route) : Decidable (OneBusOneRoute table) := by
  unfold OneBusOneRoute; infer_instance

/-- The table `t1` is reached from `t0` by writes `UPDATE routes SET bus_id = b
WHERE id = r`, each with `r` among `ids`, `b` a non-empty identifier among `keys`
that no other route holds at the moment of the write. -/
inductive Writes (ids keys : List String) : List Route → List Route → Prop where
  | refl (t : List Route) : Writes ids keys t t
  | step {t0 t1 : List Route} (r b : String) :
      Writes ids keys t0 t1 → r ∈ ids → b ∈ keys → b ≠ "" →
      ¬ 0 < (busUsedRows t1 b r).length → Writes ids keys t0 (updateBusId t1 b r)

/-- The bus list `assignBusesToRoutes` works with: the value of `getBuses()`,
empty when that promise is rejected. -/
def busList (env : AssignEnv) : List Bus :=
  (getBuses env.buses).getD []

/-- The identifiers of the buses of `unusedBuses`, in order. -/
def unusedKeys (table : List Route) (buses : List Bus) : List String :=
  (unusedBuses table buses).filterMap busKey

/-- A route table as the store keeps it: `id` is the key of the table, and
`bus_id` is `NULL` or a non-empty identifier (bus identifiers are the keys of
the bus service; the handlers of `routes.js` store `busId || null`). -/
def WellFormed (table : List Route) : Prop :=
  (table.map (fun r => r.id)).Nodup ∧ ∀ r ∈ table, r.bus_id ≠ some ""

instance (table : List Route) : Decidable (WellFormed table) := by
  unfold WellFormed; infer_instance

/-- An example row: an active route with the given id (also its code). -/
def exRoute (id : String) (bus : Option String) (status : String) (n : Int) : Route :=
  { id := id, route_name := id, route_code := id, status := status, bus_id := bus,
    numeric_id := some n }

/-- An example schedule entry. -/
def exSchedule (routeId busId : String) (time : Int) : Schedule :=
  { routeId := some routeId, busId := some busId, time := some time, routeName := none,
    routeCode := none }

/-- An example bus. -/
def exBus (id : String) : Bus :=
  { id := some id, uuid := none, plate := id }

/-- An environment of `autoAssignFromSchedule` in which the schedule service
answers with the given feed and no query fails. -/
def exScheduleEnv (feed : List Schedule) : ScheduleEnv :=
  { databaseUrl := true, response := HttpAnswer.answered 200 true (some feed),
    connect := true, countQuery := true, fault := fun _ => QueryFault.none }

/-- An environment of `assignBusesToRoutes` in which the bus service answers
with the given buses, the route service is unreachable and no query fails. -/
def exAssignEnv (buses : List Bus) : AssignEnv :=
  { buses := { api := HttpAnswer.answered 200 true (some buses), dbAccess := Access.ok,
               tableExists := true, rows := [] },
    routesQuery := Access.ok, usedQuery := Access.ok,
    firstCheck := fun _ _ => Access.ok, secondCheck := fun _ _ => Access.ok,
    apiAnswers := fun _ _ => false, busKnown := fun _ => true,
    direct := fun _ _ => DirectFault.none }

/-- The test an entry must pass to be the selection of route `r`: a truthy
`routeId` equal to `r` and a truthy `busId`. -/
def selectable (r : String) (e : Schedule) : Bool :=
  truthy e.routeId && truthy e.busId && decide (e.routeId = some r)

/-- What the loop keeps true of the list of updates while the keys still to come
are distinct from the routes already updated. -/
def LogInv (table0 : List Route) (s : ScheduleRun) (keys : List String) : Prop :=
  (s.assigned.map Prod.snd).Nodup ∧
    (∀ rb ∈ s.assigned, rb.1 ∉ keys ∧ ∃ x ∈ s.table, x.id = rb.1 ∧ x.bus_id = some rb.2) ∧
    (∀ x ∈ s.table, x ∈ table0 ∨ ∃ rb ∈ s.assigned, x.id = rb.1 ∧ x.bus_id = some rb.2)

/-- The table `t1` keeps every row of `t0` that holds a bus, and has the same
route ids in the same order. -/
def KeepsBound (t0 t1 : List Route) : Prop :=
  (∀ x ∈ t0, x.bus_id ≠ none → x ∈ t1) ∧ t1.map (fun r => r.id) = t0.map (fun r => r.id)

/-- Every store query and every direct update of `assignBusesToRoutes` succeeds,
and `getBuses()` resolves.  (The route service may answer or not.) -/
def NoFaults (env : AssignEnv) : Prop :=
  env.routesQuery = Access.ok ∧ env.usedQuery = Access.ok ∧
    (∀ b r, env.firstCheck b r = Access.ok) ∧ (∀ b r, env.secondCheck b r = Access.ok) ∧
    (∀ r b, env.direct r b = DirectFault.none) ∧ getBuses env.buses ≠ none

/-- An environment like `exAssignEnv` in which the conflict check of line 283
throws for bus `B1` and route `R1`. -/
def exFailClosedEnv (buses : List Bus) : AssignEnv :=
  { exAssignEnv buses with
    firstCheck := fun b r => if b = "B1" ∧ r = "R1" then Access.queryError else Access.ok }

/-- The schedule list `autoAssignFromSchedule` groups: the feed of an answer
that did not throw, empty otherwise. -/
def feedOf (env : ScheduleEnv) : List Schedule :=
  match env.response with
  | HttpAnswer.answered status success data => schedulesOf status success data
  | _ => []

/-- The selection `kv` is settled in a table: every row of its route holds the
selected bus, or another route holds that bus. -/
def SettledFor (table : List Route) (kv : String × Selection) : Prop :=
  ∀ x ∈ table, x.id = kv.1 →
    x.bus_id = some kv.2.busId ∨ ∃ y ∈ table, y.bus_id = some kv.2.busId ∧ y.id ≠ kv.1

/-- No route is bound to a bus other than the one the schedule selects for it. -/
def AgreesWithSchedule (table : List Route) (schedules : List Schedule) : Prop :=
  ∀ x ∈ table, x.bus_id = none ∨ selectedBus schedules x.id = none ∨
    selectedBus schedules x.id = x.bus_id

instance (table : List Route) (schedules : List Schedule) :
    Decidable (AgreesWithSchedule table schedules) := by
  unfold AgreesWithSchedule; infer_instance

/-- An environment like `exAssignEnv` in which the direct `UPDATE` of bus `B1`
on route `R1` throws. -/
def exWriteFailEnv (buses : List Bus) : AssignEnv :=
  { exAssignEnv buses with
    direct := fun r b => if r = "R1" ∧ b = "B1" then DirectFault.update else DirectFault.none }

/-- The table `t1` is reached from `t0` by writes `UPDATE routes SET bus_id = b
WHERE id = r`, each for a pair of route id `r` and bus id `b` that satisfies
`ok`. -/
inductive WritesOf (ok : String → String → Prop) : List Route → List Route → Prop where
  | refl (t : List Route) : WritesOf ok t t
  | step {t0 t1 : List Route} (r b : String) :
      WritesOf ok t0 t1 → ok r b → WritesOf ok t0 (updateBusId t1 b r)

/-- Both conflict checks of `assignBusesToRoutes` for a route and a bus run
their query without error. -/
def ChecksRun (env : AssignEnv) (r b : String) : Prop :=
  env.firstCheck b r = Access.ok ∧ env.secondCheck b r = Access.ok

/-- An environment of `autoAssignFromSchedule` in which the schedule request
throws an error other than `ECONNREFUSED` and `ECONNRESET` (a timeout, a status
of 500 or above). -/
def exTimeoutEnv : ScheduleEnv :=
  { exScheduleEnv [] with response := HttpAnswer.failed }

/-- No acquisition of a store client fails inside the loop of
`assignBusesToRoutes`: `poolInstance.connect()` resolves in both conflict
checks and in the direct update.  (The queries themselves may throw.) -/
def NoConnectError (env : AssignEnv) : Prop :=
  (∀ b r, env.firstCheck b r ≠ Access.connectError) ∧
    (∀ b r, env.secondCheck b r ≠ Access.connectError) ∧
    (∀ r b, env.direct r b ≠ DirectFault.connect)

/-- An environment like `exAssignEnv` in which acquiring the client of the
conflict check of line 283 fails for bus `B1` and route `R1`. -/
def exConnectFailEnv (buses : List Bus) : AssignEnv :=
  { exAssignEnv buses with
    firstCheck := fun b r => if b = "B1" ∧ r = "R1" then Access.connectError else Access.ok }

/-- An example schedule entry of a route with an empty `busId`. -/
def exScheduleNoBus (routeId : String) (time : Int) : Schedule :=
  { routeId := some routeId, busId := some "", time := some time, routeName := none,
    routeCode := none }

/-- The array `allBuses` of Step 6 of `autoAssignFromSchedule` (lines 252-282):
an answer of the bus service that is not successful leaves it empty, and only a
thrown request reads the local `buses` table (first 100 rows), on the client of
the pass; `none` stands for a query of that read that throws, which no `try`
of Step 6 catches. -/
def step6Buses (src : BusSource) : Option (List Bus) :=
  match src.api with
  | HttpAnswer.answered status success data =>
    if status = 200 ∧ success = true then some (data.getD []) else some []
  | _ =>
    match src.dbAccess with
    | Access.ok => if src.tableExists then some (src.rows.take 100) else some []
    | _ => none

/-- A bus source whose service answers with the given outcome and whose local
`buses` table holds the given rows. -/
def exBusSource (api : HttpAnswer Bus) (rows : List Bus) : BusSource :=
  { api := api, dbAccess := Access.ok, tableExists := true, rows := rows }

/-- The columns of a route other than `bus_id`: id, name, code, status and
`numeric_id`. -/
def frameOf (r : Route) : String × String × String × String × Option Int :=
  (r.id, r.route_name, r.route_code, r.status, r.numeric_id)

/-! ## The assign-buses trigger (routes/routes.js, lines 200-253) -/

/-- The function `assignBusesToRoutes` when its reads before the loop
(`getRoutesWithPool`, the `SELECT DISTINCT bus_id` query; lines 202-243) see the
table `seen` and its loop (lines 265-310) then runs on the table `table`.  Run
alone, both are the same table. -/
def assignBusesToRoutesFrom (env : AssignEnv) (seen table : List Route) :
    List Route × AssignResult :=
  match env.routesQuery with
  | Access.queryError | Access.connectError => (table, caught "error")
  | Access.ok =>
    match getBuses env.buses with
    | none => (table, caught "error")
    | some buses =>
      if (getRoutesWithPool seen).length = 0 then
        (table, { success := true, message := some "Tidak ada routes", updated := some 0,
                  failed := none, skipped := none })
      else if buses.length = 0 then
        (table, { success := false, message := some "Tidak ada buses tersedia",
                  updated := some 0, failed := none, skipped := none })
      else if (routesWithoutBus (getRoutesWithPool seen)).length = 0 then
        (table, { success := true, message := some "Semua routes sudah ter-assign",
                  updated := some 0, failed := none, skipped := none })
      else
        match env.usedQuery with
        | Access.queryError | Access.connectError => (table, caught "error")
        | Access.ok =>
          if (unusedBuses seen buses).length = 0 then
            (table, { success := false, message := some "Semua buses sudah terpakai",
                      updated := some 0, failed := none, skipped := none })
          else
            match routeLoop env (unusedBuses seen buses)
                (routesWithoutBus (getRoutesWithPool seen))
                { table := table, usedBusIds := usedBusIdsOf seen, successCount := 0,
                  failCount := 0, skipCount := 0 } with
            | (s, true) => (s.table, caught "error")
            | (s, false) =>
              (s.table, { success := true, message := none, updated := some s.successCount,
                          failed := some s.failCount, skipped := none })

/-- Three of the orders in which the event loop may resume the two passes that
the handler of `POST /assign-buses` starts together in `Promise.all`
(lines 212-221): every `await` of `autoAssignFromSchedule` resolves before the
first read of `assignBusesToRoutes`; `assignBusesToRoutes` completes before the
schedule request is answered; or the reads of `assignBusesToRoutes` resolve
first, then `autoAssignFromSchedule` runs, then the loop of
`assignBusesToRoutes`. -/
inductive Resumption where
  | scheduleFirst
  | fallbackFirst
  | readsThenSchedule
  deriving DecidableEq, Repr

/-- The route table after the two passes started by the handler of
`POST /assign-buses` have completed, for an order of resumption. -/
def assignBusesTrigger (order : Resumption) (senv : ScheduleEnv) (aenv : AssignEnv)
    (table : List Route) : List Route :=
  match order with
  | Resumption.scheduleFirst =>
    (assignBusesToRoutes aenv (autoAssignFromSchedule senv table).1).1
  | Resumption.fallbackFirst =>
    (autoAssignFromSchedule senv (assignBusesToRoutes aenv table).1).1
  | Resumption.readsThenSchedule =>
    (assignBusesToRoutesFrom aenv table (autoAssignFromSchedule senv table).1).1

/-! ## sync-bus-quick.js and sync-bus-from-schedule.js -/

/-- The value the sync scripts store in their `routeBusMap`: `{ busId, time }`. -/
structure Kept where
  busId : String
  time : Option Int
  deriving DecidableEq, Repr

/-- The test `schedule.time && existing.time &&
new Date(schedule.time) > new Date(existing.time)`. -/
def strictlyLater (time existing : Option Int) : Bool :=
  match time, existing with
  | some t, some u => decide (u < t)
  | _, _ => false

/-- One call of the `forEach` callback of `syncBusFromSchedule`
(sync-bus-quick.js, lines 77-86) and of `main` (sync-bus-from-schedule.js,
lines 110-119): an entry with a truthy `routeId` and `busId` is stored when the
map has no entry for its route, and replaces the stored one when its time is
strictly later (`Map.set` keeps the position of an existing key). -/
def syncGroupStep (m : List (String × Kept)) (e : Schedule) : List (String × Kept) :=
  match e.routeId, e.busId with
  | some r, some b =>
    if truthy (some r) && truthy (some b) then
      match m.find? (fun kv => decide (kv.1 = r)) with
      | none => m ++ [(r, { busId := b, time := e.time })]
      | some existing =>
        if strictlyLater e.time existing.2.time then
          m.map (fun kv => if kv.1 = r then (r, { busId := b, time := e.time }) else kv)
        else m
    else m
  | _, _ => m

/-- The map `routeBusMap` of the sync scripts: a single left-to-right scan. -/
def syncRouteBusMap (schedules : List Schedule) : List (String × Kept) :=
  schedules.foldl syncGroupStep []

/-- The bus the sync scripts select for a route. -/
def syncSelectedBus (schedules : List Schedule) (routeId : String) : Option String :=
  ((syncRouteBusMap schedules).find? (fun kv => decide (kv.1 = routeId))).map
    (fun kv => kv.2.busId)

/-- Which of the two queries of one loop iteration of `syncBusFromSchedule`
throws, if any. -/
inductive SyncFault where
  | none
  | check
  | update
  deriving DecidableEq, Repr

/-- One iteration of the loop of `syncBusFromSchedule` (sync-bus-quick.js,
lines 103-137): the row is read, a missing route or an equal bus is skipped,
and otherwise the bus is written, with no query on the other routes. -/
def syncStep (fault : String → SyncFault) (s : ScheduleRun) (entry : String × Kept) :
    ScheduleRun :=
  let routeId := entry.1
  let busId := entry.2.busId
  if fault routeId = SyncFault.check then { s with failCount := s.failCount + 1 }
  else
    match selectById s.table routeId with
    | [] => { s with skipCount := s.skipCount + 1 }
    | currentRoute :: _ =>
      if currentRoute.bus_id = some busId then { s with skipCount := s.skipCount + 1 }
      else if fault routeId = SyncFault.update then { s with failCount := s.failCount + 1 }
      else if 0 < (selectById s.table routeId).length then
        { s with table := updateBusId s.table busId routeId,
                 successCount := s.successCount + 1,
                 assigned := s.assigned ++ [(routeId, busId)] }
      else { s with table := updateBusId s.table busId routeId }

/-- The loop of `syncBusFromSchedule` over the entries of its `routeBusMap`. -/
def syncLoop (fault : String → SyncFault) (s : ScheduleRun) (entries : List (String × Kept)) :
    ScheduleRun :=
  entries.foldl (syncStep fault) s

/-- What `syncBusFromSchedule` meets outside the `routes` table. -/
structure SyncEnv where
  /-- the answer of `GET /api/schedules?limit=1000` -/
  response : HttpAnswer Schedule
  /-- `pool.connect()` resolves -/
  connect : Bool
  /-- per route id, the query of its loop iteration that throws -/
  fault : String → SyncFault

/-- The function `syncBusFromSchedule` (sync-bus-quick.js, lines 47-152): the
final table and the resolved object.  Only `ECONNREFUSED` is answered on the
spot; any other error of the request reaches the outer `catch`. -/
def syncBusFromSchedule (env : SyncEnv) (table : List Route) : List Route × AssignResult :=
  match env.response with
  | HttpAnswer.refused =>
    (table, { success := false, message := some "ScheduleService tidak tersedia",
              updated := none, failed := none, skipped := none })
  | HttpAnswer.reset | HttpAnswer.failed => (table, caught "error")
  | HttpAnswer.answered status success data =>
    let schedules := schedulesOf status success data
    if schedules.length = 0 then
      (table, { success := true, message := some "Tidak ada schedules", updated := some 0,
                failed := none, skipped := none })
    else if (syncRouteBusMap schedules).length = 0 then
      (table, { success := true, message := some "Tidak ada routes untuk update",
                updated := some 0, failed := none, skipped := none })
    else if env.connect = false then (table, caught "error")
    else
      let run := syncLoop env.fault
        { table := table, successCount := 0, skipCount := 0, failCount := 0, assigned := [] }
        (syncRouteBusMap schedules)
      (run.table, { success := true, message := none, updated := some run.successCount,
                    failed := some run.failCount, skipped := none })

/-- An environment of `syncBusFromSchedule` in which the schedule service
answers with the given feed and no query fails. -/
def exSyncEnv (feed : List Schedule) : SyncEnv :=
  { response := HttpAnswer.answered 200 true (some feed), connect := true,
    fault := fun _ => SyncFault.none }

/-- The entry the scan keeps for route `r`, given the entry kept so far. -/
def keepLater (r : String) (acc : Option Schedule) (e : Schedule) : Option Schedule :=
  if selectable r e then
    match acc with
    | none => some e
    | some a => if strictlyLater e.time a.time then some e else some a
  else acc

/-- The value stored for a kept entry. -/
def keptOf (e : Schedule) : Kept :=
  { busId := e.busId.getD "", time := e.time }

/-! ## `main` of assign-buses-to-routes.js (lines 442-479) -/

/-- The function `assignBusToRouteDirect` (lines 162-178): `none` stands for a
rejected promise (`pool.connect()` is outside the `try`).  It has no re-check
query, so of the failures of `env.direct` only `connect` and `update` apply. -/
def assignBusToRouteDirect (env : AssignEnv) (table : List Route) (routeId busId : String) :
    List Route × Option Bool :=
  if env.direct routeId busId = DirectFault.connect then (table, none)
  else if env.direct routeId busId = DirectFault.update then (table, some false)
  else (updateBusId table busId routeId, some true)

/-- The function `assignBusToRoute` (lines 180-190): the route service first,
then the direct update; no query on the other routes. -/
def assignBusToRoute (env : AssignEnv) (table : List Route) (routeId busId : String) :
    List Route × Option Bool :=
  match assignBusToRouteViaAPI env table routeId busId with
  | (t, true) => (t, some true)
  | (t, false) => assignBusToRouteDirect env t routeId busId

/-- The loop `for (let i = 0; i < maxAssign; i++)` of `main` over the pairs of
`routesWithoutBus[i]` and `buses[i]`: the table the updates leave and whether
an error left the loop.  (A bus without `id` does not reach the loop: the
listing of the buses before it throws on `bus.id.substring`.) -/
def mainLoop (env : AssignEnv) : List (Route × Bus) → List Route → List Route × Bool
  | [], table => (table, false)
  | (route, bus) :: rest, table =>
    match bus.id with
    | none => (table, true)
    | some busId =>
      match assignBusToRoute env table route.id busId with
      | (t, none) => (t, true)
      | (t, some _) => mainLoop env rest t

/-- The function `main` of assign-buses-to-routes.js, run when the script is
called directly: the final table and whether the run ended in its `catch`
(`process.exit(1)`). -/
def main (env : AssignEnv) (table : List Route) : List Route × Bool :=
  match env.routesQuery with
  | Access.queryError | Access.connectError => (table, true)
  | Access.ok =>
    match getBuses env.buses with
    | none => (table, true)
    | some buses =>
      if (getRoutesWithPool table).length = 0 then (table, false)
      else if buses.length = 0 then (table, false)
      else if (routesWithoutBus (getRoutesWithPool table)).length = 0 then (table, false)
      else if buses.any (fun bus => decide (bus.id = none)) then (table, true)
      else mainLoop env ((routesWithoutBus (getRoutesWithPool table)).zip buses) table

/-! ## The attempts of one run of `assignBusesToRoutes` -/

/-- One attempt of the loop of `assignBusesToRoutes`: the route, the bus id
passed to the conflict check of line 283, and whether
`assignBusToRouteWithPool` was then called for the pair (line 290). -/
structure Attempt where
  routeId : String
  busId : String
  write : Bool
  deriving DecidableEq, Repr

/-- The loop `scanBuses` together with the list of its attempts, in order. -/
def scanBusesLog (env : AssignEnv) (route : Route) :
    List Bus → FallbackRun → List Attempt → FallbackRun × Scan × List Attempt
  | [], s, log => (s, Scan.exhausted, log)
  | bus :: rest, s, log =>
    match busKey bus with
    | none => scanBusesLog env route rest s log
    | some busId =>
      if truthy (some busId) = false then scanBusesLog env route rest s log
      else if busId ∈ s.usedBusIds then scanBusesLog env route rest s log
      else
        match checkBusUsedInOtherRoute (env.firstCheck busId route.id) s.table busId
            route.id with
        | none =>
          (s, Scan.thrown, log ++ [{ routeId := route.id, busId := busId, write := false }])
        | some true =>
          scanBusesLog env route rest { s with usedBusIds := busId :: s.usedBusIds }
            (log ++ [{ routeId := route.id, busId := busId, write := false }])
        | some false =>
          match assignBusToRouteWithPool env s.table route.id busId with
          | (t, none) =>
            ({ s with table := t }, Scan.thrown,
              log ++ [{ routeId := route.id, busId := busId, write := true }])
          | (t, some true) =>
            ({ s with table := t, successCount := s.successCount + 1,
                      usedBusIds := busId :: s.usedBusIds }, Scan.assigned,
              log ++ [{ routeId := route.id, busId := busId, write := true }])
          | (t, some false) =>
            scanBusesLog env route rest
              { s with table := t, usedBusIds := busId :: s.usedBusIds }
              (log ++ [{ routeId := route.id, busId := busId, write := true }])

/-- The loop `routeLoop` together with the list of its attempts, in order. -/
def routeLoopLog (env : AssignEnv) (unusedBuses : List Bus) :
    List Route → FallbackRun → List Attempt → FallbackRun × Bool × List Attempt
  | [], s, log => (s, false, log)
  | route :: rest, s, log =>
    match scanBusesLog env route unusedBuses s log with
    | (s1, Scan.thrown, log1) => (s1, true, log1)
    | (s1, Scan.assigned, log1) => routeLoopLog env unusedBuses rest s1 log1
    | (s1, Scan.exhausted, log1) =>
      routeLoopLog env unusedBuses rest { s1 with skipCount := s1.skipCount + 1 } log1

/-- The attempts of one run of `assignBusesToRoutes`: those of its loop, none
when the run returns before the loop. -/
def attemptsOf (env : AssignEnv) (table : List Route) : List Attempt :=
  match env.routesQuery with
  | Access.queryError | Access.connectError => []
  | Access.ok =>
    match getBuses env.buses with
    | none => []
    | some buses =>
      if (getRoutesWithPool table).length = 0 then []
      else if buses.length = 0 then []
      else if (routesWithoutBus (getRoutesWithPool table)).length = 0 then []
      else
        match env.usedQuery with
        | Access.queryError | Access.connectError => []
        | Access.ok =>
          if (unusedBuses table buses).length = 0 then []
          else
            (routeLoopLog env (unusedBuses table buses)
              (routesWithoutBus (getRoutesWithPool table))
              { table := table, usedBusIds := usedBusIdsOf table, successCount := 0,
                failCount := 0, skipCount := 0 } []).2.2

/-! ## Lemmas on the SQL statements -/

theorem busUsedRows_pos_iff (table : List Route) (busId routeId : String) :
    0 < (busUsedRows table busId routeId).length ↔
      ∃ x ∈ table, x.bus_id = some busId ∧ x.id ≠ routeId := by
  unfold busUsedRows
  rw [List.length_pos_iff_exists_mem]
  constructor
  · rintro ⟨x, hx⟩
    rw [List.mem_filter] at hx
    refine ⟨x, hx.1, ?_⟩
    simpa using hx.2
  · rintro ⟨x, hx, h1, h2⟩
    refine ⟨x, ?_⟩
    rw [List.mem_filter]
    exact ⟨hx, by simp [h1, h2]⟩

theorem mem_updateBusId {table : List Route} {busId routeId : String} {r : Route} :
    r ∈ updateBusId table busId routeId ↔
      ∃ x ∈ table, r = if x.id = routeId then { x with bus_id := some busId } else x := by
  unfold updateBusId
  rw [List.mem_map]
  constructor
  · rintro ⟨x, hx, rfl⟩; exact ⟨x, hx, rfl⟩
  · rintro ⟨x, hx, rfl⟩; exact ⟨x, hx, rfl⟩

/-- Writing a bus that no other route holds keeps one bus, one route. -/
theorem oneBusOneRoute_updateBusId {table : List Route} {busId routeId : String}
    (h : OneBusOneRoute table)
    (hfree : ¬ 0 < (busUsedRows table busId routeId).length) :
    OneBusOneRoute (updateBusId table busId routeId) := by
  rw [busUsedRows_pos_iff] at hfree
  intro r1 h1 r2 h2 hne heq
  obtain ⟨x1, hx1, rfl⟩ := mem_updateBusId.1 h1
  obtain ⟨x2, hx2, rfl⟩ := mem_updateBusId.1 h2
  by_cases c1 : x1.id = routeId <;> by_cases c2 : x2.id = routeId
  · simp [c1, c2]
  · simp only [c1, c2, if_true, if_false] at heq ⊢
    exact absurd ⟨x2, hx2, heq.symm, c2⟩ hfree
  · simp only [c1, c2, if_true, if_false] at heq ⊢
    exact absurd ⟨x1, hx1, heq, c1⟩ hfree
  · simp only [c1, c2, if_false] at heq hne ⊢
    exact h x1 hx1 x2 hx2 hne heq

/-! ## Lemmas on the schedule pass -/

/-- One iteration either leaves the table and the list of updates, or writes the
selected bus to a route that exists and appends the update to the list. -/
theorem scheduleStep_spec (fault : String → QueryFault) (s : ScheduleRun)
    (entry : String × Selection) :
    ((scheduleStep fault s entry).table = s.table ∧
        (scheduleStep fault s entry).assigned = s.assigned ∧
        (scheduleStep fault s entry).successCount = s.successCount) ∨
      ((scheduleStep fault s entry).table = updateBusId s.table entry.2.busId entry.1 ∧
        (scheduleStep fault s entry).assigned = s.assigned ++ [(entry.1, entry.2.busId)] ∧
        (scheduleStep fault s entry).successCount = s.successCount + 1 ∧
        ¬ 0 < (busUsedRows s.table entry.2.busId entry.1).length ∧
        (∃ x ∈ s.table, x.id = entry.1 ∧ x.bus_id ≠ some entry.2.busId)) := by
  unfold scheduleStep
  by_cases h1 : fault entry.1 = QueryFault.check
  · rw [if_pos h1]; exact Or.inl ⟨rfl, rfl, rfl⟩
  · rw [if_neg h1]
    cases hsel : selectById s.table entry.1 with
    | nil => exact Or.inl ⟨rfl, rfl, rfl⟩
    | cons cur rest =>
      have hcur : cur ∈ selectById s.table entry.1 := by rw [hsel]; exact List.mem_cons_self _ _
      unfold selectById at hcur
      rw [List.mem_filter] at hcur
      have hid : cur.id = entry.1 := by simpa using hcur.2
      simp only
      split_ifs with h2 h3 h4 h5 h6
      · exact Or.inl ⟨rfl, rfl, rfl⟩
      · exact Or.inl ⟨rfl, rfl, rfl⟩
      · exact Or.inl ⟨rfl, rfl, rfl⟩
      · exact Or.inl ⟨rfl, rfl, rfl⟩
      · exact Or.inr ⟨rfl, rfl, rfl, h4, cur, hcur.1, hid, h2⟩
      · exact absurd (by simp) h6

theorem scheduleStep_oneBusOneRoute (fault : String → QueryFault) (s : ScheduleRun)
    (entry : String × Selection) (h : OneBusOneRoute s.table) :
    OneBusOneRoute (scheduleStep fault s entry).table := by
  rcases scheduleStep_spec fault s entry with ⟨h1, _⟩ | ⟨h1, _, _, h2, _⟩
  · rw [h1]; exact h
  · rw [h1]; exact oneBusOneRoute_updateBusId h h2

theorem scheduleLoop_oneBusOneRoute (fault : String → QueryFault)
    (entries : List (String × Selection)) :
    ∀ s : ScheduleRun, OneBusOneRoute s.table →
      OneBusOneRoute (scheduleLoop fault s entries).table := by
  induction entries with
  | nil => intro s h; exact h
  | cons e es ih =>
    intro s h
    exact ih (scheduleStep fault s e) (scheduleStep_oneBusOneRoute fault s e h)

/-- The table `autoAssignFromSchedule` leaves is the initial one or the one the
schedule pass leaves for some schedule list. -/
theorem autoAssignFromSchedule_table (env : ScheduleEnv) (table : List Route) :
    (autoAssignFromSchedule env table).1 = table ∨
      ∃ schedules, (autoAssignFromSchedule env table).1 =
        (schedulePass env.fault table schedules).table := by
  unfold autoAssignFromSchedule
  by_cases h1 : env.databaseUrl = false
  · rw [if_pos h1]; exact Or.inl rfl
  · rw [if_neg h1]
    cases env.response with
    | refused => exact Or.inl rfl
    | reset => exact Or.inl rfl
    | failed => exact Or.inl rfl
    | answered status success data =>
      simp only
      split_ifs
      · exact Or.inl rfl
      · exact Or.inl rfl
      · exact Or.inl rfl
      · exact Or.inl rfl
      · exact Or.inr ⟨_, rfl⟩

/-! ## C1 -/

/-- C1: the schedule-derived pass preserves one-bus-one-route.  For every
outcome of the queries, every route table in which no bus is the `bus_id` of two
different routes and every schedule list, the table after the loop over
`routeBusMap` still has no bus that is the `bus_id` of two different routes; the
same holds for the table `autoAssignFromSchedule` leaves. -/
theorem schedulePass_preserves_oneBusOneRoute (fault : String → QueryFault)
    (env : ScheduleEnv) (table : List Route) (schedules : List Schedule)
    (h : OneBusOneRoute table) :
    OneBusOneRoute (schedulePass fault table schedules).table ∧
      OneBusOneRoute (autoAssignFromSchedule env table).1 := by
  refine ⟨scheduleLoop_oneBusOneRoute fault _ _ h, ?_⟩
  rcases autoAssignFromSchedule_table env table with h1 | ⟨l, h1⟩
  · rw [h1]; exact h
  · rw [h1]; exact scheduleLoop_oneBusOneRoute env.fault _ _ h

/-- Witness of C1: a table with one bound and one unbound route. -/
theorem schedulePass_preserves_oneBusOneRoute_witness :
    OneBusOneRoute [exRoute "R1" (some "B1") "active" 1, exRoute "R2" none "active" 2] ∧
      (OneBusOneRoute (schedulePass (fun _ => QueryFault.none)
          [exRoute "R1" (some "B1") "active" 1, exRoute "R2" none "active" 2]
          [exSchedule "R2" "B1" 2, exSchedule "R1" "B2" 1]).table ∧
        OneBusOneRoute (autoAssignFromSchedule
          (exScheduleEnv [exSchedule "R2" "B1" 2, exSchedule "R1" "B2" 1])
          [exRoute "R1" (some "B1") "active" 1, exRoute "R2" none "active" 2]).1) :=
  ⟨by decide, schedulePass_preserves_oneBusOneRoute _ _ _ _ (by decide)⟩

/-! ## Lemmas on the writes of assign-buses-to-routes.js -/

theorem assignBusToRouteViaAPI_spec (env : AssignEnv) (table : List Route)
    (routeId busId : String) :
    assignBusToRouteViaAPI env table routeId busId = (updateBusId table busId routeId, true) ∨
      assignBusToRouteViaAPI env table routeId busId = (table, false) := by
  unfold assignBusToRouteViaAPI assignBusHandler
  by_cases h1 : env.apiAnswers routeId busId = true
  · rw [if_pos h1]
    simp only
    split_ifs <;> simp_all
  · rw [if_neg h1]; exact Or.inr rfl

/-- A call of `assignBusToRouteWithPool` either leaves the table and does not
return `true`, or returns `true` after writing a bus that no other route held. -/
theorem assignBusToRouteWithPool_spec (env : AssignEnv) (table : List Route)
    (routeId busId : String) :
    ((assignBusToRouteWithPool env table routeId busId).1 = table ∧
        (assignBusToRouteWithPool env table routeId busId).2 ≠ some true) ∨
      ((assignBusToRouteWithPool env table routeId busId).1 = updateBusId table busId routeId ∧
        (assignBusToRouteWithPool env table routeId busId).2 = some true ∧
        ¬ 0 < (busUsedRows table busId routeId).length) := by
  unfold assignBusToRouteWithPool checkBusUsedInOtherRoute
  cases env.secondCheck busId routeId with
  | connectError => exact Or.inl ⟨rfl, by simp⟩
  | queryError => exact Or.inl ⟨rfl, by simp⟩
  | ok =>
    by_cases hc : 0 < (busUsedRows table busId routeId).length
    · simp [hc]
    · rcases assignBusToRouteViaAPI_spec env table routeId busId with h | h
      · simp [hc, h]
      · simp only [hc, decide_False, h]
        split_ifs <;> simp [hc]

theorem Writes.trans {ids keys : List String} {t0 t1 t2 : List Route}
    (h01 : Writes ids keys t0 t1) (h12 : Writes ids keys t1 t2) : Writes ids keys t0 t2 := by
  induction h12 with
  | refl => exact h01
  | step r b _ hr hb hne hfree ih => exact Writes.step r b ih hr hb hne hfree

theorem Writes.oneBusOneRoute {ids keys : List String} {t0 t1 : List Route}
    (h : Writes ids keys t0 t1) (h0 : OneBusOneRoute t0) : OneBusOneRoute t1 := by
  induction h with
  | refl => exact h0
  | step r b _ _ _ _ hfree ih => exact oneBusOneRoute_updateBusId ih hfree

theorem scanBuses_writes (env : AssignEnv) (route : Route) (ids keys : List String)
    (hr : route.id ∈ ids) (bs : List Bus)
    (hb : ∀ bus ∈ bs, ∀ k, busKey bus = some k → k ∈ keys) :
    ∀ s : FallbackRun, Writes ids keys s.table (scanBuses env route bs s).1.table := by
  induction bs with
  | nil => intro s; exact Writes.refl _
  | cons bus rest ih =>
    have ih1 := ih (fun b hb1 => hb b (List.mem_cons_of_mem _ hb1))
    intro s
    unfold scanBuses
    cases hk : busKey bus with
    | none => exact ih1 s
    | some busId =>
      have hkey : busId ∈ keys := hb bus (List.mem_cons_self _ _) busId hk
      simp only
      by_cases h1 : truthy (some busId) = false
      · rw [if_pos h1]; exact ih1 s
      · rw [if_neg h1]
        have hne : busId ≠ "" := by
          intro h; apply h1; simp [truthy, h]
        by_cases h2 : busId ∈ s.usedBusIds
        · rw [if_pos h2]; exact ih1 s
        · rw [if_neg h2]
          cases hc : checkBusUsedInOtherRoute (env.firstCheck busId route.id) s.table busId
              route.id with
          | none => exact Writes.refl _
          | some used =>
            cases used with
            | true => exact ih1 { s with usedBusIds := busId :: s.usedBusIds }
            | false =>
              simp only
              have hspec := assignBusToRouteWithPool_spec env s.table route.id busId
              cases ha : assignBusToRouteWithPool env s.table route.id busId with
              | mk t res =>
                rw [ha] at hspec
                simp only at hspec
                have hw : Writes ids keys s.table t := by
                  rcases hspec with ⟨h, _⟩ | ⟨h, _, hfree⟩
                  · rw [h]; exact Writes.refl _
                  · rw [h]; exact Writes.step route.id busId (Writes.refl _) hr hkey hne hfree
                cases res with
                | none => exact hw
                | some ok =>
                  cases ok with
                  | true => exact hw
                  | false =>
                    exact Writes.trans hw
                      (ih1 { s with table := t, usedBusIds := busId :: s.usedBusIds })

theorem routeLoop_writes (env : AssignEnv) (unused : List Bus) (ids keys : List String)
    (hb : ∀ bus ∈ unused, ∀ k, busKey bus = some k → k ∈ keys) (routes : List Route)
    (hr : ∀ r ∈ routes, r.id ∈ ids) :
    ∀ s : FallbackRun, Writes ids keys s.table (routeLoop env unused routes s).1.table := by
  induction routes with
  | nil => intro s; exact Writes.refl _
  | cons route rest ih =>
    have ih1 := ih (fun r hr1 => hr r (List.mem_cons_of_mem _ hr1))
    intro s
    unfold routeLoop
    have hs := scanBuses_writes env route ids keys (hr route (List.mem_cons_self _ _))
      unused hb s
    cases hscan : scanBuses env route unused s with
    | mk s1 res =>
      rw [hscan] at hs
      cases res with
      | thrown => exact hs
      | assigned => exact Writes.trans hs (ih1 s1)
      | exhausted => exact Writes.trans hs (ih1 { s1 with skipCount := s1.skipCount + 1 })

/-- The state in which the loops of `assignBusesToRoutes` start. -/
theorem assignBusesToRoutes_cases (env : AssignEnv) (table : List Route) :
    ((assignBusesToRoutes env table).1 = table ∧
        ((assignBusesToRoutes env table).2.updated = some 0 ∨
          (assignBusesToRoutes env table).2.updated = none)) ∨
      (env.routesQuery = Access.ok ∧ getBuses env.buses = some (busList env) ∧
        env.usedQuery = Access.ok ∧
        (routesWithoutBus (getRoutesWithPool table)).length ≠ 0 ∧
        (unusedBuses table (busList env)).length ≠ 0 ∧
        assignBusesToRoutes env table =
          match routeLoop env (unusedBuses table (busList env))
              (routesWithoutBus (getRoutesWithPool table))
              { table := table, usedBusIds := usedBusIdsOf table, successCount := 0,
                failCount := 0, skipCount := 0 } with
          | (s, true) => (s.table, caught "error")
          | (s, false) =>
            (s.table, { success := true, message := none, updated := some s.successCount,
                        failed := some s.failCount, skipped := none })) := by
  unfold assignBusesToRoutes busList
  cases h1 : env.routesQuery with
  | queryError => exact Or.inl ⟨rfl, Or.inr rfl⟩
  | connectError => exact Or.inl ⟨rfl, Or.inr rfl⟩
  | ok =>
    cases h2 : getBuses env.buses with
    | none => exact Or.inl ⟨rfl, Or.inr rfl⟩
    | some buses =>
      simp only [Option.getD_some]
      by_cases h3 : (getRoutesWithPool table).length = 0
      · rw [if_pos h3]; exact Or.inl ⟨rfl, Or.inl rfl⟩
      · rw [if_neg h3]
        by_cases h4 : buses.length = 0
        · rw [if_pos h4]; exact Or.inl ⟨rfl, Or.inl rfl⟩
        · rw [if_neg h4]
          by_cases h5 : (routesWithoutBus (getRoutesWithPool table)).length = 0
          · rw [if_pos h5]; exact Or.inl ⟨rfl, Or.inl rfl⟩
          · rw [if_neg h5]
            cases h6 : env.usedQuery with
            | queryError => exact Or.inl ⟨rfl, Or.inr rfl⟩
            | connectError => exact Or.inl ⟨rfl, Or.inr rfl⟩
            | ok =>
              simp only
              by_cases h7 : (unusedBuses table buses).length = 0
              · rw [if_pos h7]; exact Or.inl ⟨rfl, Or.inl rfl⟩
              · rw [if_neg h7]
                exact Or.inr ⟨trivial, trivial, trivial, h5, h7, rfl⟩

/-- The table `assignBusesToRoutes` leaves is reached from the initial one by
conflict-free writes of unused buses to routes of `routesWithoutBus`. -/
theorem assignBusesToRoutes_writes (env : AssignEnv) (table : List Route) :
    Writes ((routesWithoutBus (getRoutesWithPool table)).map (fun r => r.id))
      (unusedKeys table (busList env)) table (assignBusesToRoutes env table).1 := by
  rcases assignBusesToRoutes_cases env table with ⟨h, _⟩ | ⟨_, _, _, _, _, h⟩
  · rw [h]; exact Writes.refl _
  · rw [h]
    have hw := routeLoop_writes env (unusedBuses table (busList env))
      ((routesWithoutBus (getRoutesWithPool table)).map (fun r => r.id))
      (unusedKeys table (busList env))
      (fun bus hbus k hk => by
        unfold unusedKeys
        rw [List.mem_filterMap]
        exact ⟨bus, hbus, hk⟩)
      (routesWithoutBus (getRoutesWithPool table))
      (fun r hr => List.mem_map_of_mem _ hr)
      { table := table, usedBusIds := usedBusIdsOf table, successCount := 0,
        failCount := 0, skipCount := 0 }
    cases hl : routeLoop env (unusedBuses table (busList env))
        (routesWithoutBus (getRoutesWithPool table))
        { table := table, usedBusIds := usedBusIdsOf table, successCount := 0,
          failCount := 0, skipCount := 0 } with
    | mk s thrown =>
      rw [hl] at hw
      cases thrown <;> exact hw

theorem mem_usedBusIdsOf {table : List Route} {b : String} :
    b ∈ usedBusIdsOf table ↔ ∃ r ∈ table, r.bus_id = some b := by
  unfold usedBusIdsOf
  rw [List.mem_dedup, List.mem_filterMap]

theorem unusedKeys_spec {table : List Route} {buses : List Bus} {k : String}
    (h : k ∈ unusedKeys table buses) : k ∉ usedBusIdsOf table ∧ k ≠ "" := by
  unfold unusedKeys unusedBuses at h
  rw [List.mem_filterMap] at h
  obtain ⟨bus, hbus, hk⟩ := h
  rw [List.mem_filter] at hbus
  have h2 := hbus.2
  unfold isUnused at h2
  rw [hk] at h2
  simp only [truthy, Bool.and_eq_true, decide_eq_true_eq, Bool.not_eq_true',
    decide_eq_false_iff_not] at h2
  exact ⟨h2.2, h2.1⟩

/-- Every row after a sequence of writes is a row of the initial table, or such
a row, with an id among `ids`, holding a bus among `keys`. -/
theorem Writes.rows {ids keys : List String} {t0 t1 : List Route}
    (h : Writes ids keys t0 t1) :
    ∀ r1 ∈ t1, r1 ∈ t0 ∨
      ∃ r0 ∈ t0, ∃ b ∈ keys, r0.id ∈ ids ∧ r1 = { r0 with bus_id := some b } := by
  induction h with
  | refl => intro r1 h1; exact Or.inl h1
  | step r b _ hr hb _ _ ih =>
    intro r1 h1
    obtain ⟨x, hx, rfl⟩ := mem_updateBusId.1 h1
    by_cases c : x.id = r
    · rw [if_pos c]
      rcases ih x hx with h0 | ⟨r0, h0, b0, _, hid, rfl⟩
      · exact Or.inr ⟨x, h0, b, hb, c ▸ hr, rfl⟩
      · exact Or.inr ⟨r0, h0, b, hb, hid, rfl⟩
    · rw [if_neg c]; exact ih x hx

/-- A row whose id is not among `ids` survives every sequence of writes. -/
theorem Writes.frame {ids keys : List String} {t0 t1 : List Route}
    (h : Writes ids keys t0 t1) : ∀ r0 ∈ t0, r0.id ∉ ids → r0 ∈ t1 := by
  induction h with
  | refl => intro r0 h0 _; exact h0
  | step r b _ hr _ _ _ ih =>
    intro r0 h0 hid
    refine mem_updateBusId.2 ⟨r0, ih r0 h0 hid, ?_⟩
    have c : r0.id ≠ r := fun e => hid (e ▸ hr)
    rw [if_neg c]

/-! ## C2 -/

/-- C2: the fallback pass preserves one-bus-one-route.  For every outcome of the
collaborator calls (so for every bus list), every route table in which no bus is
the `bus_id` of two different routes keeps that property through
`assignBusesToRoutes`, and a bus that some route held at the start is held
afterwards only by a route that held it at the start. -/
theorem assignBusesToRoutes_preserves_oneBusOneRoute (env : AssignEnv)
    (table : List Route) (h : OneBusOneRoute table) :
    OneBusOneRoute (assignBusesToRoutes env table).1 ∧
      ∀ r1 ∈ (assignBusesToRoutes env table).1, ∀ b, r1.bus_id = some b →
        (∃ r ∈ table, r.bus_id = some b) →
        ∃ r0 ∈ table, r0.id = r1.id ∧ r0.bus_id = some b := by
  have hw := assignBusesToRoutes_writes env table
  refine ⟨hw.oneBusOneRoute h, ?_⟩
  intro r1 h1 b hb hbound
  rcases hw.rows r1 h1 with h0 | ⟨r0, _, k, hk, _, rfl⟩
  · exact ⟨r1, h0, rfl, hb⟩
  · exfalso
    simp only [Option.some.injEq] at hb
    subst hb
    exact (unusedKeys_spec hk).1 (mem_usedBusIdsOf.2 hbound)

/-- Witness of C2: two unbound routes, one bound route and three buses. -/
theorem assignBusesToRoutes_preserves_oneBusOneRoute_witness :
    OneBusOneRoute [exRoute "R1" none "active" 1, exRoute "R2" (some "B2") "active" 2,
        exRoute "R3" none "inactive" 3] ∧
      (OneBusOneRoute (assignBusesToRoutes
          (exAssignEnv [exBus "B1", exBus "B2", exBus "B3"])
          [exRoute "R1" none "active" 1, exRoute "R2" (some "B2") "active" 2,
            exRoute "R3" none "inactive" 3]).1 ∧
        ∀ r1 ∈ (assignBusesToRoutes (exAssignEnv [exBus "B1", exBus "B2", exBus "B3"])
            [exRoute "R1" none "active" 1, exRoute "R2" (some "B2") "active" 2,
              exRoute "R3" none "inactive" 3]).1, ∀ b, r1.bus_id = some b →
          (∃ r ∈ [exRoute "R1" none "active" 1, exRoute "R2" (some "B2") "active" 2,
              exRoute "R3" none "inactive" 3], r.bus_id = some b) →
          ∃ r0 ∈ [exRoute "R1" none "active" 1, exRoute "R2" (some "B2") "active" 2,
              exRoute "R3" none "inactive" 3], r0.id = r1.id ∧ r0.bus_id = some b) :=
  ⟨by decide, assignBusesToRoutes_preserves_oneBusOneRoute _ _ (by decide)⟩

/-! ## Lemmas on the stable sort -/

theorem perm_insertBy {α : Type} (le : α → α → Bool) (a : α) (l : List α) :
    (insertBy le a l).Perm (a :: l) := by
  induction l with
  | nil => exact List.Perm.refl _
  | cons x xs ih =>
    unfold insertBy
    by_cases h : le a x = true
    · rw [if_pos h]
    · rw [if_neg h]
      exact (List.Perm.cons x ih).trans (List.Perm.swap a x xs)

theorem perm_sortBy {α : Type} (le : α → α → Bool) (l : List α) : (sortBy le l).Perm l := by
  induction l with
  | nil => exact List.Perm.refl _
  | cons a as ih =>
    unfold sortBy
    exact (perm_insertBy le a _).trans (List.Perm.cons a ih)

theorem mem_sortBy {α : Type} (le : α → α → Bool) (l : List α) (a : α) :
    a ∈ sortBy le l ↔ a ∈ l :=
  (perm_sortBy le l).mem_iff

theorem pairwise_insertBy {α : Type} (le : α → α → Bool)
    (htot : ∀ a b, le a b = false → le b a = true)
    (htrans : ∀ a b c, le a b = true → le b c = true → le a c = true) (a : α) (l : List α)
    (h : l.Pairwise (fun x y => le x y = true)) :
    (insertBy le a l).Pairwise (fun x y => le x y = true) := by
  induction l with
  | nil => exact List.pairwise_singleton _ _
  | cons x xs ih =>
    unfold insertBy
    rw [List.pairwise_cons] at h
    by_cases c : le a x = true
    · rw [if_pos c]
      refine List.Pairwise.cons ?_ (List.Pairwise.cons h.1 h.2)
      intro y hy
      rcases List.mem_cons.1 hy with rfl | hy
      · exact c
      · exact htrans a x y c (h.1 y hy)
    · rw [if_neg c]
      refine List.Pairwise.cons ?_ (ih h.2)
      intro y hy
      rcases List.mem_cons.1 ((perm_insertBy le a xs).mem_iff.1 hy) with rfl | hy
      · exact htot _ _ (by simpa using c)
      · exact h.1 y hy

theorem pairwise_sortBy {α : Type} (le : α → α → Bool)
    (htot : ∀ a b, le a b = false → le b a = true)
    (htrans : ∀ a b c, le a b = true → le b c = true → le a c = true) (l : List α) :
    (sortBy le l).Pairwise (fun x y => le x y = true) := by
  induction l with
  | nil => exact List.Pairwise.nil
  | cons a as ih =>
    unfold sortBy
    exact pairwise_insertBy le htot htrans a _ ih

/-! ## Lemmas on the grouping of the schedule feed -/

theorem pairwise_sortedSchedules (schedules : List Schedule) :
    (sortedSchedules schedules).Pairwise (fun x y => timeOf y ≤ timeOf x) := by
  have h := pairwise_sortBy laterFirst
    (fun a b hab => by
      unfold laterFirst at hab ⊢
      simp only [decide_eq_false_iff_not, not_le] at hab
      simp only [decide_eq_true_eq]
      exact le_of_lt hab)
    (fun a b c hab hbc => by
      unfold laterFirst at hab hbc ⊢
      simp only [decide_eq_true_eq] at hab hbc ⊢
      exact le_trans hbc hab)
    schedules
  unfold sortedSchedules
  refine h.imp ?_
  intro x y hxy
  unfold laterFirst at hxy
  simpa using hxy

/-- In a list sorted by time descending, the first entry that passes a test has
the greatest time among the entries that pass it. -/
theorem find?_greatest (p : Schedule → Bool) (l : List Schedule)
    (hs : l.Pairwise (fun x y => timeOf y ≤ timeOf x)) (e : Schedule)
    (he : l.find? p = some e) : ∀ x ∈ l, p x = true → timeOf x ≤ timeOf e := by
  induction l with
  | nil => simp at he
  | cons a as ih =>
    rw [List.pairwise_cons] at hs
    intro x hx hpx
    by_cases hpa : p a = true
    · rw [List.find?_cons_of_pos _ hpa] at he
      simp only [Option.some.injEq] at he
      subst he
      rcases List.mem_cons.1 hx with rfl | hx
      · exact le_refl _
      · exact hs.1 x hx
    · rw [List.find?_cons_of_neg _ hpa] at he
      rcases List.mem_cons.1 hx with rfl | hx
      · exact absurd hpx hpa
      · exact ih hs.2 he x hx hpx

/-- The bus a fold of `groupStep` stores for a route: the one the map already
had, else the `busId` of the first selectable entry. -/
theorem foldl_groupStep_find (r : String) (l : List Schedule) :
    ∀ m : List (String × Selection),
      (((l.foldl groupStep m).find? (fun kv => decide (kv.1 = r))).map (fun kv => kv.2.busId)) =
        ((m.find? (fun kv => decide (kv.1 = r))).map (fun kv => kv.2.busId)).or
          ((l.find? (selectable r)).bind (fun e => e.busId)) := by
  induction l with
  | nil => intro m; simp
  | cons e es ih =>
    intro m
    rw [List.foldl_cons, ih (groupStep m e)]
    unfold groupStep
    cases hr : e.routeId with
    | none =>
      have hsel : selectable r e = false := by simp [selectable, hr, truthy]
      simp [hsel]
    | some r1 =>
      cases hb : e.busId with
      | none =>
        have hsel : selectable r e = false := by simp [selectable, hb, truthy]
        simp [hsel]
      | some b1 =>
        simp only
        by_cases hv : (truthy (some r1) && truthy (some b1)) = true
        · rw [if_pos hv]
          by_cases hany : (m.any (fun kv => decide (kv.1 = r1))) = true
          · rw [if_pos hany]
            by_cases hrr : r1 = r
            · subst hrr
              have hsome : (m.find? (fun kv => decide (kv.1 = r1))).isSome = true := by
                rw [List.find?_isSome]
                simpa using hany
              obtain ⟨kv, hkv⟩ := Option.isSome_iff_exists.1 hsome
              simp [hkv]
            · have hsel : selectable r e = false := by simp [selectable, hr, hrr]
              simp [hsel]
          · rw [if_neg hany]
            by_cases hrr : r1 = r
            · subst hrr
              have hnone : m.find? (fun kv => decide (kv.1 = r1)) = none := by
                rw [List.find?_eq_none]
                intro x hx hx1
                apply hany
                rw [List.any_eq_true]
                exact ⟨x, hx, hx1⟩
              have hsel : selectable r1 e = true := by
                simp only [selectable, hr, hb, decide_True, Bool.and_true]
                exact hv
              simp [hnone, hsel, hb]
            · have hsel : selectable r e = false := by simp [selectable, hr, hrr]
              simp [hsel, hrr]
        · rw [if_neg hv]
          have hsel : selectable r e = false := by
            simp only [selectable, hr, hb]
            simp only [Bool.not_eq_true] at hv
            rw [hv]; rfl
          simp [hsel]

/-- The bus selected for a route is the `busId` of the first selectable entry of
the sorted feed. -/
theorem selectedBus_eq (schedules : List Schedule) (r : String) :
    selectedBus schedules r =
      ((sortedSchedules schedules).find? (selectable r)).bind (fun e => e.busId) := by
  unfold selectedBus routeBusMap
  rw [foldl_groupStep_find]
  simp

/-- The selection for a route that has a selectable entry: an entry of the feed
with the greatest time among the selectable entries of the route. -/
theorem selectedBus_greatest (schedules : List Schedule) (r : String)
    (hr : ∃ e ∈ schedules, selectable r e = true) :
    ∃ e ∈ schedules, selectable r e = true ∧ selectedBus schedules r = e.busId ∧
      ∀ x ∈ schedules, selectable r x = true → timeOf x ≤ timeOf e := by
  obtain ⟨e0, he0, hs0⟩ := hr
  have hsome : ((sortedSchedules schedules).find? (selectable r)).isSome = true := by
    rw [List.find?_isSome]
    exact ⟨e0, (mem_sortBy laterFirst schedules e0).2 he0, hs0⟩
  obtain ⟨e, he⟩ := Option.isSome_iff_exists.1 hsome
  refine ⟨e, (mem_sortBy laterFirst schedules e).1 (List.mem_of_find?_eq_some he),
    List.find?_some he, ?_, ?_⟩
  · rw [selectedBus_eq, he]; rfl
  · intro x hx hsel
    exact find?_greatest (selectable r) _ (pairwise_sortedSchedules schedules) e he x
      ((mem_sortBy laterFirst schedules x).2 hx) hsel

theorem selectable_of_valid {r : String} {e : Schedule}
    (hv : truthy e.routeId = true ∧ truthy e.busId = true ∧ e.time ≠ none)
    (hr : e.routeId = some r) : selectable r e = true := by
  have h1 := hv.1
  rw [hr] at h1
  simp [selectable, h1, hv.2.1, hr]

theorem routeId_of_selectable {r : String} {e : Schedule} (h : selectable r e = true) :
    e.routeId = some r := by
  simp only [selectable, Bool.and_eq_true, decide_eq_true_eq] at h
  exact h.2

/-! ## C4 -/

/-- C4: latest schedule entry wins.  For a schedule list whose entries all have
a truthy `routeId`, a truthy `busId` and a time, and a route id that occurs in
it, the bus `routeBusMap` holds for the route is the `busId` of an entry of that
route whose time is greatest among the entries of the route; and when the times
of the entries of the route are pairwise distinct, every permutation of the
list gives the same selection. -/
theorem routeBusMap_selects_latest (schedules : List Schedule)
    (hall : ∀ e ∈ schedules, truthy e.routeId = true ∧ truthy e.busId = true ∧ e.time ≠ none)
    (r : String) (hr : ∃ e ∈ schedules, e.routeId = some r) :
    (∃ e ∈ schedules, ∃ b t, e.routeId = some r ∧ e.busId = some b ∧ e.time = some t ∧
        selectedBus schedules r = some b ∧
        ∀ x ∈ schedules, ∀ u, x.routeId = some r → x.time = some u → u ≤ t) ∧
      ((schedules.filter (fun e => decide (e.routeId = some r))).Pairwise
          (fun a b => a.time ≠ b.time) →
        ∀ l : List Schedule, l.Perm schedules → selectedBus l r = selectedBus schedules r) := by
  obtain ⟨e0, he0, hr0⟩ := hr
  have hex : ∃ e ∈ schedules, selectable r e = true :=
    ⟨e0, he0, selectable_of_valid (hall e0 he0) hr0⟩
  obtain ⟨e, he, hsel, hbus, hmax⟩ := selectedBus_greatest schedules r hex
  have hte : ∃ t, e.time = some t := Option.ne_none_iff_exists'.1 (hall e he).2.2
  obtain ⟨t, ht⟩ := hte
  have hbe : ∃ b, e.busId = some b := by
    have h := (hall e he).2.1
    cases hb : e.busId with
    | none => rw [hb] at h; simp [truthy] at h
    | some b => exact ⟨b, rfl⟩
  obtain ⟨b, hb⟩ := hbe
  constructor
  · refine ⟨e, he, b, t, routeId_of_selectable hsel, hb, ht, by rw [hbus, hb], ?_⟩
    intro x hx u hxr hxu
    have h := hmax x hx (selectable_of_valid (hall x hx) hxr)
    simpa [timeOf, hxu, ht] using h
  · intro hdist l hperm
    have hex1 : ∃ e ∈ l, selectable r e = true :=
      ⟨e0, hperm.mem_iff.2 he0, selectable_of_valid (hall e0 he0) hr0⟩
    obtain ⟨e1, he1, hsel1, hbus1, hmax1⟩ := selectedBus_greatest l r hex1
    have he1s : e1 ∈ schedules := hperm.mem_iff.1 he1
    have hle1 : timeOf e1 ≤ timeOf e := hmax e1 he1s hsel1
    have hle2 : timeOf e ≤ timeOf e1 := hmax1 e (hperm.mem_iff.2 he) hsel
    have hteq : e1.time = e.time := by
      obtain ⟨t1, ht1⟩ := Option.ne_none_iff_exists'.1 (hall e1 he1s).2.2
      have h : t1 = t := by
        have h1 : t1 ≤ t := by simpa [timeOf, ht1, ht] using hle1
        have h2 : t ≤ t1 := by simpa [timeOf, ht1, ht] using hle2
        exact le_antisymm h1 h2
      rw [ht1, ht, h]
    have hmem : e ∈ schedules.filter (fun e => decide (e.routeId = some r)) := by
      rw [List.mem_filter]; exact ⟨he, by simp [routeId_of_selectable hsel]⟩
    have hmem1 : e1 ∈ schedules.filter (fun e => decide (e.routeId = some r)) := by
      rw [List.mem_filter]; exact ⟨he1s, by simp [routeId_of_selectable hsel1]⟩
    have heq : e1 = e := by
      by_contra hne
      exact (hdist.forall (fun _ _ h => fun h' => h h'.symm) hmem1 hmem hne) hteq
    rw [hbus1, hbus, heq]

/-- Witness of C4: two entries of route `R1`, the later one listed second. -/
theorem routeBusMap_selects_latest_witness :
    (∀ e ∈ [exSchedule "R1" "B5" 10, exSchedule "R1" "B7" 11, exSchedule "R2" "B5" 12],
        truthy e.routeId = true ∧ truthy e.busId = true ∧ e.time ≠ none) ∧
      ((∃ e ∈ [exSchedule "R1" "B5" 10, exSchedule "R1" "B7" 11, exSchedule "R2" "B5" 12],
          ∃ b t, e.routeId = some "R1" ∧ e.busId = some b ∧ e.time = some t ∧
          selectedBus [exSchedule "R1" "B5" 10, exSchedule "R1" "B7" 11,
            exSchedule "R2" "B5" 12] "R1" = some b ∧
          ∀ x ∈ [exSchedule "R1" "B5" 10, exSchedule "R1" "B7" 11, exSchedule "R2" "B5" 12],
            ∀ u, x.routeId = some "R1" → x.time = some u → u ≤ t) ∧
        (([exSchedule "R1" "B5" 10, exSchedule "R1" "B7" 11, exSchedule "R2" "B5" 12].filter
            (fun e => decide (e.routeId = some "R1"))).Pairwise (fun a b => a.time ≠ b.time) →
          ∀ l : List Schedule,
            l.Perm [exSchedule "R1" "B5" 10, exSchedule "R1" "B7" 11, exSchedule "R2" "B5" 12] →
            selectedBus l "R1" = selectedBus [exSchedule "R1" "B5" 10, exSchedule "R1" "B7" 11,
              exSchedule "R2" "B5" 12] "R1")) :=
  ⟨by decide, routeBusMap_selects_latest _ (by decide) "R1" ⟨exSchedule "R1" "B5" 10, by decide⟩⟩

/-! ## Lemmas on the updates of the schedule pass -/

theorem groupStep_keys_nodup (m : List (String × Selection)) (e : Schedule)
    (h : (m.map Prod.fst).Nodup) : ((groupStep m e).map Prod.fst).Nodup := by
  unfold groupStep
  cases e.routeId with
  | none => exact h
  | some r =>
    cases e.busId with
    | none => exact h
    | some b =>
      simp only
      split_ifs with h1 h2
      · exact h
      · rw [List.map_append, List.nodup_append]
        refine ⟨h, List.nodup_singleton _, ?_⟩
        intro k hk hk1
        simp only [List.map_cons, List.map_nil, List.mem_singleton] at hk1
        subst hk1
        apply h2
        rw [List.any_eq_true]
        obtain ⟨kv, hkv, rfl⟩ := List.mem_map.1 hk
        exact ⟨kv, hkv, by simp⟩
      · exact h

theorem foldl_groupStep_keys_nodup (l : List Schedule) :
    ∀ m : List (String × Selection), (m.map Prod.fst).Nodup →
      ((l.foldl groupStep m).map Prod.fst).Nodup := by
  induction l with
  | nil => intro m h; exact h
  | cons e es ih => intro m h; exact ih _ (groupStep_keys_nodup m e h)

/-- The keys of `routeBusMap` are pairwise distinct. -/
theorem routeBusMap_keys_nodup (schedules : List Schedule) :
    ((routeBusMap schedules).map Prod.fst).Nodup :=
  foldl_groupStep_keys_nodup _ [] List.nodup_nil

theorem scheduleStep_logInv (fault : String → QueryFault) (table0 : List Route)
    (s : ScheduleRun) (entry : String × Selection) (keys : List String)
    (hk : entry.1 ∉ keys) (h : LogInv table0 s (entry.1 :: keys)) :
    LogInv table0 (scheduleStep fault s entry) keys := by
  obtain ⟨hnd, hheld, hrows⟩ := h
  rcases scheduleStep_spec fault s entry with ⟨ht, ha, _⟩ | ⟨ht, ha, _, hfree, x0, hx0, hid0, _⟩
  · rw [LogInv, ht, ha]
    refine ⟨hnd, ?_, hrows⟩
    intro rb hrb
    obtain ⟨h1, h2⟩ := hheld rb hrb
    exact ⟨fun hin => h1 (List.mem_cons_of_mem _ hin), h2⟩
  · rw [busUsedRows_pos_iff] at hfree
    rw [LogInv, ht, ha]
    refine ⟨?_, ?_, ?_⟩
    · rw [List.map_append, List.nodup_append]
      refine ⟨hnd, List.nodup_singleton _, ?_⟩
      intro b hb hb1
      simp only [List.map_cons, List.map_nil, List.mem_singleton] at hb1
      subst hb1
      obtain ⟨rb, hrb, hrb2⟩ := List.mem_map.1 hb
      obtain ⟨h1, x, hx, hxid, hxb⟩ := hheld rb hrb
      apply hfree
      refine ⟨x, hx, by rw [hxb, hrb2], ?_⟩
      intro hxe
      apply h1
      rw [← hxid, hxe]
      exact List.mem_cons_self _ _
    · intro rb hrb
      rcases List.mem_append.1 hrb with hrb | hrb
      · obtain ⟨h1, x, hx, hxid, hxb⟩ := hheld rb hrb
        refine ⟨fun hin => h1 (List.mem_cons_of_mem _ hin), x, ?_, hxid, hxb⟩
        refine mem_updateBusId.2 ⟨x, hx, ?_⟩
        have hne : x.id ≠ entry.1 := by
          intro hxe
          apply h1
          rw [← hxid, hxe]
          exact List.mem_cons_self _ _
        rw [if_neg hne]
      · simp only [List.mem_singleton] at hrb
        subst hrb
        refine ⟨hk, { x0 with bus_id := some entry.2.busId }, ?_, hid0, rfl⟩
        refine mem_updateBusId.2 ⟨x0, hx0, ?_⟩
        rw [if_pos hid0]
    · intro x hx
      obtain ⟨y, hy, rfl⟩ := mem_updateBusId.1 hx
      by_cases c : y.id = entry.1
      · rw [if_pos c]
        exact Or.inr ⟨(entry.1, entry.2.busId), List.mem_append_right _ (List.mem_singleton_self _),
          c, rfl⟩
      · rw [if_neg c]
        rcases hrows y hy with h0 | ⟨rb, hrb, h1, h2⟩
        · exact Or.inl h0
        · exact Or.inr ⟨rb, List.mem_append_left _ hrb, h1, h2⟩

theorem scheduleLoop_logInv (fault : String → QueryFault) (table0 : List Route)
    (entries : List (String × Selection)) (hnd : (entries.map Prod.fst).Nodup) :
    ∀ s : ScheduleRun, LogInv table0 s (entries.map Prod.fst) →
      LogInv table0 (scheduleLoop fault s entries) [] := by
  induction entries with
  | nil => intro s h; exact h
  | cons e es ih =>
    intro s h
    rw [List.map_cons, List.nodup_cons] at hnd
    exact ih hnd.2 (scheduleStep fault s e) (scheduleStep_logInv fault table0 s e _ hnd.1 h)

theorem schedulePass_logInv (fault : String → QueryFault) (table : List Route)
    (schedules : List Schedule) :
    LogInv table (schedulePass fault table schedules) [] := by
  refine scheduleLoop_logInv fault table _ (routeBusMap_keys_nodup schedules) _ ?_
  refine ⟨List.nodup_nil, ?_, ?_⟩
  · intro rb hrb; simp at hrb
  · intro x hx; exact Or.inl hx

/-! ## C5 -/

/-- C5: guarantee of the schedule pass.  For every outcome of the queries, every
initial route table and every schedule list, the updates of one run of the loop
over `routeBusMap` name pairwise distinct buses, so two routes are never both
updated to the same bus; every update is still in the table at the end of the
run, and every row that is not a row of the initial table carries an update of
the run. -/
theorem schedulePass_one_route_per_bus (fault : String → QueryFault) (table : List Route)
    (schedules : List Schedule) :
    ((schedulePass fault table schedules).assigned.map Prod.snd).Nodup ∧
      (∀ r1 r2 b, (r1, b) ∈ (schedulePass fault table schedules).assigned →
        (r2, b) ∈ (schedulePass fault table schedules).assigned → r1 = r2) ∧
      (∀ rb ∈ (schedulePass fault table schedules).assigned,
        ∃ x ∈ (schedulePass fault table schedules).table, x.id = rb.1 ∧ x.bus_id = some rb.2) ∧
      (∀ x ∈ (schedulePass fault table schedules).table, x ∈ table ∨
        ∃ rb ∈ (schedulePass fault table schedules).assigned,
          x.id = rb.1 ∧ x.bus_id = some rb.2) := by
  obtain ⟨hnd, hheld, hrows⟩ := schedulePass_logInv fault table schedules
  refine ⟨hnd, ?_, fun rb hrb => (hheld rb hrb).2, hrows⟩
  intro r1 r2 b h1 h2
  have h := List.inj_on_of_nodup_map hnd h1 h2 rfl
  exact congrArg Prod.fst h

/-! ## Lemmas on the rows the schedule pass leaves alone -/

theorem selectById_updateBusId_ne (table : List Route) (busId routeId r : String)
    (h : routeId ≠ r) : selectById (updateBusId table busId routeId) r = selectById table r := by
  unfold selectById updateBusId
  induction table with
  | nil => rfl
  | cons x xs ih =>
    rw [List.map_cons]
    by_cases c : x.id = routeId
    · have hx : x.id ≠ r := fun e => h (c ▸ e)
      rw [if_pos c, List.filter_cons_of_neg (by simpa using hx),
        List.filter_cons_of_neg (by simpa using hx), ih]
    · rw [if_neg c]
      by_cases d : x.id = r
      · rw [List.filter_cons_of_pos (by simpa using d),
          List.filter_cons_of_pos (by simpa using d), ih]
      · rw [List.filter_cons_of_neg (by simpa using d),
          List.filter_cons_of_neg (by simpa using d), ih]

theorem busIdOf_eq_head (table : List Route) (r : String) :
    busIdOf table r = (selectById table r).head?.map (fun x => x.bus_id) := by
  unfold busIdOf selectById
  induction table with
  | nil => rfl
  | cons x xs ih =>
    by_cases d : x.id = r
    · rw [List.find?_cons_of_pos _ (by simpa using d),
        List.filter_cons_of_pos (by simpa using d)]
      rfl
    · rw [List.find?_cons_of_neg _ (by simpa using d),
        List.filter_cons_of_neg (by simpa using d), ih]

theorem scheduleStep_selectById (fault : String → QueryFault) (s : ScheduleRun)
    (entry : String × Selection) (r : String) (h : entry.1 ≠ r) :
    selectById (scheduleStep fault s entry).table r = selectById s.table r := by
  rcases scheduleStep_spec fault s entry with ⟨ht, _⟩ | ⟨ht, _⟩
  · rw [ht]
  · rw [ht]; exact selectById_updateBusId_ne _ _ _ _ h

theorem scheduleLoop_selectById (fault : String → QueryFault) (r : String)
    (entries : List (String × Selection)) (h : r ∉ entries.map Prod.fst) :
    ∀ s : ScheduleRun, selectById (scheduleLoop fault s entries).table r = selectById s.table r := by
  induction entries with
  | nil => intro s; rfl
  | cons e es ih =>
    intro s
    rw [List.map_cons, List.mem_cons, not_or] at h
    have h1 := ih h.2 (scheduleStep fault s e)
    have h2 := scheduleStep_selectById fault s e r (fun c => h.1 c.symm)
    exact h1.trans h2

theorem groupStep_keys (m : List (String × Selection)) (e : Schedule) (k : String)
    (h : k ∈ (groupStep m e).map Prod.fst) : k ∈ m.map Prod.fst ∨ e.routeId = some k := by
  unfold groupStep at h
  cases hr : e.routeId with
  | none => rw [hr] at h; exact Or.inl h
  | some r =>
    rw [hr] at h
    cases hb : e.busId with
    | none => rw [hb] at h; exact Or.inl h
    | some b =>
      rw [hb] at h
      simp only at h
      split_ifs at h with h1 h2
      · exact Or.inl h
      · rw [List.map_append, List.mem_append] at h
        rcases h with h | h
        · exact Or.inl h
        · simp only [List.map_cons, List.map_nil, List.mem_singleton] at h
          exact Or.inr (by rw [h])
      · exact Or.inl h

theorem foldl_groupStep_keys (l : List Schedule) (k : String) :
    ∀ m : List (String × Selection), k ∈ (l.foldl groupStep m).map Prod.fst →
      k ∈ m.map Prod.fst ∨ ∃ e ∈ l, e.routeId = some k := by
  induction l with
  | nil => intro m h; exact Or.inl h
  | cons e es ih =>
    intro m h
    rcases ih (groupStep m e) h with h1 | ⟨x, hx, hk⟩
    · rcases groupStep_keys m e k h1 with h2 | h2
      · exact Or.inl h2
      · exact Or.inr ⟨e, List.mem_cons_self _ _, h2⟩
    · exact Or.inr ⟨x, List.mem_cons_of_mem _ hx, hk⟩

/-- Every key of `routeBusMap` is the `routeId` of an entry of the feed. -/
theorem routeBusMap_keys (schedules : List Schedule) (k : String)
    (h : k ∈ (routeBusMap schedules).map Prod.fst) : ∃ e ∈ schedules, e.routeId = some k := by
  rcases foldl_groupStep_keys _ k [] h with h1 | ⟨e, he, hk⟩
  · simp at h1
  · exact ⟨e, (mem_sortBy laterFirst schedules e).1 he, hk⟩

/-! ## C10 -/

/-- C10: routes absent from the schedule feed are untouched by the schedule
pass.  For every outcome of the queries, every route table and every schedule
list, a route id that is the `routeId` of no schedule entry has the same rows,
and so the same `bus_id`, after the loop over `routeBusMap` as before it. -/
theorem schedulePass_leaves_unscheduled (fault : String → QueryFault) (table : List Route)
    (schedules : List Schedule) (r : String) (h : ∀ e ∈ schedules, e.routeId ≠ some r) :
    selectById (schedulePass fault table schedules).table r = selectById table r ∧
      busIdOf (schedulePass fault table schedules).table r = busIdOf table r := by
  have hk : r ∉ (routeBusMap schedules).map Prod.fst := by
    intro hin
    obtain ⟨e, he, her⟩ := routeBusMap_keys schedules r hin
    exact h e he her
  have hsel := scheduleLoop_selectById fault r (routeBusMap schedules) hk
    { table := table, successCount := 0, skipCount := 0, failCount := 0, assigned := [] }
  refine ⟨hsel, ?_⟩
  rw [busIdOf_eq_head, busIdOf_eq_head]
  unfold schedulePass
  rw [hsel]

/-- Witness of C10: route `R3` is in no entry of the feed. -/
theorem schedulePass_leaves_unscheduled_witness :
    (∀ e ∈ [exSchedule "R2" "B1" 2, exSchedule "R1" "B2" 1], e.routeId ≠ some "R3") ∧
      (selectById (schedulePass (fun _ => QueryFault.none)
          [exRoute "R1" (some "B1") "active" 1, exRoute "R2" none "active" 2,
            exRoute "R3" none "active" 3]
          [exSchedule "R2" "B1" 2, exSchedule "R1" "B2" 1]).table "R3" =
          selectById [exRoute "R1" (some "B1") "active" 1, exRoute "R2" none "active" 2,
            exRoute "R3" none "active" 3] "R3" ∧
        busIdOf (schedulePass (fun _ => QueryFault.none)
          [exRoute "R1" (some "B1") "active" 1, exRoute "R2" none "active" 2,
            exRoute "R3" none "active" 3]
          [exSchedule "R2" "B1" 2, exSchedule "R1" "B2" 1]).table "R3" =
          busIdOf [exRoute "R1" (some "B1") "active" 1, exRoute "R2" none "active" 2,
            exRoute "R3" none "active" 3] "R3") :=
  ⟨by decide, schedulePass_leaves_unscheduled _ _ _ "R3" (by decide)⟩

/-! ## Lemmas on what the schedule pass writes -/

theorem find?_key_of_mem {β : Type} (m : List (String × β)) (h : (m.map Prod.fst).Nodup)
    (kv : String × β) (hkv : kv ∈ m) : m.find? (fun x => decide (x.1 = kv.1)) = some kv := by
  induction m with
  | nil => simp at hkv
  | cons a as ih =>
    rw [List.map_cons, List.nodup_cons] at h
    rcases List.mem_cons.1 hkv with rfl | hin
    · rw [List.find?_cons_of_pos _ (by simp)]
    · have hne : a.1 ≠ kv.1 := by
        intro e
        exact h.1 (e ▸ List.mem_map_of_mem Prod.fst hin)
      rw [List.find?_cons_of_neg _ (by simpa using hne)]
      exact ih h.2 hin

/-- An entry of `routeBusMap` is the selection of its route. -/
theorem selectedBus_of_mem (schedules : List Schedule) (kv : String × Selection)
    (h : kv ∈ routeBusMap schedules) : selectedBus schedules kv.1 = some kv.2.busId := by
  unfold selectedBus
  rw [find?_key_of_mem _ (routeBusMap_keys_nodup schedules) kv h]
  rfl

theorem mem_keys_of_selectedBus (schedules : List Schedule) (r b : String)
    (h : selectedBus schedules r = some b) : r ∈ (routeBusMap schedules).map Prod.fst := by
  unfold selectedBus at h
  cases hf : (routeBusMap schedules).find? (fun kv => decide (kv.1 = r)) with
  | none => rw [hf] at h; simp at h
  | some kv =>
    have h1 := List.find?_some hf
    have h2 := List.mem_of_find?_eq_some hf
    simp only [decide_eq_true_eq] at h1
    exact h1 ▸ List.mem_map_of_mem Prod.fst h2

theorem busIdOf_updateBusId (table : List Route) (busId routeId r : String) :
    busIdOf (updateBusId table busId routeId) r =
      if routeId = r then (busIdOf table r).map (fun _ => some busId) else busIdOf table r := by
  by_cases h : routeId = r
  · rw [if_pos h]
    subst h
    unfold busIdOf updateBusId
    induction table with
    | nil => rfl
    | cons x xs ih =>
      rw [List.map_cons]
      by_cases c : x.id = routeId
      · rw [if_pos c, List.find?_cons_of_pos _ (by simpa using c),
          List.find?_cons_of_pos _ (by simpa using c)]
        rfl
      · rw [if_neg c, List.find?_cons_of_neg _ (by simpa using c),
          List.find?_cons_of_neg _ (by simpa using c)]
        exact ih
  · rw [if_neg h, busIdOf_eq_head, busIdOf_eq_head, selectById_updateBusId_ne _ _ _ _ h]

/-- Every row the loop leaves is a row of the table it started from, or such a
row holding the bus of an entry for its route id. -/
theorem scheduleLoop_rows (fault : String → QueryFault) (sel : String → Option String)
    (table0 : List Route) (entries : List (String × Selection))
    (hsel : ∀ kv ∈ entries, sel kv.1 = some kv.2.busId) :
    ∀ s : ScheduleRun,
      (∀ x ∈ s.table, x ∈ table0 ∨
        ∃ x0 ∈ table0, ∃ b, sel x0.id = some b ∧ x = { x0 with bus_id := some b }) →
      ∀ x ∈ (scheduleLoop fault s entries).table, x ∈ table0 ∨
        ∃ x0 ∈ table0, ∃ b, sel x0.id = some b ∧ x = { x0 with bus_id := some b } := by
  induction entries with
  | nil => intro s h; exact h
  | cons e es ih =>
    intro s h
    refine ih (fun kv hkv => hsel kv (List.mem_cons_of_mem _ hkv)) (scheduleStep fault s e) ?_
    have he := hsel e (List.mem_cons_self _ _)
    rcases scheduleStep_spec fault s e with ⟨ht, _⟩ | ⟨ht, _⟩
    · rw [ht]; exact h
    · rw [ht]
      intro x hx
      obtain ⟨y, hy, rfl⟩ := mem_updateBusId.1 hx
      by_cases c : y.id = e.1
      · rw [if_pos c]
        rcases h y hy with h0 | ⟨x0, h0, b0, _, rfl⟩
        · exact Or.inr ⟨y, h0, e.2.busId, by rw [c, he], rfl⟩
        · exact Or.inr ⟨x0, h0, e.2.busId, by rw [← he, ← c], rfl⟩
      · rw [if_neg c]; exact h y hy

/-- An iteration whose queries succeed, for a route that exists and whose
selected bus no other route holds, leaves the route with the selected bus. -/
theorem scheduleStep_binds (fault : String → QueryFault) (s : ScheduleRun)
    (entry : String × Selection) (hf : fault entry.1 = QueryFault.none)
    (hex : busIdOf s.table entry.1 ≠ none)
    (hfree : ¬ 0 < (busUsedRows s.table entry.2.busId entry.1).length) :
    busIdOf (scheduleStep fault s entry).table entry.1 = some (some entry.2.busId) := by
  unfold scheduleStep
  rw [if_neg (by rw [hf]; decide)]
  cases hsel : selectById s.table entry.1 with
  | nil =>
    rw [busIdOf_eq_head, hsel] at hex
    exact absurd rfl hex
  | cons cur rest =>
    simp only
    by_cases h2 : cur.bus_id = some entry.2.busId
    · rw [if_pos h2]
      simp only
      rw [busIdOf_eq_head, hsel]
      simp [h2]
    · rw [if_neg h2, if_neg (by rw [hf]; decide), if_neg hfree, if_neg (by rw [hf]; decide),
        if_pos (by simp)]
      simp only
      rw [busIdOf_updateBusId, if_pos rfl, busIdOf_eq_head, hsel]
      rfl

theorem scheduleStep_keeps_free (fault : String → QueryFault) (s : ScheduleRun)
    (entry : String × Selection) (r b : String)
    (he : entry.1 = r ∨ entry.2.busId ≠ b)
    (h : ∀ x ∈ s.table, x.bus_id = some b → x.id = r) :
    ∀ x ∈ (scheduleStep fault s entry).table, x.bus_id = some b → x.id = r := by
  rcases scheduleStep_spec fault s entry with ⟨ht, _⟩ | ⟨ht, _⟩
  · rw [ht]; exact h
  · rw [ht]
    intro x hx hxb
    obtain ⟨y, hy, rfl⟩ := mem_updateBusId.1 hx
    by_cases c : y.id = entry.1
    · rw [if_pos c] at hxb ⊢
      rcases he with he | he
      · exact c.trans he
      · simp only [Option.some.injEq] at hxb
        exact absurd hxb he
    · rw [if_neg c] at hxb ⊢
      exact h y hy hxb

theorem scheduleLoop_binds (fault : String → QueryFault) (r b : String)
    (hf : fault r = QueryFault.none) (entries : List (String × Selection))
    (hsel : ∀ kv ∈ entries, kv.1 = r → kv.2.busId = b)
    (hoth : ∀ kv ∈ entries, kv.1 ≠ r → kv.2.busId ≠ b) :
    ∀ s : ScheduleRun, (∀ x ∈ s.table, x.bus_id = some b → x.id = r) →
      busIdOf s.table r ≠ none →
      (busIdOf s.table r = some (some b) ∨ r ∈ entries.map Prod.fst) →
      busIdOf (scheduleLoop fault s entries).table r = some (some b) := by
  induction entries with
  | nil =>
    intro s _ _ h
    rcases h with h | h
    · exact h
    · simp at h
  | cons e es ih =>
    intro s hfree hex hor
    have ih1 := ih (fun kv hkv => hsel kv (List.mem_cons_of_mem _ hkv))
      (fun kv hkv => hoth kv (List.mem_cons_of_mem _ hkv)) (scheduleStep fault s e)
    by_cases c : e.1 = r
    · have hb := hsel e (List.mem_cons_self _ _) c
      have hfree1 := scheduleStep_keeps_free fault s e r b (Or.inl c) hfree
      have hnc : ¬ 0 < (busUsedRows s.table e.2.busId e.1).length := by
        rw [busUsedRows_pos_iff]
        rintro ⟨x, hx, hxb, hxid⟩
        rw [hb] at hxb
        exact hxid ((hfree x hx hxb).trans c.symm)
      have hbind := scheduleStep_binds fault s e (by rw [c]; exact hf) (by rw [c]; exact hex) hnc
      rw [c, hb] at hbind
      exact ih1 hfree1 (by rw [hbind]; simp) (Or.inl hbind)
    · have hb := hoth e (List.mem_cons_self _ _) c
      have hfree1 := scheduleStep_keeps_free fault s e r b (Or.inr hb) hfree
      have hsame : busIdOf (scheduleStep fault s e).table r = busIdOf s.table r := by
        rw [busIdOf_eq_head, busIdOf_eq_head, scheduleStep_selectById fault s e r c]
      refine ih1 hfree1 (by rw [hsame]; exact hex) ?_
      rw [hsame]
      rcases hor with h | h
      · exact Or.inl h
      · rw [List.map_cons, List.mem_cons] at h
        rcases h with h | h
        · exact absurd h.symm c
        · exact Or.inr h

/-! ## C6 -/

/-- C6, the claim as stated, fails: route `R1` is bound to `B1`, the schedule
selects `B2` for it, and after the schedule pass `R1` is bound to `B2`. -/
theorem schedulePass_rebinds_bound_route :
    busIdOf [exRoute "R1" (some "B1") "active" 1] "R1" = some (some "B1") ∧
      selectedBus [exSchedule "R1" "B2" 1] "R1" = some "B2" ∧
      busIdOf (schedulePass (fun _ => QueryFault.none) [exRoute "R1" (some "B1") "active" 1]
        [exSchedule "R1" "B2" 1]).table "R1" = some (some "B2") := by
  decide

/-- C6, amended: for every route table, schedule list and outcome of the
queries, the schedule pass changes `bus_id` only on routes for which
`routeBusMap` holds a selection, and only to the selected bus: every row after
the pass is a row of the table before it, or such a row with `bus_id` set to the
bus selected for its route.  And a route that exists and whose queries succeed,
whose selected bus no other route holds at the start and no other route is
selected for, holds the selected bus after the pass, whatever it was bound to
before. -/
theorem schedulePass_writes_selected (fault : String → QueryFault) (table : List Route)
    (schedules : List Schedule) :
    (∀ x ∈ (schedulePass fault table schedules).table, x ∈ table ∨
        ∃ x0 ∈ table, ∃ b0, selectedBus schedules x0.id = some b0 ∧
          x = { x0 with bus_id := some b0 }) ∧
      (∀ r b : String, selectedBus schedules r = some b → fault r = QueryFault.none →
        (∃ x ∈ table, x.id = r) →
        (∀ x ∈ table, x.bus_id = some b → x.id = r) →
        (∀ r1, r1 ≠ r → selectedBus schedules r1 ≠ some b) →
        busIdOf (schedulePass fault table schedules).table r = some (some b)) := by
  constructor
  · exact scheduleLoop_rows fault (selectedBus schedules) table (routeBusMap schedules)
      (fun kv hkv => selectedBus_of_mem schedules kv hkv) _ (fun x hx => Or.inl hx)
  · intro r b hsel hf hex hfree hother
    refine scheduleLoop_binds fault r b hf (routeBusMap schedules) ?_ ?_ _ hfree ?_
      (Or.inr (mem_keys_of_selectedBus schedules r b hsel))
    · intro kv hkv hk
      have h := selectedBus_of_mem schedules kv hkv
      rw [hk, hsel] at h
      exact (Option.some.inj h).symm
    · intro kv hkv hk hb
      have h := selectedBus_of_mem schedules kv hkv
      rw [hb] at h
      exact hother kv.1 hk h
    · obtain ⟨x, hx, hxid⟩ := hex
      rw [busIdOf_eq_head]
      have hm : x ∈ selectById table r := by
        unfold selectById
        rw [List.mem_filter]
        exact ⟨hx, by simpa using hxid⟩
      cases hs : selectById table r with
      | nil => rw [hs] at hm; simp at hm
      | cons y ys => simp

/-- Witness of the amended C6: `R1`, bound to `B1`, is re-bound to `B3`, while
`R2` is in the feed with another bus. -/
theorem schedulePass_writes_selected_witness :
    (selectedBus [exSchedule "R1" "B3" 1, exSchedule "R2" "B4" 2] "R1" = some "B3" ∧
      (∃ x ∈ [exRoute "R1" (some "B1") "active" 1, exRoute "R2" none "active" 2],
        x.id = "R1")) ∧
      ((∀ x ∈ (schedulePass (fun _ => QueryFault.none)
            [exRoute "R1" (some "B1") "active" 1, exRoute "R2" none "active" 2]
            [exSchedule "R1" "B3" 1, exSchedule "R2" "B4" 2]).table,
          x ∈ [exRoute "R1" (some "B1") "active" 1, exRoute "R2" none "active" 2] ∨
          ∃ x0 ∈ [exRoute "R1" (some "B1") "active" 1, exRoute "R2" none "active" 2], ∃ b0,
            selectedBus [exSchedule "R1" "B3" 1, exSchedule "R2" "B4" 2] x0.id = some b0 ∧
            x = { x0 with bus_id := some b0 }) ∧
        busIdOf (schedulePass (fun _ => QueryFault.none)
          [exRoute "R1" (some "B1") "active" 1, exRoute "R2" none "active" 2]
          [exSchedule "R1" "B3" 1, exSchedule "R2" "B4" 2]).table "R1" = some (some "B3")) :=
  ⟨⟨by decide, by decide⟩,
    (schedulePass_writes_selected (fun _ => QueryFault.none)
      [exRoute "R1" (some "B1") "active" 1, exRoute "R2" none "active" 2]
      [exSchedule "R1" "B3" 1, exSchedule "R2" "B4" 2]).1,
    (schedulePass_writes_selected (fun _ => QueryFault.none)
      [exRoute "R1" (some "B1") "active" 1, exRoute "R2" none "active" 2]
      [exSchedule "R1" "B3" 1, exSchedule "R2" "B4" 2]).2 "R1" "B3" (by decide) rfl (by decide)
      (by decide)
      (by
        intro r1 hr1 h
        have hk := mem_keys_of_selectedBus _ r1 "B3" h
        have hkeys : (routeBusMap [exSchedule "R1" "B3" 1, exSchedule "R2" "B4" 2]).map Prod.fst =
            ["R2", "R1"] := by decide
        rw [hkeys] at hk
        simp only [List.mem_cons, List.mem_singleton, List.mem_nil_iff, or_false] at hk
        rcases hk with rfl | rfl
        · revert h; decide
        · exact hr1 rfl)⟩

/-! ## Lemmas on the rows the fallback pass leaves alone -/

theorem updateBusId_ids (table : List Route) (busId routeId : String) :
    (updateBusId table busId routeId).map (fun r => r.id) = table.map (fun r => r.id) := by
  unfold updateBusId
  rw [List.map_map]
  apply List.map_congr_left
  intro x _
  simp only [Function.comp]
  split_ifs <;> rfl

theorem updateBusIdIfNull_ids (table : List Route) (busId routeId : String) :
    (updateBusIdIfNull table busId routeId).map (fun r => r.id) = table.map (fun r => r.id) := by
  unfold updateBusIdIfNull
  rw [List.map_map]
  apply List.map_congr_left
  intro x _
  simp only [Function.comp]
  split_ifs <;> rfl

theorem Writes.ids {ids keys : List String} {t0 t1 : List Route} (h : Writes ids keys t0 t1) :
    t1.map (fun r => r.id) = t0.map (fun r => r.id) := by
  induction h with
  | refl => rfl
  | step r b _ _ _ _ _ ih => rw [updateBusId_ids, ih]

theorem busIdOf_of_mem (table : List Route) (h : (table.map (fun r => r.id)).Nodup)
    (x : Route) (hx : x ∈ table) : busIdOf table x.id = some x.bus_id := by
  unfold busIdOf
  induction table with
  | nil => simp at hx
  | cons a as ih =>
    rw [List.map_cons, List.nodup_cons] at h
    rcases List.mem_cons.1 hx with rfl | hin
    · rw [List.find?_cons_of_pos _ (by simp)]
      rfl
    · have hne : a.id ≠ x.id := by
        intro e
        exact h.1 (e ▸ List.mem_map_of_mem (fun r => r.id) hin)
      rw [List.find?_cons_of_neg _ (by simpa using hne)]
      exact ih h.2 hin

theorem mem_routesWithoutBus {table : List Route} {y : Route}
    (h : y ∈ routesWithoutBus (getRoutesWithPool table)) : y ∈ table ∧ truthy y.bus_id = false := by
  unfold routesWithoutBus getRoutesWithPool at h
  rw [List.mem_filter, mem_sortBy] at h
  exact ⟨h.1, by simpa using h.2⟩

/-- In a well-formed table a route that holds a bus is not in `routesWithoutBus`. -/
theorem not_mem_routesWithoutBus_ids {table : List Route} (hw : WellFormed table) {x : Route}
    (hx : x ∈ table) (hb : x.bus_id ≠ none) :
    x.id ∉ (routesWithoutBus (getRoutesWithPool table)).map (fun r => r.id) := by
  intro hin
  obtain ⟨y, hy, hyx⟩ := List.mem_map.1 hin
  obtain ⟨hyt, hyb⟩ := mem_routesWithoutBus hy
  have heq : y = x := List.inj_on_of_nodup_map hw.1 hyt hx hyx
  subst heq
  cases hbus : y.bus_id with
  | none => exact hb hbus
  | some b =>
    rw [hbus] at hyb
    have hne := hw.2 y hx
    rw [hbus] at hne
    simp only [truthy, decide_eq_false_iff_not, not_not] at hyb
    exact hne (by rw [hyb])

theorem KeepsBound.refl (t : List Route) : KeepsBound t t :=
  ⟨fun _ hx _ => hx, rfl⟩

theorem KeepsBound.andThen {t0 t1 t2 : List Route} (h01 : KeepsBound t0 t1)
    (h12 : KeepsBound t1 t2) : KeepsBound t0 t2 :=
  ⟨fun x hx hb => h12.1 x (h01.1 x hx hb) hb, h12.2.trans h01.2⟩

theorem keepsBound_updateBusIdIfNull (table : List Route) (busId routeId : String) :
    KeepsBound table (updateBusIdIfNull table busId routeId) := by
  refine ⟨?_, updateBusIdIfNull_ids table busId routeId⟩
  intro x hx hb
  unfold updateBusIdIfNull
  rw [List.mem_map]
  refine ⟨x, hx, ?_⟩
  rw [if_neg (fun h => hb h.2)]

theorem step6Scan_keepsBound (fault : String → String → Step6Fault) (route : Route)
    (bs : List Bus) :
    ∀ s : FallbackRun, KeepsBound s.table (step6Scan fault route bs s).1.table := by
  induction bs with
  | nil => intro s; exact KeepsBound.refl _
  | cons bus rest ih =>
    intro s
    unfold step6Scan
    cases busKey bus with
    | none => exact ih s
    | some busId =>
      simp only
      split_ifs
      · exact ih s
      · exact ih s
      · exact ih { s with failCount := s.failCount + 1, usedBusIds := busId :: s.usedBusIds }
      · exact ih { s with usedBusIds := busId :: s.usedBusIds }
      · exact ih { s with failCount := s.failCount + 1, usedBusIds := busId :: s.usedBusIds }
      · exact ih { s with failCount := s.failCount + 1, usedBusIds := busId :: s.usedBusIds }
      · exact keepsBound_updateBusIdIfNull s.table busId route.id
      · exact (keepsBound_updateBusIdIfNull s.table busId route.id).andThen
          (ih { s with table := updateBusIdIfNull s.table busId route.id,
                       usedBusIds := busId :: s.usedBusIds })

theorem step6Loop_keepsBound (fault : String → String → Step6Fault) (unused : List Bus)
    (routes : List Route) :
    ∀ s : FallbackRun, KeepsBound s.table (step6Loop fault unused routes s).table := by
  induction routes with
  | nil => intro s; exact KeepsBound.refl _
  | cons route rest ih =>
    intro s
    unfold step6Loop
    have hs := step6Scan_keepsBound fault route unused s
    cases hscan : step6Scan fault route unused s with
    | mk s1 assigned =>
      rw [hscan] at hs
      cases assigned with
      | true => exact hs.andThen (ih s1)
      | false => exact hs.andThen (ih { s1 with skipCount := s1.skipCount + 1 })

theorem step6_keepsBound (fault : String → String → Step6Fault) (allBuses : List Bus)
    (table : List Route) : KeepsBound table (step6 fault allBuses table).table := by
  unfold step6
  simp only
  split_ifs
  · exact step6Loop_keepsBound fault _ _
      { table := table, usedBusIds := usedBusIdsOf table, successCount := 0,
        failCount := 0, skipCount := 0 }
  · exact KeepsBound.refl _
  · exact KeepsBound.refl _

theorem selectedBus_ne_empty (schedules : List Schedule) (r b : String)
    (h : selectedBus schedules r = some b) : b ≠ "" := by
  rw [selectedBus_eq] at h
  cases hf : (sortedSchedules schedules).find? (selectable r) with
  | none => rw [hf] at h; simp at h
  | some e =>
    rw [hf] at h
    simp only [Option.some_bind] at h
    have hs := List.find?_some hf
    simp only [selectable, Bool.and_eq_true, decide_eq_true_eq] at hs
    have ht := hs.1.2
    rw [h] at ht
    simpa [truthy] using ht

theorem scheduleLoop_ids (fault : String → QueryFault) (entries : List (String × Selection)) :
    ∀ s : ScheduleRun, (scheduleLoop fault s entries).table.map (fun r => r.id) =
      s.table.map (fun r => r.id) := by
  induction entries with
  | nil => intro s; rfl
  | cons e es ih =>
    intro s
    refine (ih (scheduleStep fault s e)).trans ?_
    rcases scheduleStep_spec fault s e with ⟨ht, _⟩ | ⟨ht, _⟩
    · rw [ht]
    · rw [ht, updateBusId_ids]

/-- The schedule pass keeps a route table well formed. -/
theorem schedulePass_wellFormed (fault : String → QueryFault) (table : List Route)
    (schedules : List Schedule) (hw : WellFormed table) :
    WellFormed (schedulePass fault table schedules).table := by
  constructor
  · unfold schedulePass
    rw [scheduleLoop_ids]
    exact hw.1
  · intro x hx
    have hrows := scheduleLoop_rows fault (selectedBus schedules) table (routeBusMap schedules)
      (fun kv hkv => selectedBus_of_mem schedules kv hkv)
      { table := table, successCount := 0, skipCount := 0, failCount := 0, assigned := [] }
      (fun x hx => Or.inl hx) x hx
    rcases hrows with h0 | ⟨x0, _, b0, hb0, rfl⟩
    · exact hw.2 x h0
    · intro h
      simp only [Option.some.injEq] at h
      exact selectedBus_ne_empty schedules _ _ hb0 h

/-- In a well-formed table `assignBusesToRoutes` leaves every bound route as it is. -/
theorem assignBusesToRoutes_keeps (env : AssignEnv) (table : List Route)
    (hw : WellFormed table) (x : Route) (hx : x ∈ table) (hb : x.bus_id ≠ none) :
    busIdOf (assignBusesToRoutes env table).1 x.id = some x.bus_id := by
  have hwr := assignBusesToRoutes_writes env table
  have hmem := hwr.frame x hx (not_mem_routesWithoutBus_ids hw hx hb)
  have hnd : ((assignBusesToRoutes env table).1.map (fun r => r.id)).Nodup := by
    rw [hwr.ids]; exact hw.1
  exact busIdOf_of_mem _ hnd x hmem

/-- In a table with distinct ids Step 6 leaves every bound route as it is. -/
theorem step6_keeps (fault : String → String → Step6Fault) (allBuses : List Bus)
    (table : List Route) (hw : WellFormed table) (x : Route) (hx : x ∈ table)
    (hb : x.bus_id ≠ none) :
    busIdOf (step6 fault allBuses table).table x.id = some x.bus_id := by
  have hk := step6_keepsBound fault allBuses table
  have hnd : ((step6 fault allBuses table).table.map (fun r => r.id)).Nodup := by
    rw [hk.2]; exact hw.1
  exact busIdOf_of_mem _ hnd x (hk.1 x hx hb)

/-! ## Priority of bound routes in a well-formed table -/

/-- Priority of bound routes when ids are distinct and no `bus_id` is the empty
string: for every outcome of the collaborator calls, neither
`assignBusesToRoutes` nor Step 6 of `autoAssignFromSchedule` changes the
`bus_id` of a route that has a non-null `bus_id` when the pass starts; in
particular every route the schedule pass has just bound still holds its
schedule-derived bus after either fallback pass. -/
theorem fallback_keeps_bound_routes (env : AssignEnv) (fault6 : String → String → Step6Fault)
    (allBuses : List Bus) (table : List Route) (hw : WellFormed table) :
    (∀ x ∈ table, x.bus_id ≠ none →
        busIdOf (assignBusesToRoutes env table).1 x.id = some x.bus_id ∧
        busIdOf (step6 fault6 allBuses table).table x.id = some x.bus_id) ∧
      (∀ (fault : String → QueryFault) (schedules : List Schedule),
        ∀ rb ∈ (schedulePass fault table schedules).assigned,
          busIdOf (assignBusesToRoutes env (schedulePass fault table schedules).table).1 rb.1 =
              some (some rb.2) ∧
            busIdOf (step6 fault6 allBuses (schedulePass fault table schedules).table).table
              rb.1 = some (some rb.2)) := by
  constructor
  · intro x hx hb
    exact ⟨assignBusesToRoutes_keeps env table hw x hx hb,
      step6_keeps fault6 allBuses table hw x hx hb⟩
  · intro fault schedules rb hrb
    have hw1 := schedulePass_wellFormed fault table schedules hw
    obtain ⟨x, hx, hxid, hxb⟩ := (schedulePass_logInv fault table schedules).2.1 rb hrb |>.2
    have hb : x.bus_id ≠ none := by rw [hxb]; simp
    have h1 := assignBusesToRoutes_keeps env _ hw1 x hx hb
    have h2 := step6_keeps fault6 allBuses _ hw1 x hx hb
    rw [hxid, hxb] at h1 h2
    exact ⟨h1, h2⟩

/-- An instance of the priority of bound routes: `R1` is bound to `B1`, `R2` and
`R3` are unbound, and the buses `B3`, `B1` are on offer. -/
theorem fallback_keeps_bound_routes_witness :
    WellFormed [exRoute "R1" (some "B1") "active" 1, exRoute "R2" none "active" 2,
        exRoute "R3" none "inactive" 3] ∧
      ((∀ x ∈ [exRoute "R1" (some "B1") "active" 1, exRoute "R2" none "active" 2,
            exRoute "R3" none "inactive" 3], x.bus_id ≠ none →
          busIdOf (assignBusesToRoutes (exAssignEnv [exBus "B3", exBus "B1"])
            [exRoute "R1" (some "B1") "active" 1, exRoute "R2" none "active" 2,
              exRoute "R3" none "inactive" 3]).1 x.id = some x.bus_id ∧
          busIdOf (step6 (fun _ _ => Step6Fault.none) [exBus "B3", exBus "B1"]
            [exRoute "R1" (some "B1") "active" 1, exRoute "R2" none "active" 2,
              exRoute "R3" none "inactive" 3]).table x.id = some x.bus_id) ∧
        (∀ (fault : String → QueryFault) (schedules : List Schedule),
          ∀ rb ∈ (schedulePass fault [exRoute "R1" (some "B1") "active" 1,
              exRoute "R2" none "active" 2, exRoute "R3" none "inactive" 3] schedules).assigned,
            busIdOf (assignBusesToRoutes (exAssignEnv [exBus "B3", exBus "B1"])
                (schedulePass fault [exRoute "R1" (some "B1") "active" 1,
                  exRoute "R2" none "active" 2, exRoute "R3" none "inactive" 3]
                  schedules).table).1 rb.1 = some (some rb.2) ∧
              busIdOf (step6 (fun _ _ => Step6Fault.none) [exBus "B3", exBus "B1"]
                (schedulePass fault [exRoute "R1" (some "B1") "active" 1,
                  exRoute "R2" none "active" 2, exRoute "R3" none "inactive" 3]
                  schedules).table).table rb.1 = some (some rb.2))) :=
  ⟨by decide, fallback_keeps_bound_routes _ _ _ _ (by decide)⟩

/-! ## C7 -/

/-- C7 fails on the code: `assignBusesToRoutes` takes a route whose `bus_id` is
the empty string, a non-null value, as a route without bus (`!r.bus_id`,
line 218) and its `UPDATE` has no `bus_id IS NULL` (lines 392-396).  Route `R1`
has `bus_id` `''` and bus `B1` is free: the pass rewrites `R1` to `B1`, through
the direct update and through the route service alike.  Step 6 of
`autoAssignFromSchedule` (`WHERE bus_id IS NULL`) leaves the row as it is. -/
theorem assignBusesToRoutes_rewrites_empty_bus_id :
    busIdOf [exRoute "R1" (some "") "active" 1] "R1" = some (some "") ∧
      assignBusesToRoutes (exAssignEnv [exBus "B1"]) [exRoute "R1" (some "") "active" 1] =
        ([exRoute "R1" (some "B1") "active" 1],
          { success := true, message := none, updated := some 1, failed := some 0,
            skipped := none }) ∧
      (assignBusesToRoutes { exAssignEnv [exBus "B1"] with apiAnswers := fun _ _ => true }
        [exRoute "R1" (some "") "active" 1]).1 = [exRoute "R1" (some "B1") "active" 1] ∧
      (step6 (fun _ _ => Step6Fault.none) [exBus "B1"]
        [exRoute "R1" (some "") "active" 1]).table = [exRoute "R1" (some "") "active" 1] := by
  decide

/-! ## Lemmas on a run of assignBusesToRoutes without failures -/

theorem noFaults_exAssignEnv (buses : List Bus) : NoFaults (exAssignEnv buses) :=
  ⟨rfl, rfl, fun _ _ => rfl, fun _ _ => rfl, fun _ _ => rfl, by simp [exAssignEnv, getBuses,
    getBusesFromAPI]⟩

/-- Without failures `assignBusToRouteWithPool` writes a bus no other route
holds and returns `true`. -/
theorem assignBusToRouteWithPool_ok (env : AssignEnv) (table : List Route)
    (routeId busId : String) (h2 : env.secondCheck busId routeId = Access.ok)
    (hd : env.direct routeId busId = DirectFault.none)
    (hfree : ¬ 0 < (busUsedRows table busId routeId).length) :
    assignBusToRouteWithPool env table routeId busId =
      (updateBusId table busId routeId, some true) := by
  unfold assignBusToRouteWithPool checkBusUsedInOtherRoute
  rw [h2]
  simp only [hfree, decide_False]
  rcases assignBusToRouteViaAPI_spec env table routeId busId with h | h
  · rw [h]
  · rw [h]
    simp only [hd, hfree]
    simp

/-- One step of the inner loop when no query fails. -/
theorem scanBuses_cons_noFaults (env : AssignEnv) (hnf : NoFaults env) (route : Route)
    (bus : Bus) (rest : List Bus) (s : FallbackRun) (k : String) (hk : busKey bus = some k)
    (hne : k ≠ "") (hu : k ∉ s.usedBusIds) :
    scanBuses env route (bus :: rest) s =
      if 0 < (busUsedRows s.table k route.id).length then
        scanBuses env route rest { s with usedBusIds := k :: s.usedBusIds }
      else
        ({ s with table := updateBusId s.table k route.id,
                  successCount := s.successCount + 1,
                  usedBusIds := k :: s.usedBusIds }, Scan.assigned) := by
  obtain ⟨_, _, h1, h2, hd, _⟩ := hnf
  rw [scanBuses, hk]
  simp only
  have ht : ¬ truthy (some k) = false := by simp [truthy, hne]
  rw [if_neg ht, if_neg hu]
  unfold checkBusUsedInOtherRoute
  rw [h1]
  by_cases hc : 0 < (busUsedRows s.table k route.id).length
  · simp only [hc, decide_True, if_true]
  · simp only [hc, decide_False, if_false]
    rw [assignBusToRouteWithPool_ok env s.table route.id k (h2 _ _) (hd _ _) hc]

/-- The inner loop passes over the buses whose identifier is in `usedBusIds`. -/
theorem scanBuses_skip (env : AssignEnv) (route : Route) (done rest : List Bus)
    (s : FallbackRun)
    (h : ∀ bus ∈ done, ∀ k, busKey bus = some k → k ≠ "" → k ∈ s.usedBusIds) :
    scanBuses env route (done ++ rest) s = scanBuses env route rest s := by
  induction done with
  | nil => rfl
  | cons bus bs ih =>
    have ih1 := ih (fun b hb => h b (List.mem_cons_of_mem _ hb))
    rw [List.cons_append, scanBuses]
    cases hk : busKey bus with
    | none => exact ih1
    | some k =>
      simp only
      by_cases ht : truthy (some k) = false
      · rw [if_pos ht]; exact ih1
      · rw [if_neg ht]
        have hne : k ≠ "" := by
          intro e; apply ht; simp [truthy, e]
        rw [if_pos (h bus (List.mem_cons_self _ _) k hk hne)]
        exact ih1

theorem Writes.busIdOf_eq {ids keys : List String} {t0 t1 : List Route}
    (h : Writes ids keys t0 t1) (r : String) (hr : r ∉ ids) : busIdOf t1 r = busIdOf t0 r := by
  induction h with
  | refl => rfl
  | step r1 b _ hr1 _ _ _ ih =>
    have hne : r1 ≠ r := by
      intro e
      exact hr (e ▸ hr1)
    rw [busIdOf_updateBusId, if_neg hne]
    exact ih

theorem busIdOf_updateBusId_ne_none (table : List Route) (busId routeId r : String)
    (h : busIdOf table r ≠ none) : busIdOf (updateBusId table busId routeId) r ≠ none := by
  rw [busIdOf_updateBusId]
  split_ifs
  · cases hb : busIdOf table r with
    | none => exact absurd hb h
    | some v => simp
  · exact h

/-- First fit without failures: with `rest` the buses still free, the routes are
bound in order to the buses of `rest` in order, and the routes beyond the last
free bus keep their row. -/
theorem routeLoop_pairs (env : AssignEnv) (hnf : NoFaults env) :
    ∀ (rs : List Route) (done rest : List Bus) (s : FallbackRun),
      (rs.map (fun r => r.id)).Nodup →
      (∀ r ∈ rs, busIdOf s.table r.id ≠ none) →
      (∀ bus ∈ done, ∀ k, busKey bus = some k → k ≠ "" → k ∈ s.usedBusIds) →
      (∀ bus ∈ rest, ∃ k, busKey bus = some k ∧ k ≠ "" ∧ k ∉ s.usedBusIds ∧
        ∀ x ∈ s.table, x.bus_id ≠ some k) →
      (rest.filterMap busKey).Nodup →
      (routeLoop env (done ++ rest) rs s).2 = false ∧
        (∀ p ∈ List.zip rs (rest.filterMap busKey),
          busIdOf (routeLoop env (done ++ rest) rs s).1.table p.1.id = some (some p.2)) ∧
        (∀ r ∈ rs.drop (rest.filterMap busKey).length,
          busIdOf (routeLoop env (done ++ rest) rs s).1.table r.id = busIdOf s.table r.id) ∧
        (routeLoop env (done ++ rest) rs s).1.successCount =
          s.successCount + min rs.length (rest.filterMap busKey).length := by
  intro rs
  induction rs with
  | nil =>
    intro done rest s _ _ _ _ _
    refine ⟨rfl, ?_, ?_, ?_⟩
    · intro p hp; simp at hp
    · intro r hr; simp at hr
    · simp [routeLoop]
  | cons r rs1 ih =>
    intro done rest s hnd hex hdone hrest hkeys
    rw [List.map_cons, List.nodup_cons] at hnd
    have hframe : ∀ (s1 : FallbackRun) (unused : List Bus),
        busIdOf (routeLoop env unused rs1 s1).1.table r.id = busIdOf s1.table r.id := by
      intro s1 unused
      exact (routeLoop_writes env unused (rs1.map (fun r => r.id)) (unused.filterMap busKey)
        (fun bus hbus k hk => List.mem_filterMap.2 ⟨bus, hbus, hk⟩) rs1
        (fun x hx => List.mem_map_of_mem _ hx) s1).busIdOf_eq r.id hnd.1
    cases rest with
    | nil =>
      have hscan : scanBuses env r (done ++ []) s = (s, Scan.exhausted) := by
        rw [scanBuses_skip env r done [] s hdone]
        rfl
      rw [routeLoop, hscan]
      simp only
      obtain ⟨i1, _, i3, i4⟩ := ih done [] { s with skipCount := s.skipCount + 1 } hnd.2
        (fun x hx => hex x (List.mem_cons_of_mem _ hx)) hdone (by simp) (by simp)
      refine ⟨i1, by simp, ?_, ?_⟩
      · intro x hx
        simp only [List.filterMap_nil, List.length_nil, List.drop_zero] at hx i3
        rcases List.mem_cons.1 hx with rfl | hx
        · exact hframe _ _
        · exact i3 x hx
      · simpa using i4
    | cons bus rest1 =>
      obtain ⟨k, hk, hne, hu, hfree⟩ := hrest bus (List.mem_cons_self _ _)
      have hnc : ¬ 0 < (busUsedRows s.table k r.id).length := by
        rw [busUsedRows_pos_iff]
        rintro ⟨x, hx, hxb, _⟩
        exact hfree x hx hxb
      have hscan : scanBuses env r (done ++ bus :: rest1) s =
          ({ s with table := updateBusId s.table k r.id,
                    successCount := s.successCount + 1,
                    usedBusIds := k :: s.usedBusIds }, Scan.assigned) := by
        rw [scanBuses_skip env r done (bus :: rest1) s hdone,
          scanBuses_cons_noFaults env hnf r bus rest1 s k hk hne hu, if_neg hnc]
      have happ : done ++ bus :: rest1 = (done ++ [bus]) ++ rest1 := by simp
      have hfm : (bus :: rest1).filterMap busKey = k :: rest1.filterMap busKey := by
        rw [List.filterMap_cons, hk]
      rw [routeLoop, hscan]
      simp only
      rw [hfm] at hkeys ⊢
      rw [List.nodup_cons] at hkeys
      rw [happ]
      obtain ⟨i1, i2, i3, i4⟩ := ih (done ++ [bus]) rest1
        { s with table := updateBusId s.table k r.id, successCount := s.successCount + 1,
                 usedBusIds := k :: s.usedBusIds } hnd.2
        (fun x hx => busIdOf_updateBusId_ne_none _ _ _ _ (hex x (List.mem_cons_of_mem _ hx)))
        (by
          intro b hb k1 hk1 hne1
          rcases List.mem_append.1 hb with hb | hb
          · exact List.mem_cons_of_mem _ (hdone b hb k1 hk1 hne1)
          · simp only [List.mem_singleton] at hb
            subst hb
            rw [hk] at hk1
            simp only [Option.some.injEq] at hk1
            subst hk1
            exact List.mem_cons_self _ _)
        (by
          intro b hb
          obtain ⟨k1, hk1, hne1, hu1, hfree1⟩ := hrest b (List.mem_cons_of_mem _ hb)
          have hkk : k1 ≠ k := by
            intro e
            apply hkeys.1
            rw [← e]
            exact List.mem_filterMap.2 ⟨b, hb, hk1⟩
          refine ⟨k1, hk1, hne1, ?_, ?_⟩
          · intro hin
            rcases List.mem_cons.1 hin with h | h
            · exact hkk h
            · exact hu1 h
          · intro x hx
            obtain ⟨y, hy, rfl⟩ := mem_updateBusId.1 hx
            split_ifs
            · simp only [ne_eq, Option.some.injEq]
              exact fun e => hkk e.symm
            · exact hfree1 y hy)
        hkeys.2
      refine ⟨i1, ?_, ?_, ?_⟩
      · intro p hp
        rw [List.zip_cons_cons] at hp
        rcases List.mem_cons.1 hp with rfl | hp
        · simp only
          rw [hframe, busIdOf_updateBusId, if_pos rfl]
          cases hb : busIdOf s.table r.id with
          | none => exact absurd hb (hex r (List.mem_cons_self _ _))
          | some v => rfl
        · exact i2 p hp
      · intro x hx
        simp only [List.length_cons, List.drop_succ_cons] at hx
        have hx1 : x ∈ rs1 := List.mem_of_mem_drop hx
        have hne1 : r.id ≠ x.id := by
          intro e
          exact hnd.1 (e ▸ List.mem_map_of_mem (fun r => r.id) hx1)
        rw [i3 x hx]
        simp only
        rw [busIdOf_updateBusId, if_neg hne1]
      · rw [i4]
        simp only [List.length_cons]
        omega

/-- Without failures `assignBusesToRoutes` returns early, with `updated: 0`,
exactly when no route lacks a bus or no bus is unused; otherwise it runs its
loops. -/
theorem assignBusesToRoutes_noFaults (env : AssignEnv) (hnf : NoFaults env)
    (table : List Route) :
    ((routesWithoutBus (getRoutesWithPool table) = [] ∨
          unusedBuses table (busList env) = []) ∧
        (assignBusesToRoutes env table).1 = table ∧
        (assignBusesToRoutes env table).2.updated = some 0) ∨
      (routesWithoutBus (getRoutesWithPool table) ≠ [] ∧
        unusedBuses table (busList env) ≠ [] ∧
        assignBusesToRoutes env table =
          match routeLoop env (unusedBuses table (busList env))
              (routesWithoutBus (getRoutesWithPool table))
              { table := table, usedBusIds := usedBusIdsOf table, successCount := 0,
                failCount := 0, skipCount := 0 } with
          | (s, true) => (s.table, caught "error")
          | (s, false) =>
            (s.table, { success := true, message := none, updated := some s.successCount,
                        failed := some s.failCount, skipped := none })) := by
  obtain ⟨h1, h6, _, _, _, hb⟩ := hnf
  obtain ⟨buses, h2⟩ := Option.ne_none_iff_exists'.1 hb
  unfold assignBusesToRoutes busList
  rw [h1, h2]
  simp only [Option.getD_some]
  by_cases h3 : (getRoutesWithPool table).length = 0
  · rw [if_pos h3]
    refine Or.inl ⟨Or.inl ?_, rfl, rfl⟩
    rw [List.length_eq_zero] at h3
    rw [h3]; rfl
  · rw [if_neg h3]
    by_cases h4 : buses.length = 0
    · rw [if_pos h4]
      refine Or.inl ⟨Or.inr ?_, rfl, rfl⟩
      rw [List.length_eq_zero] at h4
      rw [h4]; rfl
    · rw [if_neg h4]
      by_cases h5 : (routesWithoutBus (getRoutesWithPool table)).length = 0
      · rw [if_pos h5]
        exact Or.inl ⟨Or.inl (List.length_eq_zero.1 h5), rfl, rfl⟩
      · rw [if_neg h5, h6]
        simp only
        by_cases h7 : (unusedBuses table buses).length = 0
        · rw [if_pos h7]
          exact Or.inl ⟨Or.inr (List.length_eq_zero.1 h7), rfl, rfl⟩
        · rw [if_neg h7]
          exact Or.inr ⟨fun e => h5 (by rw [e]; rfl), fun e => h7 (by rw [e]; rfl), rfl⟩

theorem routesWithoutBus_ids_nodup (table : List Route)
    (h : (table.map (fun r => r.id)).Nodup) :
    ((routesWithoutBus (getRoutesWithPool table)).map (fun r => r.id)).Nodup := by
  unfold routesWithoutBus getRoutesWithPool
  have hp : ((sortBy byNumericId table).map (fun r => r.id)).Nodup :=
    ((perm_sortBy byNumericId table).map _).nodup_iff.2 h
  exact hp.sublist ((List.filter_sublist _).map _)

theorem unusedBuses_spec {table : List Route} {buses : List Bus} {bus : Bus}
    (h : bus ∈ unusedBuses table buses) :
    ∃ k, busKey bus = some k ∧ k ≠ "" ∧ k ∉ usedBusIdsOf table ∧
      ∀ x ∈ table, x.bus_id ≠ some k := by
  unfold unusedBuses at h
  rw [List.mem_filter] at h
  have h2 := h.2
  unfold isUnused at h2
  cases hk : busKey bus with
  | none => rw [hk] at h2; simp at h2
  | some k =>
    rw [hk] at h2
    simp only [truthy, Bool.and_eq_true, decide_eq_true_eq, Bool.not_eq_true',
      decide_eq_false_iff_not] at h2
    refine ⟨k, rfl, h2.1, h2.2, ?_⟩
    intro x hx hxb
    exact h2.2 (mem_usedBusIdsOf.2 ⟨x, hx, hxb⟩)

/-! ## C8 -/

/-- C8, the claim as stated, fails: the conflict check of line 283 throws for
bus `B1` and route `R1`, the checker answers "used", `B1` is put aside, and the
first unbound route is bound to the second unused bus while the second route
stays unbound; the only write of the run succeeds, and no failure is counted. -/
theorem assignBusesToRoutes_fail_closed_shifts_pairing :
    routesWithoutBus (getRoutesWithPool
        [exRoute "R1" none "active" 1, exRoute "R2" none "active" 2]) =
        [exRoute "R1" none "active" 1, exRoute "R2" none "active" 2] ∧
      unusedKeys [exRoute "R1" none "active" 1, exRoute "R2" none "active" 2]
        (busList (exFailClosedEnv [exBus "B1", exBus "B2"])) = ["B1", "B2"] ∧
      assignBusToRouteWithPool (exFailClosedEnv [exBus "B1", exBus "B2"])
        [exRoute "R1" none "active" 1, exRoute "R2" none "active" 2] "R1" "B2" =
        ([exRoute "R1" (some "B2") "active" 1, exRoute "R2" none "active" 2], some true) ∧
      assignBusesToRoutes (exFailClosedEnv [exBus "B1", exBus "B2"])
        [exRoute "R1" none "active" 1, exRoute "R2" none "active" 2] =
        ([exRoute "R1" (some "B2") "active" 1, exRoute "R2" none "active" 2],
          { success := true, message := none, updated := some 1, failed := some 0,
            skipped := none }) := by
  decide

/-- C8, amended: first-fit pairing of the fallback pass.  For a well-formed
route table and a bus list with distinct identifiers, if every store query
(conflict checks included) and every write succeeds, then after
`assignBusesToRoutes` the k-th route of `routesWithoutBus` is bound to the k-th
identifier of `unusedBuses`, for every k below both lengths; every further
route of `routesWithoutBus` keeps its row; and `updated` is the number of
pairs. -/
theorem assignBusesToRoutes_first_fit (env : AssignEnv) (table : List Route)
    (hw : WellFormed table) (hnf : NoFaults env)
    (hd : ((busList env).filterMap busKey).Nodup) :
    (∀ p ∈ List.zip (routesWithoutBus (getRoutesWithPool table))
          (unusedKeys table (busList env)),
        busIdOf (assignBusesToRoutes env table).1 p.1.id = some (some p.2)) ∧
      (∀ r ∈ (routesWithoutBus (getRoutesWithPool table)).drop
          (unusedKeys table (busList env)).length,
        busIdOf (assignBusesToRoutes env table).1 r.id = some r.bus_id) ∧
      (assignBusesToRoutes env table).2.updated =
        some (min (routesWithoutBus (getRoutesWithPool table)).length
          (unusedKeys table (busList env)).length) := by
  have hrow : ∀ r ∈ routesWithoutBus (getRoutesWithPool table),
      busIdOf table r.id = some r.bus_id :=
    fun r hr => busIdOf_of_mem table hw.1 r (mem_routesWithoutBus hr).1
  rcases assignBusesToRoutes_noFaults env hnf table with ⟨hor, ht, hu⟩ | ⟨_, _, hrun⟩
  · rw [ht, hu]
    have hz : List.zip (routesWithoutBus (getRoutesWithPool table))
        (unusedKeys table (busList env)) = [] := by
      rcases hor with h | h
      · rw [h]; rfl
      · unfold unusedKeys; rw [h]; simp
    refine ⟨by rw [hz]; simp, fun r hr => hrow r (List.mem_of_mem_drop hr), ?_⟩
    rcases hor with h | h
    · rw [h]; simp
    · unfold unusedKeys; rw [h]; simp
  · have hkeys : (unusedKeys table (busList env)).Nodup := by
      unfold unusedKeys unusedBuses
      exact hd.sublist ((List.filter_sublist _).filterMap _)
    obtain ⟨i1, i2, i3, i4⟩ := routeLoop_pairs env hnf
      (routesWithoutBus (getRoutesWithPool table)) [] (unusedBuses table (busList env))
      { table := table, usedBusIds := usedBusIdsOf table, successCount := 0,
        failCount := 0, skipCount := 0 }
      (routesWithoutBus_ids_nodup table hw.1)
      (fun r hr => by rw [hrow r hr]; simp)
      (by intro b hb; simp at hb)
      (fun bus hbus => unusedBuses_spec hbus)
      hkeys
    rw [List.nil_append] at i1 i2 i3 i4
    rw [hrun]
    cases hl : routeLoop env (unusedBuses table (busList env))
        (routesWithoutBus (getRoutesWithPool table))
        { table := table, usedBusIds := usedBusIdsOf table, successCount := 0,
          failCount := 0, skipCount := 0 } with
    | mk s thrown =>
      rw [hl] at i1 i2 i3 i4
      simp only at i1 i2 i3 i4
      subst i1
      simp only
      refine ⟨i2, ?_, ?_⟩
      · intro r hr
        rw [i3 r hr]
        exact hrow r (List.mem_of_mem_drop hr)
      · rw [i4]
        simp [unusedKeys]

/-- Witness of the amended C8: three unbound routes, one bound route, and three
buses of which one is taken. -/
theorem assignBusesToRoutes_first_fit_witness :
    (WellFormed [exRoute "R1" none "active" 1, exRoute "R2" (some "B2") "active" 2,
        exRoute "R3" none "inactive" 3, exRoute "R4" none "active" 4] ∧
      ((busList (exAssignEnv [exBus "B1", exBus "B2", exBus "B3"])).filterMap busKey).Nodup) ∧
      ((∀ p ∈ List.zip (routesWithoutBus (getRoutesWithPool
            [exRoute "R1" none "active" 1, exRoute "R2" (some "B2") "active" 2,
              exRoute "R3" none "inactive" 3, exRoute "R4" none "active" 4]))
            (unusedKeys [exRoute "R1" none "active" 1, exRoute "R2" (some "B2") "active" 2,
              exRoute "R3" none "inactive" 3, exRoute "R4" none "active" 4]
              (busList (exAssignEnv [exBus "B1", exBus "B2", exBus "B3"]))),
          busIdOf (assignBusesToRoutes (exAssignEnv [exBus "B1", exBus "B2", exBus "B3"])
            [exRoute "R1" none "active" 1, exRoute "R2" (some "B2") "active" 2,
              exRoute "R3" none "inactive" 3, exRoute "R4" none "active" 4]).1 p.1.id =
            some (some p.2)) ∧
        (∀ r ∈ (routesWithoutBus (getRoutesWithPool
            [exRoute "R1" none "active" 1, exRoute "R2" (some "B2") "active" 2,
              exRoute "R3" none "inactive" 3, exRoute "R4" none "active" 4])).drop
            (unusedKeys [exRoute "R1" none "active" 1, exRoute "R2" (some "B2") "active" 2,
              exRoute "R3" none "inactive" 3, exRoute "R4" none "active" 4]
              (busList (exAssignEnv [exBus "B1", exBus "B2", exBus "B3"]))).length,
          busIdOf (assignBusesToRoutes (exAssignEnv [exBus "B1", exBus "B2", exBus "B3"])
            [exRoute "R1" none "active" 1, exRoute "R2" (some "B2") "active" 2,
              exRoute "R3" none "inactive" 3, exRoute "R4" none "active" 4]).1 r.id =
            some r.bus_id) ∧
        (assignBusesToRoutes (exAssignEnv [exBus "B1", exBus "B2", exBus "B3"])
            [exRoute "R1" none "active" 1, exRoute "R2" (some "B2") "active" 2,
              exRoute "R3" none "inactive" 3, exRoute "R4" none "active" 4]).2.updated =
          some (min (routesWithoutBus (getRoutesWithPool
            [exRoute "R1" none "active" 1, exRoute "R2" (some "B2") "active" 2,
              exRoute "R3" none "inactive" 3, exRoute "R4" none "active" 4])).length
            (unusedKeys [exRoute "R1" none "active" 1, exRoute "R2" (some "B2") "active" 2,
              exRoute "R3" none "inactive" 3, exRoute "R4" none "active" 4]
              (busList (exAssignEnv [exBus "B1", exBus "B2", exBus "B3"]))).length)) :=
  ⟨⟨by decide, by decide⟩,
    assignBusesToRoutes_first_fit _ _ (by decide) (noFaults_exAssignEnv _) (by decide)⟩

/-! ## Lemmas on a second run of the schedule pass -/

/-- An iteration for a settled selection changes neither the table nor the
count of updates. -/
theorem scheduleStep_settled (fault : String → QueryFault) (s : ScheduleRun)
    (entry : String × Selection) (h : SettledFor s.table entry) :
    (scheduleStep fault s entry).table = s.table ∧
      (scheduleStep fault s entry).successCount = s.successCount ∧
      (scheduleStep fault s entry).assigned = s.assigned := by
  rcases scheduleStep_spec fault s entry with ⟨h1, h2, h3⟩ | ⟨_, _, _, hfree, x, hx, hid, hne⟩
  · exact ⟨h1, h3, h2⟩
  · exfalso
    rcases h x hx hid with hb | ⟨y, hy, hyb, hyid⟩
    · exact hne hb
    · exact hfree ((busUsedRows_pos_iff _ _ _).2 ⟨y, hy, hyb, hyid⟩)

theorem scheduleLoop_settled (fault : String → QueryFault)
    (entries : List (String × Selection)) :
    ∀ s : ScheduleRun, (∀ kv ∈ entries, SettledFor s.table kv) →
      (scheduleLoop fault s entries).table = s.table ∧
        (scheduleLoop fault s entries).successCount = s.successCount ∧
        (scheduleLoop fault s entries).assigned = s.assigned := by
  induction entries with
  | nil => intro s _; exact ⟨rfl, rfl, rfl⟩
  | cons e es ih =>
    intro s h
    obtain ⟨h1, h2, h3⟩ := scheduleStep_settled fault s e (h e (List.mem_cons_self _ _))
    obtain ⟨i1, i2, i3⟩ := ih (scheduleStep fault s e)
      (fun kv hkv => by rw [h1]; exact h kv (List.mem_cons_of_mem _ hkv))
    exact ⟨i1.trans h1, i2.trans h2, i3.trans h3⟩

/-- An iteration whose queries succeed settles its selection, in a table with
distinct ids: it leaves the table with the selection settled, or writes the
selected bus. -/
theorem scheduleStep_noFault (fault : String → QueryFault) (s : ScheduleRun)
    (entry : String × Selection) (hf : fault entry.1 = QueryFault.none)
    (hnd : (s.table.map (fun r => r.id)).Nodup) :
    ((scheduleStep fault s entry).table = s.table ∧ SettledFor s.table entry) ∨
      ((scheduleStep fault s entry).table = updateBusId s.table entry.2.busId entry.1 ∧
        ¬ 0 < (busUsedRows s.table entry.2.busId entry.1).length ∧
        ∃ x ∈ s.table, x.id = entry.1 ∧ x.bus_id ≠ some entry.2.busId) := by
  unfold scheduleStep
  rw [if_neg (by rw [hf]; decide)]
  cases hsel : selectById s.table entry.1 with
  | nil =>
    refine Or.inl ⟨rfl, ?_⟩
    intro x hx hid
    have hm : x ∈ selectById s.table entry.1 := by
      unfold selectById
      rw [List.mem_filter]
      exact ⟨hx, by simpa using hid⟩
    rw [hsel] at hm
    simp at hm
  | cons cur rest =>
    have hcur : cur ∈ selectById s.table entry.1 := by rw [hsel]; exact List.mem_cons_self _ _
    unfold selectById at hcur
    rw [List.mem_filter] at hcur
    have hid : cur.id = entry.1 := by simpa using hcur.2
    simp only
    by_cases h2 : cur.bus_id = some entry.2.busId
    · rw [if_pos h2]
      refine Or.inl ⟨rfl, ?_⟩
      intro x hx hxid
      have hxc : x = cur := List.inj_on_of_nodup_map hnd hx hcur.1 (hxid.trans hid.symm)
      rw [hxc]
      exact Or.inl h2
    · rw [if_neg h2, if_neg (by rw [hf]; decide)]
      by_cases h4 : 0 < (busUsedRows s.table entry.2.busId entry.1).length
      · rw [if_pos h4]
        refine Or.inl ⟨rfl, ?_⟩
        intro x _ _
        exact Or.inr ((busUsedRows_pos_iff _ _ _).1 h4)
      · rw [if_neg h4, if_neg (by rw [hf]; decide), if_pos (by simp)]
        exact Or.inr ⟨rfl, h4, cur, hcur.1, hid, h2⟩

/-- Without failing queries, and when no route yet to come is bound to a bus
other than its selection, the loop settles every selection. -/
theorem scheduleLoop_settles (fault : String → QueryFault) (hf : ∀ r, fault r = QueryFault.none)
    (entries : List (String × Selection)) :
    ∀ (done : List (String × Selection)) (s : ScheduleRun),
      (entries.map Prod.fst).Nodup →
      (∀ kv ∈ done, kv.1 ∉ entries.map Prod.fst) →
      (s.table.map (fun r => r.id)).Nodup →
      (∀ kv ∈ done, SettledFor s.table kv) →
      (∀ kv ∈ entries, ∀ x ∈ s.table, x.id = kv.1 →
        x.bus_id = none ∨ x.bus_id = some kv.2.busId) →
      ∀ kv ∈ done ++ entries, SettledFor (scheduleLoop fault s entries).table kv := by
  induction entries with
  | nil =>
    intro done s _ _ _ hdone _ kv hkv
    rw [List.append_nil] at hkv
    exact hdone kv hkv
  | cons e es ih =>
    intro done s hkeys hdk hnd hdone hrem kv hkv
    rw [List.map_cons, List.nodup_cons] at hkeys
    have happ : done ++ e :: es = (done ++ [e]) ++ es := by simp
    rw [happ] at hkv
    have hde : ∀ kv ∈ done, kv.1 ≠ e.1 := by
      intro kv1 hkv1 heq
      exact hdk kv1 hkv1 (by rw [List.map_cons, heq]; exact List.mem_cons_self _ _)
    have hkeyse : ∀ kv1 ∈ done ++ [e], kv1.1 ∉ es.map Prod.fst := by
      intro kv1 hkv1
      rcases List.mem_append.1 hkv1 with h | h
      · intro hin
        exact hdk kv1 h (by rw [List.map_cons]; exact List.mem_cons_of_mem _ hin)
      · simp only [List.mem_singleton] at h
        rw [h]; exact hkeys.1
    refine ih (done ++ [e]) (scheduleStep fault s e) hkeys.2 hkeyse ?_ ?_ ?_ kv hkv
    · rcases scheduleStep_spec fault s e with ⟨ht, _⟩ | ⟨ht, _⟩
      · rw [ht]; exact hnd
      · rw [ht, updateBusId_ids]; exact hnd
    · intro kv1 hkv1
      rcases scheduleStep_noFault fault s e (hf _) hnd with ⟨ht, hset⟩ | ⟨ht, hfree, x0, hx0, hid0, hne0⟩
      · rw [ht]
        rcases List.mem_append.1 hkv1 with h | h
        · exact hdone kv1 h
        · simp only [List.mem_singleton] at h
          rw [h]; exact hset
      · rw [ht]
        have hx0none : x0.bus_id = none := by
          rcases hrem e (List.mem_cons_self _ _) x0 hx0 hid0 with h | h
          · exact h
          · exact absurd h hne0
        rcases List.mem_append.1 hkv1 with h | h
        · intro x hx hxid
          obtain ⟨y, hy, rfl⟩ := mem_updateBusId.1 hx
          have hye : y.id ≠ e.1 := by
            intro heq
            apply hde kv1 h
            rw [← hxid, if_pos heq]
            exact heq
          rw [if_neg hye] at hxid ⊢
          rcases hdone kv1 h y hy hxid with hb | ⟨z, hz, hzb, hzid⟩
          · exact Or.inl hb
          · refine Or.inr ⟨z, ?_, hzb, hzid⟩
            refine mem_updateBusId.2 ⟨z, hz, ?_⟩
            have hze : z.id ≠ e.1 := by
              intro heq
              have hzx : z = x0 := List.inj_on_of_nodup_map hnd hz hx0 (heq.trans hid0.symm)
              rw [hzx, hx0none] at hzb
              simp at hzb
            rw [if_neg hze]
        · simp only [List.mem_singleton] at h
          rw [h]
          intro x hx hxid
          obtain ⟨y, hy, rfl⟩ := mem_updateBusId.1 hx
          by_cases c : y.id = e.1
          · rw [if_pos c]; exact Or.inl rfl
          · rw [if_neg c] at hxid; exact absurd hxid c
    · intro kv1 hkv1 x hx hxid
      have hne : kv1.1 ≠ e.1 := by
        intro heq
        exact hkeys.1 (heq ▸ List.mem_map_of_mem Prod.fst hkv1)
      rcases scheduleStep_spec fault s e with ⟨ht, _⟩ | ⟨ht, _⟩
      · rw [ht] at hx
        exact hrem kv1 (List.mem_cons_of_mem _ hkv1) x hx hxid
      · rw [ht] at hx
        obtain ⟨y, hy, rfl⟩ := mem_updateBusId.1 hx
        by_cases c : y.id = e.1
        · rw [if_pos c] at hxid
          exact absurd (hxid.symm.trans c) hne
        · rw [if_neg c] at hxid ⊢
          exact hrem kv1 (List.mem_cons_of_mem _ hkv1) y hy hxid

/-- `assignBusesToRoutes` keeps a settled selection settled. -/
theorem assignBusesToRoutes_settled (env : AssignEnv) (table : List Route)
    (hw : WellFormed table) (kv : String × Selection) (h : SettledFor table kv) :
    SettledFor (assignBusesToRoutes env table).1 kv := by
  have hwr := assignBusesToRoutes_writes env table
  have hkeep : ∀ y ∈ table, y.bus_id = some kv.2.busId →
      y ∈ (assignBusesToRoutes env table).1 := by
    intro y hy hyb
    exact hwr.frame y hy (not_mem_routesWithoutBus_ids hw hy (by rw [hyb]; simp))
  intro x hx hxid
  rcases hwr.rows x hx with h0 | ⟨x0, h0, b, _, hid0, rfl⟩
  · rcases h x h0 hxid with hb | ⟨y, hy, hyb, hyid⟩
    · exact Or.inl hb
    · exact Or.inr ⟨y, hkeep y hy hyb, hyb, hyid⟩
  · rcases h x0 h0 hxid with hb | ⟨y, hy, hyb, hyid⟩
    · exact absurd hid0 (not_mem_routesWithoutBus_ids hw h0 (by rw [hb]; simp))
    · exact Or.inr ⟨y, hkeep y hy hyb, hyb, hyid⟩

/-! ## Lemmas on a second run of assignBusesToRoutes -/

/-- Without failures the inner loop, for an unbound route that exists, either
binds the route or ends with every offered bus in `usedBusIds`; every bus of
`usedBusIds` is held by a route. -/
theorem scanBuses_noFaults (env : AssignEnv) (hnf : NoFaults env) (route : Route)
    (bs : List Bus) :
    ∀ s : FallbackRun,
      (∀ k ∈ s.usedBusIds, ∃ x ∈ s.table, x.bus_id = some k) →
      (∀ x ∈ s.table, x.id = route.id → x.bus_id = none) →
      (∃ x ∈ s.table, x.id = route.id) →
      (∀ k ∈ (scanBuses env route bs s).1.usedBusIds,
          ∃ x ∈ (scanBuses env route bs s).1.table, x.bus_id = some k) ∧
        (∀ k ∈ s.usedBusIds, k ∈ (scanBuses env route bs s).1.usedBusIds) ∧
        (((scanBuses env route bs s).2 = Scan.assigned ∧
            ∃ k, k ≠ "" ∧ (scanBuses env route bs s).1.table = updateBusId s.table k route.id) ∨
          ((scanBuses env route bs s).2 = Scan.exhausted ∧
            (scanBuses env route bs s).1.table = s.table ∧
            ∀ bus ∈ bs, ∀ k, busKey bus = some k → k ≠ "" →
              k ∈ (scanBuses env route bs s).1.usedBusIds)) := by
  induction bs with
  | nil =>
    intro s hU _ _
    refine ⟨hU, fun k hk => hk, Or.inr ⟨rfl, rfl, ?_⟩⟩
    intro bus hbus
    simp at hbus
  | cons bus rest ih =>
    intro s hU hnone hex
    by_cases hA : ∃ k, busKey bus = some k ∧ k ≠ "" ∧ k ∉ s.usedBusIds
    · obtain ⟨k, hk, hne, hu⟩ := hA
      rw [scanBuses_cons_noFaults env hnf route bus rest s k hk hne hu]
      by_cases hc : 0 < (busUsedRows s.table k route.id).length
      · rw [if_pos hc]
        obtain ⟨y, hy, hyb, _⟩ := (busUsedRows_pos_iff _ _ _).1 hc
        obtain ⟨i1, i2, i3⟩ := ih { s with usedBusIds := k :: s.usedBusIds }
          (by
            intro k1 hk1
            rcases List.mem_cons.1 hk1 with h | h
            · rw [h]; exact ⟨y, hy, hyb⟩
            · exact hU k1 h)
          hnone hex
        refine ⟨i1, fun k1 hk1 => i2 k1 (List.mem_cons_of_mem _ hk1), ?_⟩
        rcases i3 with h | ⟨h1, h2, h3⟩
        · exact Or.inl h
        · refine Or.inr ⟨h1, h2, ?_⟩
          intro b hb k1 hk1 hne1
          rcases List.mem_cons.1 hb with rfl | hb
          · rw [hk] at hk1
            simp only [Option.some.injEq] at hk1
            rw [← hk1]
            exact i2 k (List.mem_cons_self _ _)
          · exact h3 b hb k1 hk1 hne1
      · rw [if_neg hc]
        obtain ⟨x0, hx0, hid0⟩ := hex
        refine ⟨?_, fun k1 hk1 => List.mem_cons_of_mem _ hk1, Or.inl ⟨rfl, k, hne, rfl⟩⟩
        intro k1 hk1
        rcases List.mem_cons.1 hk1 with h | h
        · rw [h]
          exact ⟨{ x0 with bus_id := some k }, mem_updateBusId.2 ⟨x0, hx0, by rw [if_pos hid0]⟩,
            rfl⟩
        · obtain ⟨x, hx, hxb⟩ := hU k1 h
          have hxid : x.id ≠ route.id := by
            intro e
            rw [hnone x hx e] at hxb
            simp at hxb
          exact ⟨x, mem_updateBusId.2 ⟨x, hx, by rw [if_neg hxid]⟩, hxb⟩
    · have hin : ∀ k, busKey bus = some k → k ≠ "" → k ∈ s.usedBusIds := by
        intro k hk hne
        by_contra hu
        exact hA ⟨k, hk, hne, hu⟩
      have hskip : scanBuses env route (bus :: rest) s = scanBuses env route rest s :=
        scanBuses_skip env route [bus] rest s (by
          intro b hb k hk hne
          simp only [List.mem_singleton] at hb
          subst hb
          exact hin k hk hne)
      rw [hskip]
      obtain ⟨i1, i2, i3⟩ := ih s hU hnone hex
      refine ⟨i1, i2, ?_⟩
      rcases i3 with h | ⟨h1, h2, h3⟩
      · exact Or.inl h
      · refine Or.inr ⟨h1, h2, ?_⟩
        intro b hb k1 hk1 hne1
        rcases List.mem_cons.1 hb with rfl | hb
        · exact i2 k1 (hin k1 hk1 hne1)
        · exact h3 b hb k1 hk1 hne1

/-- Without failures the outer loop ends with every route of its list bound, or
with every offered bus held by a route; no error leaves the loop, and a bus
that a route holds stays held. -/
theorem routeLoop_noFaults (env : AssignEnv) (hnf : NoFaults env) (bs : List Bus)
    (rs : List Route) :
    ∀ s : FallbackRun,
      (rs.map (fun r => r.id)).Nodup →
      (∀ k ∈ s.usedBusIds, ∃ x ∈ s.table, x.bus_id = some k) →
      (∀ r ∈ rs, (∀ x ∈ s.table, x.id = r.id → x.bus_id = none) ∧
        ∃ x ∈ s.table, x.id = r.id) →
      (routeLoop env bs rs s).2 = false ∧
        (∀ k, (∃ x ∈ s.table, x.bus_id = some k) →
          ∃ x ∈ (routeLoop env bs rs s).1.table, x.bus_id = some k) ∧
        ((∀ r ∈ rs, ∀ x ∈ (routeLoop env bs rs s).1.table, x.id = r.id →
            truthy x.bus_id = true) ∨
          (∀ bus ∈ bs, ∀ k, busKey bus = some k → k ≠ "" →
            ∃ x ∈ (routeLoop env bs rs s).1.table, x.bus_id = some k)) := by
  induction rs with
  | nil =>
    intro s _ _ _
    refine ⟨rfl, fun k hk => hk, Or.inl ?_⟩
    intro r hr
    simp at hr
  | cons r rs1 ih =>
    intro s hnd hU hrows
    rw [List.map_cons, List.nodup_cons] at hnd
    obtain ⟨hnone, hex⟩ := hrows r (List.mem_cons_self _ _)
    obtain ⟨j1, j2, j3⟩ := scanBuses_noFaults env hnf r bs s hU hnone hex
    have hwr : ∀ s1 : FallbackRun, Writes (rs1.map (fun r => r.id)) (bs.filterMap busKey)
        s1.table (routeLoop env bs rs1 s1).1.table := fun s1 =>
      routeLoop_writes env bs (rs1.map (fun r => r.id)) (bs.filterMap busKey)
        (fun bus hbus k hk => List.mem_filterMap.2 ⟨bus, hbus, hk⟩) rs1
        (fun x hx => List.mem_map_of_mem _ hx) s1
    rw [routeLoop]
    cases hscan : scanBuses env r bs s with
    | mk s1 res =>
      rw [hscan] at j1 j2 j3
      simp only at j1 j2 j3
      rcases j3 with ⟨hres, k, hne, ht⟩ | ⟨hres, ht, hall⟩
      · subst hres
        simp only
        have hrows1 : ∀ r1 ∈ rs1, (∀ x ∈ s1.table, x.id = r1.id → x.bus_id = none) ∧
            ∃ x ∈ s1.table, x.id = r1.id := by
          intro r1 hr1
          have hne1 : r1.id ≠ r.id := by
            intro e
            exact hnd.1 (e ▸ List.mem_map_of_mem (fun r => r.id) hr1)
          obtain ⟨h1, x1, hx1, hid1⟩ := hrows r1 (List.mem_cons_of_mem _ hr1)
          rw [ht]
          constructor
          · intro x hx hxid
            obtain ⟨y, hy, rfl⟩ := mem_updateBusId.1 hx
            by_cases c : y.id = r.id
            · rw [if_pos c] at hxid
              exact absurd (hxid.symm.trans c) hne1
            · rw [if_neg c] at hxid ⊢
              exact h1 y hy hxid
          · refine ⟨x1, mem_updateBusId.2 ⟨x1, hx1, ?_⟩, hid1⟩
            rw [if_neg (by rw [hid1]; exact hne1)]
        obtain ⟨i1, i2, i3⟩ := ih s1 hnd.2 j1 hrows1
        refine ⟨i1, ?_, ?_⟩
        · intro k1 hk1
          obtain ⟨x, hx, hxb⟩ := hk1
          apply i2
          have hxid : x.id ≠ r.id := by
            intro e
            rw [hnone x hx e] at hxb
            simp at hxb
          rw [ht]
          exact ⟨x, mem_updateBusId.2 ⟨x, hx, by rw [if_neg hxid]⟩, hxb⟩
        · rcases i3 with h | h
          · refine Or.inl ?_
            intro r1 hr1 x hx hxid
            rcases List.mem_cons.1 hr1 with rfl | hr1
            · rcases (hwr s1).rows x hx with h0 | ⟨x0, _, b, _, hid0, rfl⟩
              · rw [ht] at h0
                obtain ⟨y, hy, rfl⟩ := mem_updateBusId.1 h0
                by_cases c : y.id = r1.id
                · rw [if_pos c]
                  simp [truthy, hne]
                · rw [if_neg c] at hxid
                  exact absurd hxid c
              · exact absurd (hxid ▸ hid0) hnd.1
            · exact h r1 hr1 x hx hxid
          · exact Or.inr h
      · subst hres
        simp only
        have hrows1 : ∀ r1 ∈ rs1, (∀ x ∈ s1.table, x.id = r1.id → x.bus_id = none) ∧
            ∃ x ∈ s1.table, x.id = r1.id := by
          intro r1 hr1
          rw [ht]
          exact hrows r1 (List.mem_cons_of_mem _ hr1)
        obtain ⟨i1, i2, _⟩ := ih { s1 with skipCount := s1.skipCount + 1 } hnd.2 j1 hrows1
        refine ⟨i1, ?_, Or.inr ?_⟩
        · intro k1 hk1
          apply i2
          simp only
          rw [ht]
          exact hk1
        · intro bus hbus k1 hk1 hne1
          exact i2 k1 (j1 k1 (hall bus hbus k1 hk1 hne1))

theorem mem_routesWithoutBus_iff {table : List Route} {y : Route} :
    y ∈ routesWithoutBus (getRoutesWithPool table) ↔ y ∈ table ∧ truthy y.bus_id = false := by
  unfold routesWithoutBus getRoutesWithPool
  rw [List.mem_filter, mem_sortBy]
  simp

/-- Without failures, after `assignBusesToRoutes` no route lacks a bus or no bus
of the list is unused. -/
theorem assignBusesToRoutes_saturates (env : AssignEnv) (hnf : NoFaults env)
    (table : List Route) (hw : WellFormed table) :
    routesWithoutBus (getRoutesWithPool (assignBusesToRoutes env table).1) = [] ∨
      unusedBuses (assignBusesToRoutes env table).1 (busList env) = [] := by
  have hwr := assignBusesToRoutes_writes env table
  rcases assignBusesToRoutes_noFaults env hnf table with ⟨hor, ht, _⟩ | ⟨_, _, hrun⟩
  · rw [ht]; exact hor
  · obtain ⟨i1, i2, i3⟩ := routeLoop_noFaults env hnf (unusedBuses table (busList env))
      (routesWithoutBus (getRoutesWithPool table))
      { table := table, usedBusIds := usedBusIdsOf table, successCount := 0,
        failCount := 0, skipCount := 0 }
      (routesWithoutBus_ids_nodup table hw.1)
      (fun k hk => mem_usedBusIdsOf.1 hk)
      (by
        intro r hr
        obtain ⟨hrt, hrb⟩ := mem_routesWithoutBus hr
        refine ⟨?_, r, hrt, rfl⟩
        intro x hx hxid
        have hxr : x = r := List.inj_on_of_nodup_map hw.1 hx hrt hxid
        subst hxr
        cases hb : x.bus_id with
        | none => rfl
        | some b =>
          rw [hb] at hrb
          have hne := hw.2 x hx
          rw [hb] at hne
          simp only [truthy, decide_eq_false_iff_not, not_not] at hrb
          exact absurd (by rw [hrb]) hne)
    have htab : (assignBusesToRoutes env table).1 =
        (routeLoop env (unusedBuses table (busList env))
          (routesWithoutBus (getRoutesWithPool table))
          { table := table, usedBusIds := usedBusIdsOf table, successCount := 0,
            failCount := 0, skipCount := 0 }).1.table := by
      rw [hrun]
      cases hl : routeLoop env (unusedBuses table (busList env))
          (routesWithoutBus (getRoutesWithPool table))
          { table := table, usedBusIds := usedBusIdsOf table, successCount := 0,
            failCount := 0, skipCount := 0 } with
      | mk s thrown => cases thrown <;> rfl
    rw [← htab] at i2 i3
    simp only at i2
    rcases i3 with hbound | hused
    · refine Or.inl (List.eq_nil_iff_forall_not_mem.2 ?_)
      intro y hy
      obtain ⟨hy2, hyf⟩ := mem_routesWithoutBus_iff.1 hy
      rcases hwr.rows y hy2 with h0 | ⟨x0, _, b, hb, _, rfl⟩
      · have h := hbound y (mem_routesWithoutBus_iff.2 ⟨h0, hyf⟩) y hy2 rfl
        rw [hyf] at h
        exact absurd h (by simp)
      · have hne := (unusedKeys_spec hb).2
        simp [truthy, hne] at hyf
    · refine Or.inr (List.eq_nil_iff_forall_not_mem.2 ?_)
      intro bus hbus
      obtain ⟨k, hk, hne, _, hfree⟩ := unusedBuses_spec hbus
      have hbl : bus ∈ busList env := by
        unfold unusedBuses at hbus
        exact (List.mem_filter.1 hbus).1
      by_cases hin : k ∈ usedBusIdsOf table
      · obtain ⟨x, hx, hxb⟩ := i2 k (mem_usedBusIdsOf.1 hin)
        exact hfree x hx hxb
      · have hb0 : bus ∈ unusedBuses table (busList env) := by
          unfold unusedBuses
          rw [List.mem_filter]
          refine ⟨hbl, ?_⟩
          unfold isUnused
          rw [hk]
          simp [truthy, hne, hin]
        obtain ⟨x, hx, hxb⟩ := hused bus hb0 k hk hne
        exact hfree x hx hxb

/-- Without failures a second run of `assignBusesToRoutes` changes nothing and
reports `updated: 0`. -/
theorem assignBusesToRoutes_idempotent (env : AssignEnv) (hnf : NoFaults env)
    (table : List Route) (hw : WellFormed table) :
    (assignBusesToRoutes env (assignBusesToRoutes env table).1).1 =
        (assignBusesToRoutes env table).1 ∧
      (assignBusesToRoutes env (assignBusesToRoutes env table).1).2.updated = some 0 := by
  rcases assignBusesToRoutes_noFaults env hnf (assignBusesToRoutes env table).1 with
    ⟨_, ht, hu⟩ | ⟨h1, h2, _⟩
  · exact ⟨ht, hu⟩
  · rcases assignBusesToRoutes_saturates env hnf table hw with h | h
    · exact absurd h h1
    · exact absurd h h2

/-- Whether `autoAssignFromSchedule` reaches its loop depends on the environment
only: it leaves every table as it is, or runs the schedule pass on every table. -/
theorem autoAssignFromSchedule_pass (env : ScheduleEnv) :
    (∀ table, (autoAssignFromSchedule env table).1 = table) ∨
      (∀ table, (autoAssignFromSchedule env table).1 =
        (schedulePass env.fault table (feedOf env)).table) := by
  unfold autoAssignFromSchedule feedOf
  by_cases h1 : env.databaseUrl = false
  · left; intro table; rw [if_pos h1]
  · cases env.response with
    | refused => left; intro table; rw [if_neg h1]
    | reset => left; intro table; rw [if_neg h1]
    | failed => left; intro table; rw [if_neg h1]
    | answered status success data =>
      simp only
      by_cases h2 : (schedulesOf status success data).length = 0
      · left; intro table; rw [if_neg h1, if_pos h2]
      · by_cases h3 : (routeBusMap (schedulesOf status success data)).length = 0
        · left; intro table
          rw [if_neg h1, if_neg h2, if_pos h3]
          split_ifs <;> rfl
        · by_cases h4 : env.connect = false
          · left; intro table; rw [if_neg h1, if_neg h2, if_neg h3, if_pos h4]
          · right; intro table; rw [if_neg h1, if_neg h2, if_neg h3, if_neg h4]

/-- The two passes run twice: when no query fails and no route is bound to a
bus other than its selection, the second schedule pass and the second fallback
pass change nothing and count no update. -/
theorem passes_idempotent (fault : String → QueryFault) (feed : List Schedule)
    (aenv : AssignEnv) (table : List Route) (hw : WellFormed table)
    (hf : ∀ r, fault r = QueryFault.none) (hnf : NoFaults aenv)
    (hag : AgreesWithSchedule table feed) :
    (schedulePass fault (assignBusesToRoutes aenv (schedulePass fault table feed).table).1
        feed).table = (assignBusesToRoutes aenv (schedulePass fault table feed).table).1 ∧
      (schedulePass fault (assignBusesToRoutes aenv (schedulePass fault table feed).table).1
        feed).successCount = 0 ∧
      (assignBusesToRoutes aenv
        (assignBusesToRoutes aenv (schedulePass fault table feed).table).1).1 =
        (assignBusesToRoutes aenv (schedulePass fault table feed).table).1 ∧
      (assignBusesToRoutes aenv
        (assignBusesToRoutes aenv (schedulePass fault table feed).table).1).2.updated =
        some 0 := by
  have hw1 := schedulePass_wellFormed fault table feed hw
  have hset1 : ∀ kv ∈ routeBusMap feed, SettledFor (schedulePass fault table feed).table kv := by
    have h := scheduleLoop_settles fault hf (routeBusMap feed) []
      { table := table, successCount := 0, skipCount := 0, failCount := 0, assigned := [] }
      (routeBusMap_keys_nodup feed) (by intro kv hkv; simp at hkv) hw.1
      (by intro kv hkv; simp at hkv)
      (by
        intro kv hkv x hx hxid
        have hs := selectedBus_of_mem feed kv hkv
        rcases hag x hx with h | h | h
        · exact Or.inl h
        · rw [hxid, hs] at h; simp at h
        · rw [hxid, hs] at h; exact Or.inr h.symm)
    intro kv hkv
    exact h kv (by simpa using hkv)
  have hset2 : ∀ kv ∈ routeBusMap feed,
      SettledFor (assignBusesToRoutes aenv (schedulePass fault table feed).table).1 kv :=
    fun kv hkv => assignBusesToRoutes_settled aenv _ hw1 kv (hset1 kv hkv)
  obtain ⟨h1, h2, _⟩ := scheduleLoop_settled fault (routeBusMap feed)
    { table := (assignBusesToRoutes aenv (schedulePass fault table feed).table).1,
      successCount := 0, skipCount := 0, failCount := 0, assigned := [] } hset2
  obtain ⟨h3, h4⟩ := assignBusesToRoutes_idempotent aenv hnf _ hw1
  exact ⟨h1, h2, h3, h4⟩

/-! ## C3 -/

/-- C3, the claim as stated, fails.  Route `R1` holds `B1`; the feed selects `B1`
for `R2` (later time, so handled first) and `B2` for `R1`.  The first run
skips `R2` (conflict), re-binds `R1` to `B2`, and the fallback pass gives `B3`
to `R2`; the second run, with the same data, finds `B1` free and re-binds `R2`
to it: its schedule pass counts one update and the table changes. -/
theorem step5_second_run_rebinds :
    (step5 (exScheduleEnv [exSchedule "R2" "B1" 2, exSchedule "R1" "B2" 1])
        (exAssignEnv [exBus "B3"])
        [exRoute "R1" (some "B1") "active" 1, exRoute "R2" none "active" 2]).1 =
        [exRoute "R1" (some "B2") "active" 1, exRoute "R2" (some "B3") "active" 2] ∧
      (step5 (exScheduleEnv [exSchedule "R2" "B1" 2, exSchedule "R1" "B2" 1])
        (exAssignEnv [exBus "B3"])
        [exRoute "R1" (some "B2") "active" 1, exRoute "R2" (some "B3") "active" 2]).1 =
        [exRoute "R1" (some "B2") "active" 1, exRoute "R2" (some "B1") "active" 2] ∧
      (schedulePass (fun _ => QueryFault.none)
        [exRoute "R1" (some "B2") "active" 1, exRoute "R2" (some "B3") "active" 2]
        [exSchedule "R2" "B1" 2, exSchedule "R1" "B2" 1]).successCount = 1 := by
  decide

/-- A second way a second run assigns: a write that failed in the first run.
The update of `B1` on `R1` throws, so `B1` is put aside, `R1` takes `B2` and
`R2` stays unbound; in the second run `B1` is unused again and `R2` takes it. -/
theorem step5_second_run_after_failed_write :
    step5 (exScheduleEnv []) (exWriteFailEnv [exBus "B1", exBus "B2"])
        [exRoute "R1" none "active" 1, exRoute "R2" none "active" 2] =
        ([exRoute "R1" (some "B2") "active" 1, exRoute "R2" none "active" 2],
          { success := true, message := some "Tidak ada schedules", updated := some 0,
            failed := none, skipped := none },
          { success := true, message := none, updated := some 1, failed := some 0,
            skipped := none }) ∧
      step5 (exScheduleEnv []) (exWriteFailEnv [exBus "B1", exBus "B2"])
        [exRoute "R1" (some "B2") "active" 1, exRoute "R2" none "active" 2] =
        ([exRoute "R1" (some "B2") "active" 1, exRoute "R2" (some "B1") "active" 2],
          { success := true, message := some "Tidak ada schedules", updated := some 0,
            failed := none, skipped := none },
          { success := true, message := none, updated := some 1, failed := some 0,
            skipped := none }) := by
  decide

/-- C3, amended: idempotence.  For a well-formed route table in which no route
is bound to a bus other than the one the schedule selects for it, and when no
store query or write fails, running `autoAssignFromSchedule` followed by
`assignBusesToRoutes` a second time with the same data changes no route's
`bus_id`; the second `assignBusesToRoutes` reports `updated: 0`, and the
schedule pass, run again after both passes, changes nothing and counts no
update. -/
theorem step5_idempotent (senv : ScheduleEnv) (aenv : AssignEnv) (table : List Route)
    (hw : WellFormed table) (hf : ∀ r, senv.fault r = QueryFault.none) (hnf : NoFaults aenv)
    (hag : AgreesWithSchedule table (feedOf senv)) :
    (step5 senv aenv (step5 senv aenv table).1).1 = (step5 senv aenv table).1 ∧
      (autoAssignFromSchedule senv (step5 senv aenv table).1).1 = (step5 senv aenv table).1 ∧
      (step5 senv aenv (step5 senv aenv table).1).2.2.updated = some 0 ∧
      (schedulePass senv.fault
          (assignBusesToRoutes aenv (schedulePass senv.fault table (feedOf senv)).table).1
          (feedOf senv)).table =
        (assignBusesToRoutes aenv (schedulePass senv.fault table (feedOf senv)).table).1 ∧
      (schedulePass senv.fault
          (assignBusesToRoutes aenv (schedulePass senv.fault table (feedOf senv)).table).1
          (feedOf senv)).successCount = 0 := by
  obtain ⟨p1, p2, p3, p4⟩ := passes_idempotent senv.fault (feedOf senv) aenv table hw hf hnf hag
  refine ⟨?_, ?_, ?_, p1, p2⟩
  · unfold step5
    simp only
    rcases autoAssignFromSchedule_pass senv with h | h
    · rw [h, h]
      exact (assignBusesToRoutes_idempotent aenv hnf table hw).1
    · rw [h table, h, p1]
      exact p3
  · unfold step5
    simp only
    rcases autoAssignFromSchedule_pass senv with h | h
    · rw [h]
    · rw [h table, h, p1]
  · unfold step5
    simp only
    rcases autoAssignFromSchedule_pass senv with h | h
    · rw [h, h]
      exact (assignBusesToRoutes_idempotent aenv hnf table hw).2
    · rw [h table, h, p1]
      exact p4

/-- Witness of the amended C3: `R1` holds the bus the feed selects for it, the
feed selects the same bus for `R2`, and `R3` is not in the feed. -/
theorem step5_idempotent_witness :
    (WellFormed [exRoute "R1" (some "B1") "active" 1, exRoute "R2" none "active" 2,
        exRoute "R3" none "inactive" 3] ∧
      AgreesWithSchedule [exRoute "R1" (some "B1") "active" 1, exRoute "R2" none "active" 2,
        exRoute "R3" none "inactive" 3]
        (feedOf (exScheduleEnv [exSchedule "R2" "B1" 2, exSchedule "R1" "B1" 1]))) ∧
      ((step5 (exScheduleEnv [exSchedule "R2" "B1" 2, exSchedule "R1" "B1" 1])
          (exAssignEnv [exBus "B3"])
          (step5 (exScheduleEnv [exSchedule "R2" "B1" 2, exSchedule "R1" "B1" 1])
            (exAssignEnv [exBus "B3"])
            [exRoute "R1" (some "B1") "active" 1, exRoute "R2" none "active" 2,
              exRoute "R3" none "inactive" 3]).1).1 =
          (step5 (exScheduleEnv [exSchedule "R2" "B1" 2, exSchedule "R1" "B1" 1])
            (exAssignEnv [exBus "B3"])
            [exRoute "R1" (some "B1") "active" 1, exRoute "R2" none "active" 2,
              exRoute "R3" none "inactive" 3]).1 ∧
        (autoAssignFromSchedule (exScheduleEnv [exSchedule "R2" "B1" 2, exSchedule "R1" "B1" 1])
          (step5 (exScheduleEnv [exSchedule "R2" "B1" 2, exSchedule "R1" "B1" 1])
            (exAssignEnv [exBus "B3"])
            [exRoute "R1" (some "B1") "active" 1, exRoute "R2" none "active" 2,
              exRoute "R3" none "inactive" 3]).1).1 =
          (step5 (exScheduleEnv [exSchedule "R2" "B1" 2, exSchedule "R1" "B1" 1])
            (exAssignEnv [exBus "B3"])
            [exRoute "R1" (some "B1") "active" 1, exRoute "R2" none "active" 2,
              exRoute "R3" none "inactive" 3]).1 ∧
        (step5 (exScheduleEnv [exSchedule "R2" "B1" 2, exSchedule "R1" "B1" 1])
          (exAssignEnv [exBus "B3"])
          (step5 (exScheduleEnv [exSchedule "R2" "B1" 2, exSchedule "R1" "B1" 1])
            (exAssignEnv [exBus "B3"])
            [exRoute "R1" (some "B1") "active" 1, exRoute "R2" none "active" 2,
              exRoute "R3" none "inactive" 3]).1).2.2.updated = some 0 ∧
        (schedulePass (exScheduleEnv [exSchedule "R2" "B1" 2, exSchedule "R1" "B1" 1]).fault
            (assignBusesToRoutes (exAssignEnv [exBus "B3"])
              (schedulePass (exScheduleEnv [exSchedule "R2" "B1" 2, exSchedule "R1" "B1" 1]).fault
                [exRoute "R1" (some "B1") "active" 1, exRoute "R2" none "active" 2,
                  exRoute "R3" none "inactive" 3]
                (feedOf (exScheduleEnv [exSchedule "R2" "B1" 2, exSchedule "R1" "B1" 1]))).table).1
            (feedOf (exScheduleEnv [exSchedule "R2" "B1" 2, exSchedule "R1" "B1" 1]))).table =
          (assignBusesToRoutes (exAssignEnv [exBus "B3"])
            (schedulePass (exScheduleEnv [exSchedule "R2" "B1" 2, exSchedule "R1" "B1" 1]).fault
              [exRoute "R1" (some "B1") "active" 1, exRoute "R2" none "active" 2,
                exRoute "R3" none "inactive" 3]
              (feedOf (exScheduleEnv [exSchedule "R2" "B1" 2, exSchedule "R1" "B1" 1]))).table).1 ∧
        (schedulePass (exScheduleEnv [exSchedule "R2" "B1" 2, exSchedule "R1" "B1" 1]).fault
            (assignBusesToRoutes (exAssignEnv [exBus "B3"])
              (schedulePass (exScheduleEnv [exSchedule "R2" "B1" 2, exSchedule "R1" "B1" 1]).fault
                [exRoute "R1" (some "B1") "active" 1, exRoute "R2" none "active" 2,
                  exRoute "R3" none "inactive" 3]
                (feedOf (exScheduleEnv [exSchedule "R2" "B1" 2, exSchedule "R1" "B1" 1]))).table).1
            (feedOf (exScheduleEnv [exSchedule "R2" "B1" 2,
              exSchedule "R1" "B1" 1]))).successCount = 0) :=
  ⟨⟨by decide, by decide⟩,
    step5_idempotent _ _ _ (by decide) (fun _ => rfl) (noFaults_exAssignEnv _) (by decide)⟩

/-! ## C9 -/

/-- C9 fails on `assignBusesToRoutes`: `getRoutesWithPool` orders by
`numeric_id`, not by status.  With the inactive route `R3` numbered before the
active route `R1` and one unused bus, `assignBusesToRoutes` handles `R3` first
and gives it the bus, leaving the active `R1` unbound, whereas the rows of
Step 6 of `autoAssignFromSchedule` list `R1` first and Step 6 gives it the bus. -/
theorem assignBusesToRoutes_ignores_status :
    routesWithoutBus (getRoutesWithPool
        [exRoute "R3" none "inactive" 1, exRoute "R1" none "active" 2]) =
        [exRoute "R3" none "inactive" 1, exRoute "R1" none "active" 2] ∧
      (assignBusesToRoutes (exAssignEnv [exBus "B1"])
        [exRoute "R3" none "inactive" 1, exRoute "R1" none "active" 2]).1 =
        [exRoute "R3" (some "B1") "inactive" 1, exRoute "R1" none "active" 2] ∧
      routesNull [exRoute "R3" none "inactive" 1, exRoute "R1" none "active" 2] =
        [exRoute "R1" none "active" 2, exRoute "R3" none "inactive" 1] ∧
      (step6 (fun _ _ => Step6Fault.none) [exBus "B1"]
        [exRoute "R3" none "inactive" 1, exRoute "R1" none "active" 2]).table =
        [exRoute "R3" none "inactive" 1, exRoute "R1" (some "B1") "active" 2] := by
  decide

/-! ## C11 -/

/-- C11: the conflict checker.  Whenever its query succeeds,
`checkBusUsedInOtherRoute(busId, currentRouteId)` resolves, and it returns
`true` if and only if the route table has a row whose id differs from
`currentRouteId` and whose `bus_id` equals `busId`; otherwise it returns
`false`. -/
theorem checkBusUsedInOtherRoute_iff (access : Access) (table : List Route)
    (busId currentRouteId : String) (h : access = Access.ok) :
    (checkBusUsedInOtherRoute access table busId currentRouteId = some true ↔
        ∃ x ∈ table, x.id ≠ currentRouteId ∧ x.bus_id = some busId) ∧
      (checkBusUsedInOtherRoute access table busId currentRouteId = some false ↔
        ¬ ∃ x ∈ table, x.id ≠ currentRouteId ∧ x.bus_id = some busId) := by
  subst h
  have hiff : 0 < (busUsedRows table busId currentRouteId).length ↔
      ∃ x ∈ table, x.id ≠ currentRouteId ∧ x.bus_id = some busId := by
    rw [busUsedRows_pos_iff]
    constructor
    · rintro ⟨x, hx, h1, h2⟩; exact ⟨x, hx, h2, h1⟩
    · rintro ⟨x, hx, h1, h2⟩; exact ⟨x, hx, h2, h1⟩
  unfold checkBusUsedInOtherRoute
  simp only [Option.some.injEq, decide_eq_true_eq, decide_eq_false_iff_not]
  exact ⟨hiff, not_congr hiff⟩

/-- Witness of C11: bus `B1` is held by `R2`, so the check for route `R1` finds
it and the check for route `R2` does not. -/
theorem checkBusUsedInOtherRoute_iff_witness :
    Access.ok = Access.ok ∧
      ((checkBusUsedInOtherRoute Access.ok
            [exRoute "R1" none "active" 1, exRoute "R2" (some "B1") "active" 2] "B1" "R1" =
            some true ↔
          ∃ x ∈ [exRoute "R1" none "active" 1, exRoute "R2" (some "B1") "active" 2],
            x.id ≠ "R1" ∧ x.bus_id = some "B1") ∧
        (checkBusUsedInOtherRoute Access.ok
            [exRoute "R1" none "active" 1, exRoute "R2" (some "B1") "active" 2] "B1" "R1" =
            some false ↔
          ¬ ∃ x ∈ [exRoute "R1" none "active" 1, exRoute "R2" (some "B1") "active" 2],
            x.id ≠ "R1" ∧ x.bus_id = some "B1")) :=
  ⟨rfl, checkBusUsedInOtherRoute_iff Access.ok _ "B1" "R1" rfl⟩

/-! ## Lemmas on the pairs `assignBusesToRoutes` writes -/

theorem WritesOf.chain {ok : String → String → Prop} {t0 t1 t2 : List Route}
    (h01 : WritesOf ok t0 t1) (h12 : WritesOf ok t1 t2) : WritesOf ok t0 t2 := by
  induction h12 with
  | refl => exact h01
  | step r b _ hok ih => exact WritesOf.step r b ih hok

/-- Every row after a sequence of writes is a row of the initial table, or such
a row holding a bus that forms a permitted pair with its route. -/
theorem WritesOf.rowsOf {ok : String → String → Prop} {t0 t1 : List Route}
    (h : WritesOf ok t0 t1) :
    ∀ x ∈ t1, x ∈ t0 ∨ ∃ x0 ∈ t0, ∃ b, ok x0.id b ∧ x = { x0 with bus_id := some b } := by
  induction h with
  | refl => intro x hx; exact Or.inl hx
  | step r b _ hok ih =>
    intro x hx
    obtain ⟨y, hy, rfl⟩ := mem_updateBusId.1 hx
    by_cases c : y.id = r
    · rw [if_pos c]
      rcases ih y hy with h0 | ⟨x0, h0, b0, _, rfl⟩
      · exact Or.inr ⟨y, h0, b, c ▸ hok, rfl⟩
      · exact Or.inr ⟨x0, h0, b, by rw [show x0.id = r from c]; exact hok, rfl⟩
    · rw [if_neg c]; exact ih y hy

/-- A call of `assignBusToRouteWithPool` changes the table only by a write whose
own conflict check ran its query. -/
theorem assignBusToRouteWithPool_second (env : AssignEnv) (table : List Route)
    (routeId busId : String) :
    (assignBusToRouteWithPool env table routeId busId).1 = table ∨
      ((assignBusToRouteWithPool env table routeId busId).1 = updateBusId table busId routeId ∧
        env.secondCheck busId routeId = Access.ok) := by
  unfold assignBusToRouteWithPool checkBusUsedInOtherRoute
  cases hc : env.secondCheck busId routeId with
  | connectError => exact Or.inl rfl
  | queryError => exact Or.inl rfl
  | ok =>
    by_cases hu : 0 < (busUsedRows table busId routeId).length
    · simp [hu]
    · rcases assignBusToRouteViaAPI_spec env table routeId busId with h | h
      · simp [hu, h]
      · simp only [hu, decide_False, h]
        split_ifs <;> simp

theorem scanBuses_writesOf (env : AssignEnv) (route : Route) (bs : List Bus) :
    ∀ s : FallbackRun, WritesOf (ChecksRun env) s.table (scanBuses env route bs s).1.table := by
  induction bs with
  | nil => intro s; exact WritesOf.refl _
  | cons bus rest ih =>
    intro s
    unfold scanBuses
    cases busKey bus with
    | none => exact ih s
    | some busId =>
      simp only
      by_cases h1 : truthy (some busId) = false
      · rw [if_pos h1]; exact ih s
      · rw [if_neg h1]
        by_cases h2 : busId ∈ s.usedBusIds
        · rw [if_pos h2]; exact ih s
        · rw [if_neg h2]
          cases hacc : env.firstCheck busId route.id with
          | connectError => exact WritesOf.refl _
          | queryError => exact ih { s with usedBusIds := busId :: s.usedBusIds }
          | ok =>
            unfold checkBusUsedInOtherRoute
            simp only
            by_cases hu : 0 < (busUsedRows s.table busId route.id).length
            · simp only [hu, decide_True]
              exact ih { s with usedBusIds := busId :: s.usedBusIds }
            · simp only [hu, decide_False]
              have hsec := assignBusToRouteWithPool_second env s.table route.id busId
              cases ha : assignBusToRouteWithPool env s.table route.id busId with
              | mk t res =>
                rw [ha] at hsec
                simp only at hsec
                have hw : WritesOf (ChecksRun env) s.table t := by
                  rcases hsec with h | ⟨h, h3⟩
                  · rw [h]; exact WritesOf.refl _
                  · rw [h]
                    exact WritesOf.step route.id busId (WritesOf.refl _) ⟨hacc, h3⟩
                cases res with
                | none => exact hw
                | some done =>
                  cases done with
                  | true => exact hw
                  | false =>
                    exact hw.chain
                      (ih { s with table := t, usedBusIds := busId :: s.usedBusIds })

theorem routeLoop_writesOf (env : AssignEnv) (unused : List Bus) (routes : List Route) :
    ∀ s : FallbackRun, WritesOf (ChecksRun env) s.table (routeLoop env unused routes s).1.table := by
  induction routes with
  | nil => intro s; exact WritesOf.refl _
  | cons route rest ih =>
    intro s
    unfold routeLoop
    have hs := scanBuses_writesOf env route unused s
    cases hscan : scanBuses env route unused s with
    | mk s1 res =>
      rw [hscan] at hs
      cases res with
      | thrown => exact hs
      | assigned => exact hs.chain (ih s1)
      | exhausted => exact hs.chain (ih { s1 with skipCount := s1.skipCount + 1 })

/-- Every write of `assignBusesToRoutes` is for a pair whose two conflict checks
ran their query. -/
theorem assignBusesToRoutes_writesOf (env : AssignEnv) (table : List Route) :
    WritesOf (ChecksRun env) table (assignBusesToRoutes env table).1 := by
  rcases assignBusesToRoutes_cases env table with ⟨h, _⟩ | ⟨_, _, _, _, _, h⟩
  · rw [h]; exact WritesOf.refl _
  · rw [h]
    have hw := routeLoop_writesOf env (unusedBuses table (busList env))
      (routesWithoutBus (getRoutesWithPool table))
      { table := table, usedBusIds := usedBusIdsOf table, successCount := 0,
        failCount := 0, skipCount := 0 }
    cases hl : routeLoop env (unusedBuses table (busList env))
        (routesWithoutBus (getRoutesWithPool table))
        { table := table, usedBusIds := usedBusIdsOf table, successCount := 0,
          failCount := 0, skipCount := 0 } with
    | mk s thrown =>
      rw [hl] at hw
      cases thrown <;> exact hw

/-! ## C12 -/

/-- C12: the conflict checker fails closed.  When the query of
`checkBusUsedInOtherRoute` throws, the checker returns `true`; in
`assignBusesToRoutes`, when that happens at the check of line 283 for a route
and a bus, the bus is added to `usedBusIds`, the loop goes on with the next bus,
and no write of that bus to that route follows: every row of the route that
holds the bus after the run is a row of the table the run started from. -/
theorem checkBusUsedInOtherRoute_fails_closed (env : AssignEnv) (table : List Route)
    (r b : String) (h : env.firstCheck b r = Access.queryError) :
    (∀ t : List Route, checkBusUsedInOtherRoute (env.firstCheck b r) t b r = some true) ∧
      (∀ (route : Route) (bus : Bus) (rest : List Bus) (s : FallbackRun),
        route.id = r → busKey bus = some b → b ≠ "" → b ∉ s.usedBusIds →
        scanBuses env route (bus :: rest) s =
          scanBuses env route rest { s with usedBusIds := b :: s.usedBusIds }) ∧
      (∀ x ∈ (assignBusesToRoutes env table).1, x.id = r → x.bus_id = some b → x ∈ table) := by
  refine ⟨?_, ?_, ?_⟩
  · intro t
    rw [h]
    rfl
  · intro route bus rest s hr hk hne hu
    rw [scanBuses, hk]
    simp only
    have ht : ¬ truthy (some b) = false := by simp [truthy, hne]
    rw [if_neg ht, if_neg hu, hr, h]
    rfl
  · intro x hx hxid hxb
    rcases (assignBusesToRoutes_writesOf env table).rowsOf x hx with h0 | ⟨x0, _, b0, hok, rfl⟩
    · exact h0
    · exfalso
      simp only [Option.some.injEq] at hxb
      simp only at hxid
      rw [hxid, hxb] at hok
      have h1 := hok.1
      rw [h] at h1
      exact absurd h1 (by decide)

/-- Witness of C12: the check of line 283 throws for bus `B1` and route `R1`. -/
theorem checkBusUsedInOtherRoute_fails_closed_witness :
    (exFailClosedEnv [exBus "B1", exBus "B2"]).firstCheck "B1" "R1" = Access.queryError ∧
      ((∀ t : List Route, checkBusUsedInOtherRoute
          ((exFailClosedEnv [exBus "B1", exBus "B2"]).firstCheck "B1" "R1") t "B1" "R1" =
          some true) ∧
        (∀ (route : Route) (bus : Bus) (rest : List Bus) (s : FallbackRun),
          route.id = "R1" → busKey bus = some "B1" → "B1" ≠ "" → "B1" ∉ s.usedBusIds →
          scanBuses (exFailClosedEnv [exBus "B1", exBus "B2"]) route (bus :: rest) s =
            scanBuses (exFailClosedEnv [exBus "B1", exBus "B2"]) route rest
              { s with usedBusIds := "B1" :: s.usedBusIds }) ∧
        (∀ x ∈ (assignBusesToRoutes (exFailClosedEnv [exBus "B1", exBus "B2"])
            [exRoute "R1" none "active" 1, exRoute "R2" none "active" 2]).1,
          x.id = "R1" → x.bus_id = some "B1" →
          x ∈ [exRoute "R1" none "active" 1, exRoute "R2" none "active" 2])) :=
  ⟨rfl, checkBusUsedInOtherRoute_fails_closed _ _ "R1" "B1" rfl⟩

/-! ## C13 -/

/-- C13 fails on the code: the direct update of `assignBusToRouteWithPool`
returns `true` without looking at the row count.  Route `R9` is not in the
table and the route service does not answer; the call leaves the table as it
is and returns `true`, and no route `R9` holds `B1` afterwards.  The same
happens when the route service answers with 404. -/
theorem assignBusToRouteWithPool_true_without_row :
    assignBusToRouteWithPool (exAssignEnv []) [exRoute "R1" none "active" 1] "R9" "B1" =
        ([exRoute "R1" none "active" 1], some true) ∧
      busIdOf [exRoute "R1" none "active" 1] "R9" = none ∧
      assignBusHandler (fun _ => true) [exRoute "R1" none "active" 1] "R9" (some "B1") =
        ([exRoute "R1" none "active" 1], 404, false) ∧
      assignBusToRouteWithPool { exAssignEnv [] with apiAnswers := fun _ _ => true }
        [exRoute "R1" none "active" 1] "R9" "B1" =
        ([exRoute "R1" none "active" 1], some true) := by
  decide

/-! ## C14 -/

/-- C14, the claim as stated, fails: when the schedule request throws an error
other than `ECONNREFUSED` and `ECONNRESET` (a timeout, a 5xx answer), the error
is thrown again (line 68) and the outer `catch` resolves to
`{ success: false, message }`, an object without an `updated` count. -/
theorem autoAssignFromSchedule_timeout_has_no_count :
    autoAssignFromSchedule exTimeoutEnv [exRoute "R1" none "active" 1] =
        ([exRoute "R1" none "active" 1],
          { success := false, message := some "error", updated := none, failed := none,
            skipped := none }) ∧
      (autoAssignFromSchedule exTimeoutEnv [exRoute "R1" none "active" 1]).2.updated ≠
        some 0 := by
  decide

/-- C14, amended: schedule source unavailable.  If the schedule request fails
in any way, `autoAssignFromSchedule` changes no route's `bus_id` and resolves to
an object with `success: false`; the object reports `updated: 0` when the
failure is a refused or reset connection, and has no `updated` count when it
is another failure (timeout, 5xx answer). -/
theorem autoAssignFromSchedule_unavailable (env : ScheduleEnv) (table : List Route)
    (h : env.response = HttpAnswer.refused ∨ env.response = HttpAnswer.reset ∨
      env.response = HttpAnswer.failed) :
    (autoAssignFromSchedule env table).1 = table ∧
      (autoAssignFromSchedule env table).2.success = false ∧
      (env.databaseUrl = true →
        env.response = HttpAnswer.refused ∨ env.response = HttpAnswer.reset →
        (autoAssignFromSchedule env table).2.updated = some 0) ∧
      (env.response = HttpAnswer.failed →
        (autoAssignFromSchedule env table).2.updated = none) := by
  unfold autoAssignFromSchedule
  by_cases hu : env.databaseUrl = false
  · rw [if_pos hu]
    refine ⟨rfl, rfl, ?_, fun _ => rfl⟩
    intro h1
    rw [hu] at h1
    exact absurd h1 (by decide)
  · rw [if_neg hu]
    rcases h with h | h | h
    · rw [h]
      exact ⟨rfl, rfl, fun _ _ => rfl, fun h1 => by cases h1⟩
    · rw [h]
      exact ⟨rfl, rfl, fun _ _ => rfl, fun h1 => by cases h1⟩
    · rw [h]
      refine ⟨rfl, rfl, ?_, fun _ => rfl⟩
      intro _ h1
      rcases h1 with h1 | h1 <;> cases h1

/-- Witness of the amended C14: the schedule service refuses the connection. -/
theorem autoAssignFromSchedule_unavailable_witness :
    ({ exScheduleEnv [] with response := HttpAnswer.refused } : ScheduleEnv).response =
        HttpAnswer.refused ∧
      ((autoAssignFromSchedule { exScheduleEnv [] with response := HttpAnswer.refused }
          [exRoute "R1" none "active" 1]).1 = [exRoute "R1" none "active" 1] ∧
        (autoAssignFromSchedule { exScheduleEnv [] with response := HttpAnswer.refused }
          [exRoute "R1" none "active" 1]).2.success = false ∧
        (({ exScheduleEnv [] with response := HttpAnswer.refused } : ScheduleEnv).databaseUrl =
            true →
          ({ exScheduleEnv [] with response := HttpAnswer.refused } : ScheduleEnv).response =
              HttpAnswer.refused ∨
            ({ exScheduleEnv [] with response := HttpAnswer.refused } : ScheduleEnv).response =
              HttpAnswer.reset →
          (autoAssignFromSchedule { exScheduleEnv [] with response := HttpAnswer.refused }
            [exRoute "R1" none "active" 1]).2.updated = some 0) ∧
        (({ exScheduleEnv [] with response := HttpAnswer.refused } : ScheduleEnv).response =
            HttpAnswer.failed →
          (autoAssignFromSchedule { exScheduleEnv [] with response := HttpAnswer.refused }
            [exRoute "R1" none "active" 1]).2.updated = none)) :=
  ⟨rfl, autoAssignFromSchedule_unavailable _ _ (Or.inl rfl)⟩

/-! ## C16 -/

/-- C16 fails on the code: the feed has one entry for `R1`, every query
succeeds, and the schedule pass binds `R1` to `B1`; then line 199 reads
`safeSchema` outside its block, and `autoAssignFromSchedule` resolves to
`{ success: false, message }`, without `updated`, `skipped` or `failed`. -/
theorem autoAssignFromSchedule_loses_summary :
    autoAssignFromSchedule (exScheduleEnv [exSchedule "R1" "B1" 1])
        [exRoute "R1" none "active" 1] =
        ([exRoute "R1" (some "B1") "active" 1],
          { success := false, message := some "safeSchema is not defined", updated := none,
            failed := none, skipped := none }) ∧
      (schedulePass (fun _ => QueryFault.none) [exRoute "R1" none "active" 1]
        [exSchedule "R1" "B1" 1]).successCount = 1 := by
  decide

/-! ## Lemmas on the counters of the loops -/

theorem scheduleStep_counts (fault : String → QueryFault) (s : ScheduleRun)
    (entry : String × Selection) :
    (scheduleStep fault s entry).successCount + (scheduleStep fault s entry).skipCount +
        (scheduleStep fault s entry).failCount =
      s.successCount + s.skipCount + s.failCount + 1 := by
  unfold scheduleStep
  simp only
  by_cases h1 : fault entry.1 = QueryFault.check
  · rw [if_pos h1]; simp only; omega
  · rw [if_neg h1]
    cases hsel : selectById s.table entry.1 with
    | nil => simp only; omega
    | cons currentRoute rest =>
      simp only
      by_cases h2 : currentRoute.bus_id = some entry.2.busId
      · rw [if_pos h2]; simp only; omega
      · rw [if_neg h2]
        by_cases h3 : fault entry.1 = QueryFault.busUsed
        · rw [if_pos h3]; simp only; omega
        · rw [if_neg h3]
          by_cases h4 : 0 < (busUsedRows s.table entry.2.busId entry.1).length
          · rw [if_pos h4]; simp only; omega
          · rw [if_neg h4]
            by_cases h5 : fault entry.1 = QueryFault.update
            · rw [if_pos h5]; simp only; omega
            · rw [if_neg h5]
              have h6 : 0 < (currentRoute :: rest).length := by simp
              rw [if_pos h6]
              simp only
              omega

theorem scheduleLoop_counts (fault : String → QueryFault) (entries : List (String × Selection)) :
    ∀ s : ScheduleRun,
      (scheduleLoop fault s entries).successCount + (scheduleLoop fault s entries).skipCount +
          (scheduleLoop fault s entries).failCount =
        s.successCount + s.skipCount + s.failCount + entries.length := by
  induction entries with
  | nil => intro s; rfl
  | cons e rest ih =>
    intro s
    have h1 := ih (scheduleStep fault s e)
    have h2 := scheduleStep_counts fault s e
    unfold scheduleLoop at h1 ⊢
    rw [List.foldl_cons, List.length_cons]
    omega

theorem assignBusToRouteWithPool_resolves (env : AssignEnv) (h : NoConnectError env)
    (table : List Route) (routeId busId : String) :
    (assignBusToRouteWithPool env table routeId busId).2 ≠ none := by
  unfold assignBusToRouteWithPool checkBusUsedInOtherRoute
  cases hc : env.secondCheck busId routeId with
  | connectError => exact absurd hc (h.2.1 busId routeId)
  | queryError => simp
  | ok =>
    by_cases hu : 0 < (busUsedRows table busId routeId).length
    · simp [hu]
    · simp only [hu, decide_False]
      cases ha : assignBusToRouteViaAPI env table routeId busId with
      | mk t done =>
        cases done with
        | true => simp
        | false =>
          simp only
          rw [if_neg (h.2.2 routeId busId)]
          split_ifs <;> simp

theorem scanBuses_counts (env : AssignEnv) (h : NoConnectError env) (route : Route)
    (bs : List Bus) :
    ∀ s : FallbackRun,
      ((scanBuses env route bs s).2 = Scan.assigned ∧
          (scanBuses env route bs s).1.successCount = s.successCount + 1 ∧
          (scanBuses env route bs s).1.skipCount = s.skipCount) ∨
        ((scanBuses env route bs s).2 = Scan.exhausted ∧
          (scanBuses env route bs s).1.successCount = s.successCount ∧
          (scanBuses env route bs s).1.skipCount = s.skipCount) := by
  induction bs with
  | nil => intro s; exact Or.inr ⟨rfl, rfl, rfl⟩
  | cons bus rest ih =>
    intro s
    unfold scanBuses
    cases busKey bus with
    | none => exact ih s
    | some busId =>
      simp only
      by_cases h1 : truthy (some busId) = false
      · rw [if_pos h1]; exact ih s
      · rw [if_neg h1]
        by_cases h2 : busId ∈ s.usedBusIds
        · rw [if_pos h2]; exact ih s
        · rw [if_neg h2]
          cases hacc : env.firstCheck busId route.id with
          | connectError => exact absurd hacc (h.1 busId route.id)
          | queryError => exact ih { s with usedBusIds := busId :: s.usedBusIds }
          | ok =>
            unfold checkBusUsedInOtherRoute
            simp only
            by_cases hu : 0 < (busUsedRows s.table busId route.id).length
            · simp only [hu, decide_True]
              exact ih { s with usedBusIds := busId :: s.usedBusIds }
            · simp only [hu, decide_False]
              have hres := assignBusToRouteWithPool_resolves env h s.table route.id busId
              cases ha : assignBusToRouteWithPool env s.table route.id busId with
              | mk t res =>
                rw [ha] at hres
                cases res with
                | none => exact absurd rfl hres
                | some done =>
                  cases done with
                  | true => exact Or.inl ⟨rfl, rfl, rfl⟩
                  | false =>
                    exact ih { s with table := t, usedBusIds := busId :: s.usedBusIds }

theorem routeLoop_counts (env : AssignEnv) (h : NoConnectError env) (unused : List Bus)
    (routes : List Route) :
    ∀ s : FallbackRun,
      (routeLoop env unused routes s).2 = false ∧
        (routeLoop env unused routes s).1.successCount +
            (routeLoop env unused routes s).1.skipCount =
          s.successCount + s.skipCount + routes.length := by
  induction routes with
  | nil => intro s; exact ⟨rfl, rfl⟩
  | cons route rest ih =>
    intro s
    unfold routeLoop
    have hs := scanBuses_counts env h route unused s
    cases hscan : scanBuses env route unused s with
    | mk s1 res =>
      rw [hscan] at hs
      simp only at hs
      cases res with
      | thrown =>
        rcases hs with ⟨h1, _⟩ | ⟨h1, _⟩ <;> cases h1
      | assigned =>
        rcases hs with ⟨_, h2, h3⟩ | ⟨h1, _⟩
        · have h4 := ih s1
          simp only [List.length_cons]
          refine ⟨h4.1, ?_⟩
          omega
        · cases h1
      | exhausted =>
        rcases hs with ⟨h1, _⟩ | ⟨_, h2, h3⟩
        · cases h1
        · have h4 := ih { s1 with skipCount := s1.skipCount + 1 }
          simp only [List.length_cons]
          refine ⟨h4.1, ?_⟩
          have h5 := h4.2
          simp only at h5
          omega

theorem autoAssignFromSchedule_message (env : ScheduleEnv) (table : List Route) :
    (autoAssignFromSchedule env table).2.message ≠ none := by
  unfold autoAssignFromSchedule
  by_cases hu : env.databaseUrl = false
  · rw [if_pos hu]; simp
  · rw [if_neg hu]
    cases env.response with
    | refused => simp
    | reset => simp
    | failed => simp [caught]
    | answered status success data =>
      simp only
      split_ifs <;> simp [caught]

theorem assignBusesToRoutes_message (env : AssignEnv) (table : List Route)
    (h : (assignBusesToRoutes env table).2.success = false) :
    (assignBusesToRoutes env table).2.message ≠ none := by
  rcases assignBusesToRoutes_cases env table with ⟨_, _⟩ | ⟨_, _, _, _, _, h1⟩
  · revert h
    unfold assignBusesToRoutes
    cases env.routesQuery with
    | queryError => simp [caught]
    | connectError => simp [caught]
    | ok =>
      cases getBuses env.buses with
      | none => simp [caught]
      | some buses =>
        simp only
        by_cases h3 : (getRoutesWithPool table).length = 0
        · rw [if_pos h3]; simp
        · rw [if_neg h3]
          by_cases h4 : buses.length = 0
          · rw [if_pos h4]; simp
          · rw [if_neg h4]
            by_cases h5 : (routesWithoutBus (getRoutesWithPool table)).length = 0
            · rw [if_pos h5]; simp
            · rw [if_neg h5]
              cases env.usedQuery with
              | queryError => simp [caught]
              | connectError => simp [caught]
              | ok =>
                simp only
                by_cases h7 : (unusedBuses table buses).length = 0
                · rw [if_pos h7]; simp
                · rw [if_neg h7]
                  cases routeLoop env (unusedBuses table buses)
                    (routesWithoutBus (getRoutesWithPool table))
                    { table := table, usedBusIds := usedBusIdsOf table, successCount := 0,
                      failCount := 0, skipCount := 0 } with
                  | mk s flag =>
                    cases flag <;> simp [caught]
  · revert h
    rw [h1]
    cases routeLoop env (unusedBuses table (busList env))
      (routesWithoutBus (getRoutesWithPool table))
      { table := table, usedBusIds := usedBusIdsOf table, successCount := 0,
        failCount := 0, skipCount := 0 } with
    | mk s flag =>
      cases flag <;> simp [caught]

theorem assignBusesToRoutes_counts (env : AssignEnv) (table : List Route)
    (h : NoConnectError env) (h1 : env.routesQuery = Access.ok)
    (h2 : env.usedQuery = Access.ok) (h3 : getBuses env.buses ≠ none) :
    (assignBusesToRoutes env table).2.updated ≠ none := by
  rcases assignBusesToRoutes_cases env table with ⟨_, _⟩ | ⟨_, _, _, _, _, h4⟩
  · unfold assignBusesToRoutes
    rw [h1]
    cases hb : getBuses env.buses with
    | none => exact absurd hb h3
    | some buses =>
      simp only [h2]
      split_ifs <;> simp
      have h5 := (routeLoop_counts env h (unusedBuses table buses)
        (routesWithoutBus (getRoutesWithPool table))
        { table := table, usedBusIds := usedBusIdsOf table, successCount := 0,
          failCount := 0, skipCount := 0 }).1
      cases hl : routeLoop env (unusedBuses table buses)
        (routesWithoutBus (getRoutesWithPool table))
        { table := table, usedBusIds := usedBusIdsOf table, successCount := 0,
          failCount := 0, skipCount := 0 } with
      | mk s flag =>
        rw [hl] at h5
        simp only at h5
        rw [h5]
        simp
  · rw [h4]
    have h5 := (routeLoop_counts env h (unusedBuses table (busList env))
      (routesWithoutBus (getRoutesWithPool table))
      { table := table, usedBusIds := usedBusIdsOf table, successCount := 0,
        failCount := 0, skipCount := 0 }).1
    cases hl : routeLoop env (unusedBuses table (busList env))
      (routesWithoutBus (getRoutesWithPool table))
      { table := table, usedBusIds := usedBusIdsOf table, successCount := 0,
        failCount := 0, skipCount := 0 } with
    | mk s flag =>
      rw [hl] at h5
      simp only at h5
      rw [h5]
      simp

/-! ## C15 -/

/-- C15, the claim as stated, fails for `assignBusesToRoutes`: its loop has no
`try` of its own, and `checkBusUsedInOtherRoute` acquires its client outside
its `try` (line 346).  When that acquisition fails for the first pair, bus `B1`
and route `R1`, the error leaves both loops: no later pair is handled, the
table is unchanged and the result is `{ success: false, message }`.  (Without
the failure the same run binds `R1` to `B1` and `R2` to `B2`.) -/
theorem assignBusesToRoutes_connect_error_stops_loop :
    assignBusesToRoutes (exConnectFailEnv [exBus "B1", exBus "B2"])
        [exRoute "R1" none "active" 1, exRoute "R2" none "active" 2] =
        ([exRoute "R1" none "active" 1, exRoute "R2" none "active" 2], caught "error") ∧
      assignBusesToRoutes (exAssignEnv [exBus "B1", exBus "B2"])
        [exRoute "R1" none "active" 1, exRoute "R2" none "active" 2] =
        ([exRoute "R1" (some "B1") "active" 1, exRoute "R2" (some "B2") "active" 2],
          { success := true, message := none, updated := some 2, failed := some 0,
            skipped := none }) := by
  decide

/-- C15, amended: both passes resolve to a result object, which carries a
message whenever `success` is false.  In the schedule pass of
`autoAssignFromSchedule` every entry of `routeBusMap` is handled whichever
queries throw: the three counters add up to the number of entries.  In
`assignBusesToRoutes`, as long as no acquisition of a store client fails inside
the loop, no error leaves the loop and every route of `routesWithoutBus` is
handled, each counted as assigned or as skipped; if moreover the queries before
the loop and `getBuses()` resolve, the result object carries an `updated`
count. -/
theorem passes_handle_every_pair (senv : ScheduleEnv) (aenv : AssignEnv) (table : List Route)
    (h : NoConnectError aenv) :
    (∀ (fault : String → QueryFault) (feed : List Schedule),
        (schedulePass fault table feed).successCount +
            (schedulePass fault table feed).skipCount +
            (schedulePass fault table feed).failCount = (routeBusMap feed).length) ∧
      (∀ (unused : List Bus) (routes : List Route) (s : FallbackRun),
        (routeLoop aenv unused routes s).2 = false ∧
          (routeLoop aenv unused routes s).1.successCount +
              (routeLoop aenv unused routes s).1.skipCount =
            s.successCount + s.skipCount + routes.length) ∧
      (aenv.routesQuery = Access.ok → aenv.usedQuery = Access.ok →
        getBuses aenv.buses ≠ none → (assignBusesToRoutes aenv table).2.updated ≠ none) ∧
      (autoAssignFromSchedule senv table).2.message ≠ none ∧
      ((assignBusesToRoutes aenv table).2.success = false →
        (assignBusesToRoutes aenv table).2.message ≠ none) := by
  refine ⟨?_, ?_, ?_, ?_, ?_⟩
  · intro fault feed
    have h1 := scheduleLoop_counts fault (routeBusMap feed)
      { table := table, successCount := 0, skipCount := 0, failCount := 0, assigned := [] }
    unfold schedulePass
    simp only at h1
    omega
  · intro unused routes s
    exact routeLoop_counts aenv h unused routes s
  · intro h1 h2 h3
    exact assignBusesToRoutes_counts aenv table h h1 h2 h3
  · exact autoAssignFromSchedule_message senv table
  · exact assignBusesToRoutes_message aenv table

/-- Witness of the amended C15: a conflict query throws for bus `B1` and route
`R1`, and no acquisition of a client fails. -/
theorem passes_handle_every_pair_witness :
    NoConnectError (exFailClosedEnv [exBus "B1", exBus "B2"]) ∧
      ((∀ (fault : String → QueryFault) (feed : List Schedule),
          (schedulePass fault [exRoute "R1" none "active" 1] feed).successCount +
              (schedulePass fault [exRoute "R1" none "active" 1] feed).skipCount +
              (schedulePass fault [exRoute "R1" none "active" 1] feed).failCount =
            (routeBusMap feed).length) ∧
        (∀ (unused : List Bus) (routes : List Route) (s : FallbackRun),
          (routeLoop (exFailClosedEnv [exBus "B1", exBus "B2"]) unused routes s).2 = false ∧
            (routeLoop (exFailClosedEnv [exBus "B1", exBus "B2"]) unused routes s).1.successCount +
                (routeLoop (exFailClosedEnv [exBus "B1", exBus "B2"]) unused routes s).1.skipCount =
              s.successCount + s.skipCount + routes.length) ∧
        ((exFailClosedEnv [exBus "B1", exBus "B2"]).routesQuery = Access.ok →
          (exFailClosedEnv [exBus "B1", exBus "B2"]).usedQuery = Access.ok →
          getBuses (exFailClosedEnv [exBus "B1", exBus "B2"]).buses ≠ none →
          (assignBusesToRoutes (exFailClosedEnv [exBus "B1", exBus "B2"])
            [exRoute "R1" none "active" 1]).2.updated ≠ none) ∧
        (autoAssignFromSchedule (exScheduleEnv [exSchedule "R1" "B1" 1])
          [exRoute "R1" none "active" 1]).2.message ≠ none ∧
        ((assignBusesToRoutes (exFailClosedEnv [exBus "B1", exBus "B2"])
            [exRoute "R1" none "active" 1]).2.success = false →
          (assignBusesToRoutes (exFailClosedEnv [exBus "B1", exBus "B2"])
            [exRoute "R1" none "active" 1]).2.message ≠ none)) :=
  ⟨⟨fun b r => by
      simp only [exFailClosedEnv, exAssignEnv]
      split_ifs <;> decide,
    fun _ _ => by simp [exFailClosedEnv, exAssignEnv],
    fun _ _ => by simp [exFailClosedEnv, exAssignEnv]⟩,
   passes_handle_every_pair (exScheduleEnv [exSchedule "R1" "B1" 1])
     (exFailClosedEnv [exBus "B1", exBus "B2"]) [exRoute "R1" none "active" 1]
     ⟨fun b r => by
        simp only [exFailClosedEnv, exAssignEnv]
        split_ifs <;> decide,
      fun _ _ => by simp [exFailClosedEnv, exAssignEnv],
      fun _ _ => by simp [exFailClosedEnv, exAssignEnv]⟩⟩

/-! ## Lemmas on an entry whose route already holds the selected bus -/

theorem scheduleStep_bound (fault : String → QueryFault) (s : ScheduleRun)
    (entry : String × Selection) (x : Route) (rest : List Route)
    (hsel : selectById s.table entry.1 = x :: rest) (hx : x.bus_id = some entry.2.busId) :
    scheduleStep fault s entry =
      if fault entry.1 = QueryFault.check then { s with failCount := s.failCount + 1 }
      else { s with skipCount := s.skipCount + 1 } := by
  unfold scheduleStep
  simp only
  by_cases h1 : fault entry.1 = QueryFault.check
  · rw [if_pos h1, if_pos h1]
  · rw [if_neg h1, if_neg h1, hsel]
    simp only
    rw [if_pos hx]

theorem scheduleLoop_assigned (fault : String → QueryFault)
    (entries : List (String × Selection)) :
    ∀ s : ScheduleRun, ∀ rb ∈ (scheduleLoop fault s entries).assigned,
      rb ∈ s.assigned ∨ rb.1 ∈ entries.map Prod.fst := by
  induction entries with
  | nil => intro s rb h; exact Or.inl h
  | cons e es ih =>
    intro s rb h
    have h1 : rb ∈ (scheduleLoop fault (scheduleStep fault s e) es).assigned := h
    rcases ih (scheduleStep fault s e) rb h1 with h2 | h2
    · rcases scheduleStep_spec fault s e with ⟨_, ha, _⟩ | ⟨_, ha, _⟩
      · rw [ha] at h2; exact Or.inl h2
      · rw [ha, List.mem_append, List.mem_singleton] at h2
        rcases h2 with h2 | h2
        · exact Or.inl h2
        · exact Or.inr (by rw [h2]; exact List.mem_cons_self _ _)
    · exact Or.inr (List.mem_cons_of_mem _ h2)

theorem scheduleLoop_append (fault : String → QueryFault) (s : ScheduleRun)
    (pre post : List (String × Selection)) :
    scheduleLoop fault s (pre ++ post) = scheduleLoop fault (scheduleLoop fault s pre) post := by
  unfold scheduleLoop
  rw [List.foldl_append]

theorem selectById_head_of_busIdOf (table : List Route) (r : String) (v : Option String)
    (h : busIdOf table r = some v) :
    ∃ x rest, selectById table r = x :: rest ∧ x.bus_id = v := by
  rw [busIdOf_eq_head] at h
  cases hs : selectById table r with
  | nil => rw [hs] at h; simp at h
  | cons x rest =>
    rw [hs] at h
    simp only [List.head?_cons, Option.map_some', Option.some.injEq] at h
    exact ⟨x, rest, rfl, h⟩

/-! ## C17 -/

/-- C17: no-op for a route that already holds its selected bus.  If the
schedule selects bus `b` for route `r` and the row of `r` holds `b` when
`autoAssignFromSchedule` starts, then, for every outcome of the queries, the
schedule pass leaves the rows of `r` as they are and logs no update for `r`;
the iteration of `r` adds one to `skipCount` and changes nothing else (when
its `SELECT` runs; a `SELECT` that throws is counted in `failCount`); and `b`
stays outside the list of unused buses that the fallback assignment filters
from any bus list. -/
theorem schedulePass_noop_when_bound (fault : String → QueryFault) (table : List Route)
    (feed : List Schedule) (r b : String)
    (hsel : selectedBus feed r = some b) (hcur : busIdOf table r = some (some b)) :
    selectById (schedulePass fault table feed).table r = selectById table r ∧
      (fault r ≠ QueryFault.check →
        ∃ pre post sel, routeBusMap feed = pre ++ (r, sel) :: post ∧ sel.busId = b ∧
          scheduleStep fault
              (scheduleLoop fault
                { table := table, successCount := 0, skipCount := 0, failCount := 0,
                  assigned := [] } pre) (r, sel) =
            { scheduleLoop fault
                { table := table, successCount := 0, skipCount := 0, failCount := 0,
                  assigned := [] } pre with
              skipCount := (scheduleLoop fault
                { table := table, successCount := 0, skipCount := 0, failCount := 0,
                  assigned := [] } pre).skipCount + 1 }) ∧
      (∀ rb ∈ (schedulePass fault table feed).assigned, rb.1 ≠ r) ∧
      (∀ (buses : List Bus), ∀ bus ∈ unusedBuses (schedulePass fault table feed).table buses,
        busKey bus ≠ some b) := by
  have hmem := mem_keys_of_selectedBus feed r b hsel
  rw [List.mem_map] at hmem
  obtain ⟨kv, hkv, hk⟩ := hmem
  have hb : kv.2.busId = b := by
    have h1 := selectedBus_of_mem feed kv hkv
    rw [hk, hsel] at h1
    exact (Option.some.inj h1).symm
  obtain ⟨pre, post, hsplit⟩ := List.append_of_mem hkv
  have hnd := routeBusMap_keys_nodup feed
  rw [hsplit, List.map_append, List.map_cons, List.nodup_middle, List.nodup_cons, hk,
    List.mem_append, not_or] at hnd
  obtain ⟨⟨hpre, hpost⟩, _⟩ := hnd
  obtain ⟨x, rest, hx, hxb⟩ := selectById_head_of_busIdOf table r (some b) hcur
  have h1 := scheduleLoop_selectById fault r pre hpre
    { table := table, successCount := 0, skipCount := 0, failCount := 0, assigned := [] }
  simp only at h1
  have hstep := scheduleStep_bound fault
    (scheduleLoop fault
      { table := table, successCount := 0, skipCount := 0, failCount := 0, assigned := [] }
      pre) kv x rest (by rw [hk, h1, hx]) (by rw [hxb, hb])
  have hpass : schedulePass fault table feed =
      scheduleLoop fault (scheduleStep fault
        (scheduleLoop fault
          { table := table, successCount := 0, skipCount := 0, failCount := 0, assigned := [] }
          pre) kv) post := by
    unfold schedulePass
    rw [hsplit, scheduleLoop_append]
    rfl
  have htab : (scheduleStep fault
      (scheduleLoop fault
        { table := table, successCount := 0, skipCount := 0, failCount := 0, assigned := [] }
        pre) kv).table =
      (scheduleLoop fault
        { table := table, successCount := 0, skipCount := 0, failCount := 0, assigned := [] }
        pre).table := by
    rw [hstep]; split_ifs <;> rfl
  have hlog : (scheduleStep fault
      (scheduleLoop fault
        { table := table, successCount := 0, skipCount := 0, failCount := 0, assigned := [] }
        pre) kv).assigned =
      (scheduleLoop fault
        { table := table, successCount := 0, skipCount := 0, failCount := 0, assigned := [] }
        pre).assigned := by
    rw [hstep]; split_ifs <;> rfl
  have hrows : selectById (schedulePass fault table feed).table r = selectById table r := by
    rw [hpass, scheduleLoop_selectById fault r post hpost, htab, h1]
  refine ⟨hrows, ?_, ?_, ?_⟩
  · intro hq
    refine ⟨pre, post, kv.2, ?_, hb, ?_⟩
    · rw [hsplit, ← hk]
    · have h2 := hstep
      rw [hk] at h2
      rw [if_neg hq] at h2
      rw [← hk]
      exact h2
  · intro rb hrb hr
    rw [hpass] at hrb
    rcases scheduleLoop_assigned fault post _ rb hrb with h2 | h2
    · rw [hlog] at h2
      rcases scheduleLoop_assigned fault pre _ rb h2 with h3 | h3
      · simp at h3
      · exact hpre (hr ▸ h3)
    · exact hpost (hr ▸ h2)
  · intro buses bus hbus hkey
    obtain ⟨k, hk1, _, _, hk4⟩ := unusedBuses_spec hbus
    rw [hk1] at hkey
    have hxin : x ∈ selectById (schedulePass fault table feed).table r := by
      rw [hrows, hx]; exact List.mem_cons_self _ _
    unfold selectById at hxin
    rw [List.mem_filter] at hxin
    exact hk4 x hxin.1 (by rw [hxb, Option.some.inj hkey])

/-- Witness of C17: `R1` holds `B1` and the feed proposes `B1` for `R1` again. -/
theorem schedulePass_noop_when_bound_witness :
    selectedBus [exSchedule "R1" "B1" 5, exSchedule "R2" "B2" 3] "R1" = some "B1" ∧
      busIdOf [exRoute "R1" (some "B1") "active" 1, exRoute "R2" none "active" 2] "R1" =
        some (some "B1") ∧
      (schedulePass (fun _ => QueryFault.none)
          [exRoute "R1" (some "B1") "active" 1, exRoute "R2" none "active" 2]
          [exSchedule "R1" "B1" 5, exSchedule "R2" "B2" 3]).skipCount = 1 ∧
      (schedulePass (fun _ => QueryFault.none)
          [exRoute "R1" (some "B1") "active" 1, exRoute "R2" none "active" 2]
          [exSchedule "R1" "B1" 5, exSchedule "R2" "B2" 3]).assigned = [("R2", "B2")] ∧
      selectById (schedulePass (fun _ => QueryFault.none)
          [exRoute "R1" (some "B1") "active" 1, exRoute "R2" none "active" 2]
          [exSchedule "R1" "B1" 5, exSchedule "R2" "B2" 3]).table "R1" =
        selectById [exRoute "R1" (some "B1") "active" 1, exRoute "R2" none "active" 2] "R1" :=
  ⟨by decide, by decide, by decide, by decide,
    (schedulePass_noop_when_bound (fun _ => QueryFault.none)
      [exRoute "R1" (some "B1") "active" 1, exRoute "R2" none "active" 2]
      [exSchedule "R1" "B1" 5, exSchedule "R2" "B2" 3] "R1" "B1" (by decide) (by decide)).1⟩

/-! ## Lemmas on the stability of the sort -/

theorem filter_time_insertBy (k : Int) (a : Schedule) (l : List Schedule) :
    (insertBy laterFirst a l).filter (fun e => decide (timeOf e = k)) =
      if timeOf a = k then a :: l.filter (fun e => decide (timeOf e = k))
      else l.filter (fun e => decide (timeOf e = k)) := by
  induction l with
  | nil =>
    unfold insertBy
    by_cases h : timeOf a = k
    · rw [if_pos h, List.filter_cons_of_pos (by simpa using h)]
    · rw [if_neg h, List.filter_cons_of_neg (by simpa using h)]
  | cons x xs ih =>
    unfold insertBy
    by_cases hle : laterFirst a x = true
    · rw [if_pos hle]
      by_cases h : timeOf a = k
      · rw [if_pos h, List.filter_cons_of_pos (by simpa using h)]
      · rw [if_neg h, List.filter_cons_of_neg (by simpa using h)]
    · rw [if_neg hle]
      have hlt : timeOf a < timeOf x := by
        unfold laterFirst at hle
        simpa using hle
      by_cases hx : timeOf x = k
      · have ha : ¬ timeOf a = k := by omega
        rw [List.filter_cons_of_pos (by simpa using hx), ih, if_neg ha, if_neg ha,
          List.filter_cons_of_pos (by simpa using hx)]
      · rw [List.filter_cons_of_neg (by simpa using hx), ih,
          List.filter_cons_of_neg (by simpa using hx)]

/-- The sort is stable: the entries of one time keep their input order. -/
theorem filter_time_sortedSchedules (k : Int) (l : List Schedule) :
    (sortedSchedules l).filter (fun e => decide (timeOf e = k)) =
      l.filter (fun e => decide (timeOf e = k)) := by
  unfold sortedSchedules
  induction l with
  | nil => rfl
  | cons a as ih =>
    unfold sortBy
    rw [filter_time_insertBy, ih]
    by_cases h : timeOf a = k
    · rw [if_pos h, List.filter_cons_of_pos (by simpa using h)]
    · rw [if_neg h, List.filter_cons_of_neg (by simpa using h)]

theorem find?_and_of_find? {α : Type} (p q : α → Bool) (l : List α) (e : α)
    (h : l.find? p = some e) (hq : q e = true) : l.find? (fun x => q x && p x) = some e := by
  induction l with
  | nil => simp at h
  | cons a as ih =>
    by_cases hp : p a = true
    · rw [List.find?_cons_of_pos _ hp] at h
      have hae : a = e := Option.some.inj h
      rw [List.find?_cons_of_pos _ (by rw [hae, hq, ← hae, hp]; rfl), hae]
    · rw [List.find?_cons_of_neg _ hp] at h
      rw [List.find?_cons_of_neg _ (by simp [hp])]
      exact ih h

theorem find?_ext_mem {α : Type} (p q : α → Bool) (l : List α)
    (h : ∀ x ∈ l, p x = q x) : l.find? p = l.find? q := by
  induction l with
  | nil => rfl
  | cons a as ih =>
    have ha := h a (List.mem_cons_self _ _)
    have ht := ih (fun x hx => h x (List.mem_cons_of_mem _ hx))
    by_cases hp : p a = true
    · rw [List.find?_cons_of_pos _ hp, List.find?_cons_of_pos _ (by rw [← ha]; exact hp)]
    · rw [List.find?_cons_of_neg _ hp, List.find?_cons_of_neg _ (by rw [← ha]; exact hp), ht]

/-- The first selectable entry of the sorted feed is the first entry of the
feed, in input order, among the selectable entries of the greatest time. -/
theorem find?_sortedSchedules (p : Schedule → Bool) (l : List Schedule) :
    (sortedSchedules l).find? p =
      (l.filter p).find? (fun e => decide (∀ x ∈ l.filter p, timeOf x ≤ timeOf e)) := by
  cases hf : (sortedSchedules l).find? p with
  | none =>
    have hnone : l.filter p = [] := by
      rw [List.filter_eq_nil_iff]
      intro x hx
      rw [List.find?_eq_none] at hf
      exact hf x ((mem_sortBy laterFirst l x).2 hx)
    rw [hnone]
    rfl
  | some e =>
    have hmax := find?_greatest p _ (pairwise_sortedSchedules l) e hf
    have hpe : p e = true := List.find?_some hf
    have hel : e ∈ l := (mem_sortBy laterFirst l e).1 (List.mem_of_find?_eq_some hf)
    have h1 := find?_and_of_find? p (fun x => decide (timeOf x = timeOf e)) _ e hf
      (by simp)
    have h2 : (sortedSchedules l).find? (fun x => decide (timeOf x = timeOf e) && p x) =
        l.find? (fun x => decide (timeOf x = timeOf e) && p x) := by
      have h3 := List.find?_filter (sortedSchedules l)
        (fun x => decide (timeOf x = timeOf e)) p
      have h4 := List.find?_filter l (fun x => decide (timeOf x = timeOf e)) p
      rw [filter_time_sortedSchedules] at h3
      have h5 : (sortedSchedules l).find? (fun x => decide (timeOf x = timeOf e) && p x) =
          (sortedSchedules l).find? (fun a => decide (timeOf a = timeOf e ∧ p a = true)) :=
        find?_ext_mem _ _ _ (fun x _ => by simp)
      have h6 : l.find? (fun x => decide (timeOf x = timeOf e) && p x) =
          l.find? (fun a => decide (timeOf a = timeOf e ∧ p a = true)) :=
        find?_ext_mem _ _ _ (fun x _ => by simp)
      rw [h5, h6]
      simp only [decide_eq_true_eq] at h3 h4
      rw [← h3, ← h4]
    rw [h2] at h1
    rw [List.find?_filter]
    rw [← h1]
    apply find?_ext_mem
    intro x hx
    by_cases hpx : p x = true
    · have hxe : timeOf x ≤ timeOf e := hmax x ((mem_sortBy laterFirst l x).2 hx) hpx
      by_cases hk : timeOf x = timeOf e
      · have hall : ∀ y ∈ l.filter p, timeOf y ≤ timeOf x := by
          intro y hy
          rw [List.mem_filter] at hy
          rw [hk]
          exact hmax y ((mem_sortBy laterFirst l y).2 hy.1) hy.2
        simp [hpx, hk, hall]
        intro y hy hpy
        have := hall y (List.mem_filter.2 ⟨hy, hpy⟩)
        rw [hk] at this
        exact this
      · have hnot : ¬ ∀ y ∈ l.filter p, timeOf y ≤ timeOf x := by
          intro hall
          have := hall e (List.mem_filter.2 ⟨hel, hpe⟩)
          omega
        simp only [hpx, hk, decide_False, Bool.false_and, decide_eq_true_eq, true_and]
        simpa using hnot
    · simp [hpx]

/-! ## C18 -/

/-- C18, the claim as stated, fails: the grouping skips an entry whose `busId`
is falsy (line 87), so when the first of the entries of `R1` that share the
greatest time has an empty `busId`, the bus selected for `R1` is that of the
next one, not the `busId` of the first. -/
theorem selectedBus_skips_entry_without_bus :
    selectedBus [exScheduleNoBus "R1" 5, exSchedule "R1" "B2" 5] "R1" = some "B2" ∧
      (([exScheduleNoBus "R1" 5, exSchedule "R1" "B2" 5].filter
          (fun e : Schedule => decide (e.routeId = some "R1"))).find?
        (fun e => decide (∀ x ∈ [exScheduleNoBus "R1" 5, exSchedule "R1" "B2" 5].filter
          (fun y : Schedule => decide (y.routeId = some "R1")), timeOf x ≤ timeOf e))).bind
        (fun e => e.busId) = some "" := by
  decide

/-- C18, amended: equal-time tie-break.  For every schedule list and route, the
bus the grouping of `autoAssignFromSchedule` selects for the route is the
`busId` of the first entry, in input order, among the entries of the route with
a truthy `routeId` and `busId` whose time is greatest among those entries (an
absent time counts as 0); there is no selection when the route has no such
entry.  The descending sort by time keeps the input order of equal times. -/
theorem selectedBus_first_of_latest (schedules : List Schedule) (r : String) :
    selectedBus schedules r =
        ((schedules.filter (selectable r)).find?
          (fun e => decide (∀ x ∈ schedules.filter (selectable r), timeOf x ≤ timeOf e))).bind
          (fun e => e.busId) ∧
      ∀ k : Int, (sortedSchedules schedules).filter (fun e => decide (timeOf e = k)) =
        schedules.filter (fun e => decide (timeOf e = k)) := by
  refine ⟨?_, fun k => filter_time_sortedSchedules k schedules⟩
  rw [selectedBus_eq, find?_sortedSchedules]

/-! ## C19 -/

/-- C19, the claim as stated, fails: the bus service answers successfully with
an empty list, and `getBuses` returns that empty list (line 125 tests only
`busesFromAPI !== null`), although neither source failed and the local table
holds a bus. -/
theorem getBuses_empty_without_failure :
    getBuses (exBusSource (HttpAnswer.answered 200 true (some [])) [exBus "B1"]) = some [] ∧
      getBusesFromAPI (exBusSource (HttpAnswer.answered 200 true (some [])) [exBus "B1"]) =
        some [] ∧
      getBusesFromDatabase (exBusSource (HttpAnswer.answered 200 true (some [])) [exBus "B1"]) =
        some [exBus "B1"] := by
  decide

/-- C19, amended: bus list fallback.  `getBuses` returns the list of the bus
service when the service answers with status 200 and the success flag.  The
call fails (`getBusesFromAPI` gives `null`) exactly when it throws or answers
with another status or without the flag; then `getBuses` returns the rows read
from the local `buses` table (the first 1000) when that read succeeds.  It
returns an empty list only if the service answered successfully with an empty
list, or the call failed and the local read gave no row (its query threw, the
table is missing or it is empty).  When the call fails and no store client can
be acquired, `getBuses` rejects. -/
theorem getBuses_fallback (src : BusSource) :
    (∀ l, getBusesFromAPI src = some l → getBuses src = some l) ∧
      (getBusesFromAPI src = none ↔
        ∀ data, ¬ ∃ status success, src.api = HttpAnswer.answered status success data ∧
          status = 200 ∧ success = true) ∧
      (getBusesFromAPI src = none → src.dbAccess = Access.ok → src.tableExists = true →
        getBuses src = some (src.rows.take 1000)) ∧
      (getBuses src = some [] →
        getBusesFromAPI src = some [] ∨
          (getBusesFromAPI src = none ∧
            (src.dbAccess = Access.queryError ∨ src.tableExists = false ∨
              src.rows.take 1000 = []))) ∧
      (getBusesFromAPI src = none → src.dbAccess = Access.connectError →
        getBuses src = none) := by
  refine ⟨?_, ?_, ?_, ?_, ?_⟩
  · intro l h
    unfold getBuses
    rw [h]
  · unfold getBusesFromAPI
    cases src.api with
    | answered status success data =>
      simp only
      by_cases h : status = 200 ∧ success = true
      · rw [if_pos h]
        constructor
        · intro h1; cases h1
        · intro h1
          exact absurd ⟨status, success, rfl, h⟩ (h1 data)
      · rw [if_neg h]
        constructor
        · intro _ d ⟨st, su, heq, h2⟩
          cases heq
          exact h h2
        · intro _; rfl
    | refused =>
      constructor
      · intro _ d ⟨st, su, heq, _⟩; cases heq
      · intro _; rfl
    | reset =>
      constructor
      · intro _ d ⟨st, su, heq, _⟩; cases heq
      · intro _; rfl
    | failed =>
      constructor
      · intro _ d ⟨st, su, heq, _⟩; cases heq
      · intro _; rfl
  · intro h1 h2 h3
    unfold getBuses getBusesFromDatabase
    rw [h1, h2, h3]
    simp only [if_true]
    by_cases h4 : 0 < (List.take 1000 src.rows).length
    · rw [if_pos h4]
    · rw [if_neg h4]
      have h5 : List.take 1000 src.rows = [] := by
        cases h6 : List.take 1000 src.rows with
        | nil => rfl
        | cons a as => rw [h6] at h4; simp at h4
      rw [h5]
  · intro h
    unfold getBuses at h
    cases h1 : getBusesFromAPI src with
    | some l =>
      rw [h1] at h
      exact Or.inl h
    | none =>
      rw [h1] at h
      refine Or.inr ⟨rfl, ?_⟩
      unfold getBusesFromDatabase at h
      cases h2 : src.dbAccess with
      | queryError => exact Or.inl rfl
      | connectError => rw [h2] at h; simp at h
      | ok =>
        rw [h2] at h
        cases h3 : src.tableExists with
        | false => exact Or.inr (Or.inl rfl)
        | true =>
          rw [h3] at h
          simp only [if_true] at h
          refine Or.inr (Or.inr ?_)
          cases h6 : List.take 1000 src.rows with
          | nil => rfl
          | cons a as =>
            rw [h6] at h
            simp at h
  · intro h1 h2
    unfold getBuses getBusesFromDatabase
    rw [h1, h2]

/-- Witness of the amended C19: the bus service refuses the connection and the
local table holds one bus. -/
theorem getBuses_fallback_witness :
    getBusesFromAPI (exBusSource HttpAnswer.refused [exBus "B1"]) = none ∧
      (exBusSource HttpAnswer.refused [exBus "B1"]).dbAccess = Access.ok ∧
      (exBusSource HttpAnswer.refused [exBus "B1"]).tableExists = true ∧
      getBuses (exBusSource HttpAnswer.refused [exBus "B1"]) =
        some ((exBusSource HttpAnswer.refused [exBus "B1"]).rows.take 1000) :=
  ⟨rfl, rfl, rfl,
    (getBuses_fallback (exBusSource HttpAnswer.refused [exBus "B1"])).2.2.1 rfl rfl rfl⟩

/-! ## C20 -/

/-- C20 fails on the code: in Step 6 an unsuccessful answer of the bus service
(status 404, no success flag) leaves `allBuses` empty, while an unreachable bus
service gives the rows of the local `buses` table; `getBuses` of
`assign-buses-to-routes.js` reads the local table in both cases. -/
theorem step6Buses_unsuccessful_answer_gives_no_bus :
    step6Buses (exBusSource (HttpAnswer.answered 404 false none) [exBus "B1"]) = some [] ∧
      step6Buses (exBusSource HttpAnswer.refused [exBus "B1"]) = some [exBus "B1"] ∧
      getBuses (exBusSource (HttpAnswer.answered 404 false none) [exBus "B1"]) =
        some [exBus "B1"] ∧
      getBuses (exBusSource HttpAnswer.refused [exBus "B1"]) = some [exBus "B1"] := by
  decide

/-! ## C30 -/

/-- C30: schedule-pass accounting.  For every outcome of the queries, each
iteration of the loop over `routeBusMap` adds exactly one to the sum of
`successCount`, `skipCount` and `failCount`; the keys of `routeBusMap` are
pairwise distinct, and after the pass the sum is the number of distinct route
ids in `routeBusMap`.  (The table changes only through the pass, so no route
disappears between its existence check and its update.) -/
theorem schedulePass_accounting (fault : String → QueryFault) (table : List Route)
    (feed : List Schedule) :
    (∀ (s : ScheduleRun) (entry : String × Selection),
        (scheduleStep fault s entry).successCount + (scheduleStep fault s entry).skipCount +
            (scheduleStep fault s entry).failCount =
          s.successCount + s.skipCount + s.failCount + 1) ∧
      ((routeBusMap feed).map Prod.fst).Nodup ∧
      (schedulePass fault table feed).successCount + (schedulePass fault table feed).skipCount +
          (schedulePass fault table feed).failCount =
        ((routeBusMap feed).map Prod.fst).dedup.length := by
  refine ⟨fun s entry => scheduleStep_counts fault s entry, routeBusMap_keys_nodup feed, ?_⟩
  have h1 := scheduleLoop_counts fault (routeBusMap feed)
    { table := table, successCount := 0, skipCount := 0, failCount := 0, assigned := [] }
  rw [(routeBusMap_keys_nodup feed).dedup, List.length_map]
  unfold schedulePass
  simp only at h1
  omega

/-! ## Lemmas on the counter `failCount` of `assignBusesToRoutes` -/

theorem scanBuses_failCount (env : AssignEnv) (route : Route) (bs : List Bus) :
    ∀ s : FallbackRun, (scanBuses env route bs s).1.failCount = s.failCount := by
  induction bs with
  | nil => intro s; rfl
  | cons bus rest ih =>
    intro s
    unfold scanBuses
    cases busKey bus with
    | none => exact ih s
    | some busId =>
      simp only
      by_cases h1 : truthy (some busId) = false
      · rw [if_pos h1]; exact ih s
      · rw [if_neg h1]
        by_cases h2 : busId ∈ s.usedBusIds
        · rw [if_pos h2]; exact ih s
        · rw [if_neg h2]
          cases checkBusUsedInOtherRoute (env.firstCheck busId route.id) s.table busId
              route.id with
          | none => rfl
          | some used =>
            cases used with
            | true => exact ih { s with usedBusIds := busId :: s.usedBusIds }
            | false =>
              simp only
              cases assignBusToRouteWithPool env s.table route.id busId with
              | mk t res =>
                cases res with
                | none => rfl
                | some done =>
                  cases done with
                  | true => rfl
                  | false =>
                    exact ih { s with table := t, usedBusIds := busId :: s.usedBusIds }

theorem routeLoop_failCount (env : AssignEnv) (unused : List Bus) (routes : List Route) :
    ∀ s : FallbackRun, (routeLoop env unused routes s).1.failCount = s.failCount := by
  induction routes with
  | nil => intro s; rfl
  | cons route rest ih =>
    intro s
    unfold routeLoop
    have hs := scanBuses_failCount env route unused s
    cases hscan : scanBuses env route unused s with
    | mk s1 res =>
      rw [hscan] at hs
      simp only at hs
      cases res with
      | thrown => exact hs
      | assigned => exact (ih s1).trans hs
      | exhausted => exact (ih { s1 with skipCount := s1.skipCount + 1 }).trans hs

/-! ## C21 -/

/-- C21 fails on the code: `assignBusesToRoutes` never adds to `failCount`.
The direct `UPDATE` of bus `B1` on route `R1` throws; the write is not counted
(`failed` is 0), though the pass continues (`R1` gets `B2`, `R2` is then
skipped).  For every input the `failed` count of the result is 0 or absent.
Step 6 of `autoAssignFromSchedule` counts the same failure in
`unusedFailCount`. -/
theorem assignBusesToRoutes_never_counts_failure :
    assignBusesToRoutes (exWriteFailEnv [exBus "B1", exBus "B2"])
        [exRoute "R1" none "active" 1, exRoute "R2" none "active" 2] =
        ([exRoute "R1" (some "B2") "active" 1, exRoute "R2" none "active" 2],
          { success := true, message := none, updated := some 1, failed := some 0,
            skipped := none }) ∧
      (∀ (env : AssignEnv) (table : List Route),
        (assignBusesToRoutes env table).2.failed = some 0 ∨
          (assignBusesToRoutes env table).2.failed = none) ∧
      (step6 (fun r b => if r = "R1" ∧ b = "B1" then Step6Fault.update else Step6Fault.none)
        [exBus "B1", exBus "B2"]
        [exRoute "R1" none "active" 1, exRoute "R2" none "active" 2]).failCount = 1 := by
  refine ⟨by decide, ?_, by decide⟩
  intro env table
  rcases assignBusesToRoutes_cases env table with ⟨_, _⟩ | ⟨_, _, _, _, _, h⟩
  · unfold assignBusesToRoutes
    cases env.routesQuery with
    | queryError => exact Or.inr rfl
    | connectError => exact Or.inr rfl
    | ok =>
      cases getBuses env.buses with
      | none => exact Or.inr rfl
      | some buses =>
        simp only
        by_cases h3 : (getRoutesWithPool table).length = 0
        · rw [if_pos h3]; exact Or.inr rfl
        · rw [if_neg h3]
          by_cases h4 : buses.length = 0
          · rw [if_pos h4]; exact Or.inr rfl
          · rw [if_neg h4]
            by_cases h5 : (routesWithoutBus (getRoutesWithPool table)).length = 0
            · rw [if_pos h5]; exact Or.inr rfl
            · rw [if_neg h5]
              cases env.usedQuery with
              | queryError => exact Or.inr rfl
              | connectError => exact Or.inr rfl
              | ok =>
                simp only
                by_cases h7 : (unusedBuses table buses).length = 0
                · rw [if_pos h7]; exact Or.inr rfl
                · rw [if_neg h7]
                  have hf := routeLoop_failCount env (unusedBuses table buses)
                    (routesWithoutBus (getRoutesWithPool table))
                    { table := table, usedBusIds := usedBusIdsOf table, successCount := 0,
                      failCount := 0, skipCount := 0 }
                  cases hl : routeLoop env (unusedBuses table buses)
                    (routesWithoutBus (getRoutesWithPool table))
                    { table := table, usedBusIds := usedBusIdsOf table, successCount := 0,
                      failCount := 0, skipCount := 0 } with
                  | mk s flag =>
                    rw [hl] at hf
                    simp only at hf
                    cases flag with
                    | true => exact Or.inr rfl
                    | false => exact Or.inl (by simp only; rw [hf])
  · rw [h]
    have hf := routeLoop_failCount env (unusedBuses table (busList env))
      (routesWithoutBus (getRoutesWithPool table))
      { table := table, usedBusIds := usedBusIdsOf table, successCount := 0,
        failCount := 0, skipCount := 0 }
    cases hl : routeLoop env (unusedBuses table (busList env))
      (routesWithoutBus (getRoutesWithPool table))
      { table := table, usedBusIds := usedBusIdsOf table, successCount := 0,
        failCount := 0, skipCount := 0 } with
    | mk s flag =>
      rw [hl] at hf
      simp only at hf
      cases flag with
      | true => exact Or.inr rfl
      | false => exact Or.inl (by simp only; rw [hf])

/-! ## C22 -/

/-- C22, the claim as stated, fails: the handler of `POST /:id/assign-bus` has
no conflict check.  Bus `B1` is the `bus_id` of `R1`; the request for `R2` is
answered with 200 and writes `B1` to `R2` as well. -/
theorem assignBusHandler_binds_bound_bus :
    assignBusHandler (fun _ => true)
        [exRoute "R1" (some "B1") "active" 1, exRoute "R2" none "active" 2] "R2" (some "B1") =
      ([exRoute "R1" (some "B1") "active" 1, exRoute "R2" (some "B1") "active" 2], 200, true) := by
  decide

/-- C22, amended: when its queries succeed, the handler of
`POST /:id/assign-bus` answers with 200, 400 or 404; every answer other than
200 leaves the route table unchanged; a request with a `busId` for a route that
does not exist is answered with 404; and a request with a `busId` the bus
service knows, for a route that exists, is answered with 200 and writes the
bus to the route, whichever routes hold that bus already. -/
theorem assignBusHandler_answers (busKnown : String → Bool) (table : List Route) (id : String)
    (busId : Option String) :
    ((assignBusHandler busKnown table id busId).2.1 = 200 ∨
        (assignBusHandler busKnown table id busId).2.1 = 400 ∨
        (assignBusHandler busKnown table id busId).2.1 = 404) ∧
      ((assignBusHandler busKnown table id busId).2.1 ≠ 200 →
        (assignBusHandler busKnown table id busId).1 = table) ∧
      (truthy busId = true → selectById table id = [] →
        assignBusHandler busKnown table id busId = (table, 404, false)) ∧
      (∀ b, busId = some b → truthy (some b) = true → selectById table id ≠ [] →
        busKnown b = true →
        assignBusHandler busKnown table id busId = (updateBusId table b id, 200, true)) := by
  unfold assignBusHandler
  cases busId with
  | none =>
    refine ⟨Or.inr (Or.inl rfl), fun _ => rfl, ?_, ?_⟩
    · intro h; simp [truthy] at h
    · intro b h; cases h
  | some b =>
    simp only
    by_cases h1 : truthy (some b) = false
    · rw [if_pos h1]
      refine ⟨Or.inr (Or.inl rfl), fun _ => rfl, ?_, ?_⟩
      · intro h; rw [h1] at h; cases h
      · intro b1 hb h; cases hb; rw [h1] at h; cases h
    · rw [if_neg h1]
      by_cases h2 : (selectById table id).length = 0
      · rw [if_pos h2]
        refine ⟨Or.inr (Or.inr rfl), fun _ => rfl, fun _ _ => rfl, ?_⟩
        intro b1 _ _ h3
        exact absurd (List.length_eq_zero.1 h2) h3
      · rw [if_neg h2]
        by_cases h3 : busKnown b = false
        · rw [if_pos h3]
          refine ⟨Or.inr (Or.inl rfl), fun _ => rfl, ?_, ?_⟩
          · intro _ h4
            rw [h4] at h2
            exact absurd rfl h2
          · intro b1 hb _ _ h4
            cases hb
            rw [h3] at h4
            cases h4
        · rw [if_neg h3]
          refine ⟨Or.inl rfl, fun h => absurd rfl h, ?_, ?_⟩
          · intro _ h4
            rw [h4] at h2
            exact absurd rfl h2
          · intro b1 hb _ _ _
            cases hb
            rfl

/-- Witness of the amended C22: a request for a route that does not exist. -/
theorem assignBusHandler_answers_witness :
    truthy (some "B1") = true ∧ selectById [exRoute "R1" none "active" 1] "R9" = [] ∧
      assignBusHandler (fun _ => true) [exRoute "R1" none "active" 1] "R9" (some "B1") =
        ([exRoute "R1" none "active" 1], 404, false) :=
  ⟨by decide, by decide,
    (assignBusHandler_answers (fun _ => true) [exRoute "R1" none "active" 1] "R9"
      (some "B1")).2.2.1 (by decide) (by decide)⟩

/-! ## C25 -/

/-- C25 fails on the code: the feed selects `B1` for `R1`, the schedule pass
binds it, route `R2` still has no bus and bus `B2` is bound to no route; line
199 then throws, and `autoAssignFromSchedule` returns with `R2` unbound.  Step 6
(lines 223-385), run on the table the schedule pass leaves, binds `R2` to
`B2`. -/
theorem autoAssignFromSchedule_never_reaches_step6 :
    autoAssignFromSchedule (exScheduleEnv [exSchedule "R1" "B1" 1])
        [exRoute "R1" none "active" 1, exRoute "R2" none "active" 2] =
        ([exRoute "R1" (some "B1") "active" 1, exRoute "R2" none "active" 2],
          caught "safeSchema is not defined") ∧
      (step6 (fun _ _ => Step6Fault.none) [exBus "B1", exBus "B2"]
        [exRoute "R1" (some "B1") "active" 1, exRoute "R2" none "active" 2]).table =
        [exRoute "R1" (some "B1") "active" 1, exRoute "R2" (some "B2") "active" 2] ∧
      (∀ (env : ScheduleEnv) (table : List Route),
        (autoAssignFromSchedule env table).1 = table ∨
          (autoAssignFromSchedule env table).1 =
            (schedulePass env.fault table (feedOf env)).table) := by
  refine ⟨by decide, by decide, ?_⟩
  intro env table
  rcases autoAssignFromSchedule_pass env with h | h
  · exact Or.inl (h table)
  · exact Or.inr (h table)

/-! ## Lemmas on the columns the passes leave alone -/

theorem updateBusId_frameOf (table : List Route) (busId routeId : String) :
    (updateBusId table busId routeId).map frameOf = table.map frameOf := by
  unfold updateBusId
  rw [List.map_map]
  apply List.map_congr_left
  intro x _
  simp only [Function.comp]
  split_ifs <;> rfl

theorem updateBusIdIfNull_frameOf (table : List Route) (busId routeId : String) :
    (updateBusIdIfNull table busId routeId).map frameOf = table.map frameOf := by
  unfold updateBusIdIfNull
  rw [List.map_map]
  apply List.map_congr_left
  intro x _
  simp only [Function.comp]
  split_ifs <;> rfl

theorem scheduleLoop_frameOf (fault : String → QueryFault)
    (entries : List (String × Selection)) :
    ∀ s : ScheduleRun, (scheduleLoop fault s entries).table.map frameOf = s.table.map frameOf := by
  induction entries with
  | nil => intro s; rfl
  | cons e es ih =>
    intro s
    have h1 : (scheduleLoop fault s (e :: es)).table =
        (scheduleLoop fault (scheduleStep fault s e) es).table := rfl
    rw [h1, ih (scheduleStep fault s e)]
    rcases scheduleStep_spec fault s e with ⟨ht, _⟩ | ⟨ht, _⟩
    · rw [ht]
    · rw [ht, updateBusId_frameOf]

theorem WritesOf.frameOf_eq {ok : String → String → Prop} {t0 t1 : List Route}
    (h : WritesOf ok t0 t1) : t1.map frameOf = t0.map frameOf := by
  induction h with
  | refl => rfl
  | step r b _ _ ih => rw [updateBusId_frameOf, ih]

theorem step6Scan_frameOf (fault : String → String → Step6Fault) (route : Route)
    (bs : List Bus) :
    ∀ s : FallbackRun,
      (step6Scan fault route bs s).1.table.map frameOf = s.table.map frameOf := by
  induction bs with
  | nil => intro s; rfl
  | cons bus rest ih =>
    intro s
    unfold step6Scan
    cases busKey bus with
    | none => exact ih s
    | some busId =>
      simp only
      split_ifs
      · exact ih s
      · exact ih s
      · exact ih { s with failCount := s.failCount + 1, usedBusIds := busId :: s.usedBusIds }
      · exact ih { s with usedBusIds := busId :: s.usedBusIds }
      · exact ih { s with failCount := s.failCount + 1, usedBusIds := busId :: s.usedBusIds }
      · exact ih { s with failCount := s.failCount + 1, usedBusIds := busId :: s.usedBusIds }
      · exact updateBusIdIfNull_frameOf s.table busId route.id
      · exact (ih { s with table := updateBusIdIfNull s.table busId route.id,
                           usedBusIds := busId :: s.usedBusIds }).trans
          (updateBusIdIfNull_frameOf s.table busId route.id)

theorem step6Loop_frameOf (fault : String → String → Step6Fault) (unused : List Bus)
    (routes : List Route) :
    ∀ s : FallbackRun,
      (step6Loop fault unused routes s).table.map frameOf = s.table.map frameOf := by
  induction routes with
  | nil => intro s; rfl
  | cons route rest ih =>
    intro s
    unfold step6Loop
    have hs := step6Scan_frameOf fault route unused s
    cases hscan : step6Scan fault route unused s with
    | mk s1 assigned =>
      rw [hscan] at hs
      cases assigned with
      | true => exact (ih s1).trans hs
      | false => exact (ih { s1 with skipCount := s1.skipCount + 1 }).trans hs

/-! ## C23 -/

/-- C23: the engine only rebinds buses.  For every input and every outcome of
the collaborator calls, the table that `autoAssignFromSchedule` leaves, the
table that `assignBusesToRoutes` leaves, the table after both in sequence and
the table after Step 6 have the same rows in the same order as the table
before, up to `bus_id`: no route is added or removed, and the id, name,
code, status and `numeric_id` of every route are unchanged. -/
theorem passes_only_rebind (senv : ScheduleEnv) (aenv : AssignEnv)
    (fault : String → String → Step6Fault) (allBuses : List Bus) (table : List Route) :
    (autoAssignFromSchedule senv table).1.map frameOf = table.map frameOf ∧
      (assignBusesToRoutes aenv table).1.map frameOf = table.map frameOf ∧
      (step5 senv aenv table).1.map frameOf = table.map frameOf ∧
      (step6 fault allBuses table).table.map frameOf = table.map frameOf := by
  have h1 : (autoAssignFromSchedule senv table).1.map frameOf = table.map frameOf := by
    rcases autoAssignFromSchedule_table senv table with h | ⟨schedules, h⟩
    · rw [h]
    · rw [h]
      exact scheduleLoop_frameOf senv.fault (routeBusMap schedules) _
  have h2 : ∀ t, (assignBusesToRoutes aenv t).1.map frameOf = t.map frameOf :=
    fun t => (assignBusesToRoutes_writesOf aenv t).frameOf_eq
  refine ⟨h1, h2 table, ?_, ?_⟩
  · unfold step5
    simp only
    rw [h2, h1]
  · unfold step6
    simp only
    split_ifs
    · exact step6Loop_frameOf fault _ _ _
    · rfl
    · rfl

/-! ## C24 -/

/-- C24 fails on the code: the handler of `POST /assign-buses` starts both
passes in one `Promise.all`, so `assignBusesToRoutes` may read the routes
before `autoAssignFromSchedule` has written.  Route `R1` has no bus, the feed
selects `B2` for it and the bus list is `B1`, `B2`.  The start-up sequence of
`dev.js` leaves `R1` bound to `B2`; when the reads of `assignBusesToRoutes`
resolve before the schedule pass runs, its loop still holds `R1` as a route
without bus and binds it to `B1` over the selection of the schedule.  (Read
and looped on one table, `assignBusesToRoutesFrom` is `assignBusesToRoutes`.) -/
theorem assignBusesTrigger_is_not_sequential :
    (step5 (exScheduleEnv [exSchedule "R1" "B2" 1]) (exAssignEnv [exBus "B1", exBus "B2"])
        [exRoute "R1" none "active" 1]).1 = [exRoute "R1" (some "B2") "active" 1] ∧
      assignBusesTrigger Resumption.readsThenSchedule (exScheduleEnv [exSchedule "R1" "B2" 1])
        (exAssignEnv [exBus "B1", exBus "B2"]) [exRoute "R1" none "active" 1] =
        [exRoute "R1" (some "B1") "active" 1] ∧
      (∀ (senv : ScheduleEnv) (aenv : AssignEnv) (table : List Route),
        assignBusesTrigger Resumption.scheduleFirst senv aenv table =
          (step5 senv aenv table).1) ∧
      (∀ (aenv : AssignEnv) (table : List Route),
        assignBusesToRoutesFrom aenv table table = assignBusesToRoutes aenv table) := by
  refine ⟨by decide, by decide, fun _ _ _ => rfl, fun _ _ => rfl⟩

/-! ## Lemmas on the grouping of the sync scripts -/

theorem find?_replace_ne {β : Type} (r k : String) (v : β) (h : k ≠ r)
    (m : List (String × β)) :
    (m.map (fun kv => if kv.1 = k then (k, v) else kv)).find? (fun kv => decide (kv.1 = r)) =
      m.find? (fun kv => decide (kv.1 = r)) := by
  induction m with
  | nil => rfl
  | cons a as ih =>
    rw [List.map_cons]
    by_cases hk : a.1 = k
    · have har : ¬ a.1 = r := fun c => h (hk ▸ c)
      rw [if_pos hk, List.find?_cons_of_neg _ (by simpa using h),
        List.find?_cons_of_neg _ (by simpa using har), ih]
    · rw [if_neg hk]
      by_cases har : a.1 = r
      · rw [List.find?_cons_of_pos _ (by simpa using har),
          List.find?_cons_of_pos _ (by simpa using har)]
      · rw [List.find?_cons_of_neg _ (by simpa using har),
          List.find?_cons_of_neg _ (by simpa using har), ih]

theorem find?_replace_eq {β : Type} (r : String) (v : β) (m : List (String × β))
    (x : String × β) (h : m.find? (fun kv => decide (kv.1 = r)) = some x) :
    (m.map (fun kv => if kv.1 = r then (r, v) else kv)).find? (fun kv => decide (kv.1 = r)) =
      some (r, v) := by
  induction m with
  | nil => simp at h
  | cons a as ih =>
    rw [List.map_cons]
    by_cases har : a.1 = r
    · rw [if_pos har, List.find?_cons_of_pos _ (by simp)]
    · rw [if_neg har, List.find?_cons_of_neg _ (by simpa using har)]
      rw [List.find?_cons_of_neg _ (by simpa using har)] at h
      exact ih h

theorem find?_syncGroupStep (r : String) (m : List (String × Kept)) (e : Schedule)
    (acc : Option Schedule)
    (hm : (m.find? (fun kv => decide (kv.1 = r))).map Prod.snd = acc.map keptOf) :
    ((syncGroupStep m e).find? (fun kv => decide (kv.1 = r))).map Prod.snd =
      (keepLater r acc e).map keptOf := by
  unfold syncGroupStep keepLater selectable
  cases hr : e.routeId with
  | none => simpa [truthy] using hm
  | some k =>
    cases hb : e.busId with
    | none => simpa [truthy] using hm
    | some b =>
      simp only
      by_cases ht : (truthy (some k) && truthy (some b)) = true
      · rw [if_pos ht]
        by_cases hkr : k = r
        · subst hkr
          have hsel : (truthy (some k) && truthy (some b) && decide (some k = some k)) = true := by
            simp [ht]
          rw [if_pos hsel]
          cases hf : m.find? (fun kv => decide (kv.1 = k)) with
          | none =>
            rw [hf] at hm
            cases acc with
            | some a => simp at hm
            | none =>
              simp only
              rw [List.find?_append, hf]
              simp [keptOf, hb]
          | some existing =>
            rw [hf] at hm
            cases acc with
            | none => simp at hm
            | some a =>
              simp only [Option.map_some', Option.some.injEq] at hm
              have htime : existing.2.time = a.time := by rw [hm]; rfl
              simp only
              rw [htime]
              by_cases hl : strictlyLater e.time a.time = true
              · rw [if_pos hl, if_pos hl, find?_replace_eq k _ m existing hf]
                simp [keptOf, hb]
              · rw [if_neg hl, if_neg hl, hf]
                simp [hm]
        · have hsel : ¬ (truthy (some k) && truthy (some b) && decide (some k = some r)) = true := by
            simp [hkr]
          rw [if_neg hsel]
          cases hf : m.find? (fun kv => decide (kv.1 = k)) with
          | none =>
            simp only
            rw [List.find?_append]
            have h1 : [((k, ({ busId := b, time := e.time } : Kept)) : String × Kept)].find?
                (fun kv => decide (kv.1 = r)) = none := by
              simp [hkr]
            rw [h1, Option.or_none]
            exact hm
          | some existing =>
            simp only
            by_cases hl : strictlyLater e.time existing.2.time = true
            · rw [if_pos hl, find?_replace_ne r k _ hkr]
              exact hm
            · rw [if_neg hl]
              exact hm
      · rw [if_neg ht]
        have hsel : ¬ (truthy (some k) && truthy (some b) && decide (some k = some r)) = true := by
          intro c
          rw [Bool.and_eq_true] at c
          exact ht c.1
        rw [if_neg hsel]
        exact hm

theorem find?_foldl_syncGroupStep (r : String) (l : List Schedule) :
    ∀ (m : List (String × Kept)) (acc : Option Schedule),
      (m.find? (fun kv => decide (kv.1 = r))).map Prod.snd = acc.map keptOf →
      ((l.foldl syncGroupStep m).find? (fun kv => decide (kv.1 = r))).map Prod.snd =
        (l.foldl (keepLater r) acc).map keptOf := by
  induction l with
  | nil => intro m acc h; exact h
  | cons e es ih =>
    intro m acc h
    rw [List.foldl_cons, List.foldl_cons]
    exact ih _ _ (find?_syncGroupStep r m e acc h)

theorem find?_greatest_cons_lt (a e : Schedule) (l : List Schedule)
    (h : timeOf a < timeOf e) :
    (a :: e :: l).find? (fun y => decide (∀ x ∈ a :: e :: l, timeOf x ≤ timeOf y)) =
      (e :: l).find? (fun y => decide (∀ x ∈ e :: l, timeOf x ≤ timeOf y)) := by
  have ha : ¬ ∀ x ∈ a :: e :: l, timeOf x ≤ timeOf a := by
    intro c
    have := c e (by simp)
    omega
  rw [List.find?_cons_of_neg _ (by simpa using ha)]
  apply find?_ext_mem
  intro y hy
  have hiff : (∀ x ∈ a :: e :: l, timeOf x ≤ timeOf y) ↔ ∀ x ∈ e :: l, timeOf x ≤ timeOf y := by
    constructor
    · intro c x hx
      exact c x (List.mem_cons_of_mem _ hx)
    · intro c x hx
      rcases List.mem_cons.1 hx with rfl | hx
      · have := c e (List.mem_cons_self _ _)
        omega
      · exact c x hx
  simp only [hiff]

theorem find?_greatest_cons_ge (a e : Schedule) (l : List Schedule)
    (h : timeOf e ≤ timeOf a) :
    (a :: e :: l).find? (fun y => decide (∀ x ∈ a :: e :: l, timeOf x ≤ timeOf y)) =
      (a :: l).find? (fun y => decide (∀ x ∈ a :: l, timeOf x ≤ timeOf y)) := by
  have hiff : ∀ y, timeOf a ≤ timeOf y →
      ((∀ x ∈ a :: e :: l, timeOf x ≤ timeOf y) ↔ ∀ x ∈ a :: l, timeOf x ≤ timeOf y) := by
    intro y hy
    constructor
    · intro c x hx
      rcases List.mem_cons.1 hx with rfl | hx
      · exact c x (List.mem_cons_self _ _)
      · exact c x (List.mem_cons_of_mem _ (List.mem_cons_of_mem _ hx))
    · intro c x hx
      rcases List.mem_cons.1 hx with rfl | hx
      · exact hy
      · rcases List.mem_cons.1 hx with rfl | hx
        · omega
        · exact c x (List.mem_cons_of_mem _ hx)
  by_cases hmax : ∀ x ∈ a :: e :: l, timeOf x ≤ timeOf a
  · rw [List.find?_cons_of_pos _ (by simpa using hmax),
      List.find?_cons_of_pos _ (by simpa using (hiff a (le_refl _)).1 hmax)]
  · have hmax1 : ¬ ∀ x ∈ a :: l, timeOf x ≤ timeOf a := fun c => hmax ((hiff a (le_refl _)).2 c)
    have he : ¬ ∀ x ∈ a :: e :: l, timeOf x ≤ timeOf e := by
      intro c
      apply hmax
      intro x hx
      have := c x hx
      have h2 := c a (List.mem_cons_self _ _)
      omega
    rw [List.find?_cons_of_neg _ (by simpa using hmax),
      List.find?_cons_of_neg _ (by simpa using he),
      List.find?_cons_of_neg _ (by simpa using hmax1)]
    apply find?_ext_mem
    intro y _
    by_cases hy : timeOf a ≤ timeOf y
    · simp only [hiff y hy]
    · have h1 : ¬ ∀ x ∈ a :: e :: l, timeOf x ≤ timeOf y :=
        fun c => hy (c a (List.mem_cons_self _ _))
      have h2 : ¬ ∀ x ∈ a :: l, timeOf x ≤ timeOf y :=
        fun c => hy (c a (List.mem_cons_self _ _))
      simp only [h1, h2]

/-- The scan keeps, for a route, the first entry in input order among its
selectable entries of the greatest time, when every entry has a time. -/
theorem foldl_keepLater_some (r : String) (l : List Schedule)
    (hl : ∀ e ∈ l, e.time ≠ none) :
    ∀ a : Schedule, a.time ≠ none →
      l.foldl (keepLater r) (some a) =
        (a :: l.filter (selectable r)).find?
          (fun y => decide (∀ x ∈ a :: l.filter (selectable r), timeOf x ≤ timeOf y)) := by
  induction l with
  | nil =>
    intro a _
    simp
  | cons e es ih =>
    intro a ha
    have hes : ∀ x ∈ es, x.time ≠ none := fun x hx => hl x (List.mem_cons_of_mem _ hx)
    have he : e.time ≠ none := hl e (List.mem_cons_self _ _)
    rw [List.foldl_cons]
    by_cases hsel : selectable r e = true
    · rw [List.filter_cons_of_pos hsel]
      obtain ⟨t, ht⟩ := Option.ne_none_iff_exists'.1 he
      obtain ⟨u, hu⟩ := Option.ne_none_iff_exists'.1 ha
      have hlater : strictlyLater e.time a.time = decide (timeOf a < timeOf e) := by
        simp [strictlyLater, timeOf, ht, hu]
      by_cases hlt : timeOf a < timeOf e
      · have hstep : keepLater r (some a) e = some e := by
          unfold keepLater
          rw [if_pos hsel]
          simp only
          rw [hlater, if_pos (by simpa using hlt)]
        rw [hstep, ih hes e he, find?_greatest_cons_lt a e _ hlt]
      · have hstep : keepLater r (some a) e = some a := by
          unfold keepLater
          rw [if_pos hsel]
          simp only
          rw [hlater, if_neg (by simpa using hlt)]
        rw [hstep, ih hes a ha, find?_greatest_cons_ge a e _ (by omega)]
    · rw [List.filter_cons_of_neg hsel]
      have hstep : keepLater r (some a) e = some a := by
        unfold keepLater
        rw [if_neg hsel]
      rw [hstep]
      exact ih hes a ha

theorem foldl_keepLater_none (r : String) (l : List Schedule)
    (hl : ∀ e ∈ l, e.time ≠ none) :
    l.foldl (keepLater r) none =
      (l.filter (selectable r)).find?
        (fun y => decide (∀ x ∈ l.filter (selectable r), timeOf x ≤ timeOf y)) := by
  induction l with
  | nil => rfl
  | cons e es ih =>
    have hes : ∀ x ∈ es, x.time ≠ none := fun x hx => hl x (List.mem_cons_of_mem _ hx)
    rw [List.foldl_cons]
    by_cases hsel : selectable r e = true
    · rw [List.filter_cons_of_pos hsel]
      have h1 : keepLater r none e = some e := by
        unfold keepLater
        rw [if_pos hsel]
      rw [h1]
      exact foldl_keepLater_some r es hes e (hl e (List.mem_cons_self _ _))
    · rw [List.filter_cons_of_neg hsel]
      have h1 : keepLater r none e = none := by
        unfold keepLater
        rw [if_neg hsel]
      rw [h1]
      exact ih hes

/-- The bus the sync scripts select, through the entry the scan keeps. -/
theorem syncSelectedBus_eq (schedules : List Schedule) (r : String) :
    syncSelectedBus schedules r =
      (schedules.foldl (keepLater r) none).map (fun e => (keptOf e).busId) := by
  unfold syncSelectedBus syncRouteBusMap
  have h := find?_foldl_syncGroupStep r schedules [] none rfl
  have h2 := congrArg (fun o : Option Kept => o.map (fun k => k.busId)) h
  simp only [Option.map_map] at h2
  exact h2

/-! ## C26 -/

/-- C26: the two grouping strategies agree.  For every schedule list whose
entries all have a time, and every route id, the bus selected by the
`routeBusMap` of `autoAssignFromSchedule` (stable sort by time descending,
first entry of a route wins) is the bus selected by the `routeBusMap` of
`syncBusFromSchedule` and of `main` of `sync-bus-from-schedule.js` (one scan
from left to right, the kept entry replaced only by a strictly later one);
in particular both select a bus for the same routes. -/
theorem syncSelectedBus_eq_selectedBus (schedules : List Schedule)
    (hall : ∀ e ∈ schedules, e.time ≠ none) (r : String) :
    syncSelectedBus schedules r = selectedBus schedules r := by
  rw [syncSelectedBus_eq, foldl_keepLater_none r schedules hall, selectedBus_eq,
    find?_sortedSchedules]
  cases hf : (schedules.filter (selectable r)).find?
      (fun y => decide (∀ x ∈ schedules.filter (selectable r), timeOf x ≤ timeOf y)) with
  | none => rfl
  | some e =>
    have hmem := List.mem_of_find?_eq_some hf
    rw [List.mem_filter] at hmem
    have hsel := hmem.2
    unfold selectable at hsel
    simp only [Bool.and_eq_true] at hsel
    cases hb : e.busId with
    | none =>
      have h := hsel.1.2
      rw [hb] at h
      simp [truthy] at h
    | some b => simp [keptOf, hb]

/-- Witness of C26: two entries of `R1` share the greatest time, listed after an
earlier one. -/
theorem syncSelectedBus_eq_selectedBus_witness :
    (∀ e ∈ [exSchedule "R1" "B1" 3, exSchedule "R1" "B2" 7, exSchedule "R2" "B4" 1,
        exSchedule "R1" "B3" 7], e.time ≠ none) ∧
      syncSelectedBus [exSchedule "R1" "B1" 3, exSchedule "R1" "B2" 7, exSchedule "R2" "B4" 1,
        exSchedule "R1" "B3" 7] "R1" = some "B2" ∧
      syncSelectedBus [exSchedule "R1" "B1" 3, exSchedule "R1" "B2" 7, exSchedule "R2" "B4" 1,
        exSchedule "R1" "B3" 7] "R1" =
        selectedBus [exSchedule "R1" "B1" 3, exSchedule "R1" "B2" 7, exSchedule "R2" "B4" 1,
          exSchedule "R1" "B3" 7] "R1" :=
  ⟨by decide, by decide, syncSelectedBus_eq_selectedBus _ (by decide) "R1"⟩

/-! ## Lemmas on the loop of `syncBusFromSchedule` -/

theorem syncGroupStep_keys_nodup (m : List (String × Kept)) (e : Schedule)
    (h : (m.map Prod.fst).Nodup) : ((syncGroupStep m e).map Prod.fst).Nodup := by
  unfold syncGroupStep
  cases e.routeId with
  | none => exact h
  | some r =>
    cases e.busId with
    | none => exact h
    | some b =>
      simp only
      by_cases ht : (truthy (some r) && truthy (some b)) = true
      · rw [if_pos ht]
        cases hf : m.find? (fun kv => decide (kv.1 = r)) with
        | none =>
          simp only
          rw [List.map_append, List.nodup_append]
          refine ⟨h, List.nodup_singleton _, ?_⟩
          intro k hk hk1
          simp only [List.map_cons, List.map_nil, List.mem_singleton] at hk1
          subst hk1
          obtain ⟨kv, hkv, hkk⟩ := List.mem_map.1 hk
          rw [List.find?_eq_none] at hf
          exact hf kv hkv (by simpa using hkk)
        | some existing =>
          simp only
          by_cases hl : strictlyLater e.time existing.2.time = true
          · rw [if_pos hl]
            have hkeys : (m.map (fun kv =>
                if kv.1 = r then (r, ({ busId := b, time := e.time } : Kept)) else kv)).map
                Prod.fst = m.map Prod.fst := by
              rw [List.map_map]
              apply List.map_congr_left
              intro kv _
              simp only [Function.comp]
              by_cases c : kv.1 = r
              · rw [if_pos c, c]
              · rw [if_neg c]
            rw [hkeys]
            exact h
          · rw [if_neg hl]
            exact h
      · rw [if_neg ht]
        exact h

theorem syncRouteBusMap_keys_nodup (schedules : List Schedule) :
    ((syncRouteBusMap schedules).map Prod.fst).Nodup := by
  unfold syncRouteBusMap
  have h : ∀ (l : List Schedule) (m : List (String × Kept)), (m.map Prod.fst).Nodup →
      ((l.foldl syncGroupStep m).map Prod.fst).Nodup := by
    intro l
    induction l with
    | nil => intro m hm; exact hm
    | cons e es ih => intro m hm; exact ih _ (syncGroupStep_keys_nodup m e hm)
  exact h schedules [] List.nodup_nil

theorem syncStep_table (fault : String → SyncFault) (s : ScheduleRun)
    (entry : String × Kept) :
    (syncStep fault s entry).table = s.table ∨
      (syncStep fault s entry).table = updateBusId s.table entry.2.busId entry.1 := by
  unfold syncStep
  simp only
  by_cases h1 : fault entry.1 = SyncFault.check
  · rw [if_pos h1]; exact Or.inl rfl
  · rw [if_neg h1]
    cases selectById s.table entry.1 with
    | nil => exact Or.inl rfl
    | cons cur rest =>
      simp only
      split_ifs
      · exact Or.inl rfl
      · exact Or.inl rfl
      · exact Or.inr rfl
      · exact Or.inr rfl

theorem syncLoop_busIdOf (fault : String → SyncFault) (r : String)
    (entries : List (String × Kept)) (h : r ∉ entries.map Prod.fst) :
    ∀ s : ScheduleRun, busIdOf (syncLoop fault s entries).table r = busIdOf s.table r := by
  induction entries with
  | nil => intro s; rfl
  | cons e es ih =>
    intro s
    rw [List.map_cons, List.mem_cons, not_or] at h
    have h1 : busIdOf (syncLoop fault s (e :: es)).table r =
        busIdOf (syncStep fault s e).table r := ih h.2 (syncStep fault s e)
    rw [h1]
    rcases syncStep_table fault s e with ht | ht
    · rw [ht]
    · rw [ht, busIdOf_updateBusId, if_neg (fun c => h.1 c.symm)]

/-- An iteration whose queries run leaves the route holding the selected bus,
whichever routes hold that bus already. -/
theorem syncStep_binds (fault : String → SyncFault) (s : ScheduleRun) (r : String) (k : Kept)
    (hf : fault r = SyncFault.none) (hex : busIdOf s.table r ≠ none) :
    busIdOf (syncStep fault s (r, k)).table r = some (some k.busId) := by
  unfold syncStep
  simp only
  rw [hf, if_neg (by decide)]
  cases hsel : selectById s.table r with
  | nil =>
    rw [busIdOf_eq_head, hsel] at hex
    exact absurd rfl hex
  | cons cur rest =>
    simp only
    by_cases h2 : cur.bus_id = some k.busId
    · rw [if_pos h2]
      simp only
      rw [busIdOf_eq_head, hsel]
      simp [h2]
    · rw [if_neg h2, if_neg (by decide)]
      have hlen : 0 < (cur :: rest).length := by simp
      rw [if_pos hlen]
      simp only
      rw [busIdOf_updateBusId, if_pos rfl]
      cases hb : busIdOf s.table r with
      | none => exact absurd hb hex
      | some v => rfl

theorem syncLoop_binds (fault : String → SyncFault) (table : List Route)
    (entries : List (String × Kept)) (hnd : (entries.map Prod.fst).Nodup)
    (kv : String × Kept) (hkv : kv ∈ entries) (hf : fault kv.1 = SyncFault.none)
    (hex : busIdOf table kv.1 ≠ none) :
    busIdOf (syncLoop fault
      { table := table, successCount := 0, skipCount := 0, failCount := 0, assigned := [] }
      entries).table kv.1 = some (some kv.2.busId) := by
  obtain ⟨pre, post, hsplit⟩ := List.append_of_mem hkv
  rw [hsplit, List.map_append, List.map_cons, List.nodup_middle, List.nodup_cons,
    List.mem_append, not_or] at hnd
  obtain ⟨⟨hpre, hpost⟩, _⟩ := hnd
  have h1 := syncLoop_busIdOf fault kv.1 pre hpre
    { table := table, successCount := 0, skipCount := 0, failCount := 0, assigned := [] }
  simp only at h1
  have hloop : syncLoop fault
      { table := table, successCount := 0, skipCount := 0, failCount := 0, assigned := [] }
      (pre ++ kv :: post) =
      syncLoop fault (syncStep fault (syncLoop fault
        { table := table, successCount := 0, skipCount := 0, failCount := 0, assigned := [] }
        pre) kv) post := by
    unfold syncLoop
    rw [List.foldl_append, List.foldl_cons]
  rw [hsplit, hloop, syncLoop_busIdOf fault kv.1 post hpost]
  exact syncStep_binds fault _ kv.1 kv.2 hf (by rw [h1]; exact hex)

/-! ## C27 -/

/-- C27: `syncBusFromSchedule` writes without a conflict check.  An iteration
whose queries run writes the selected bus to a route that exists and holds
another bus or none, whichever routes hold that bus; after a run whose request
is answered and whose queries for the route run, every route that exists and
for which the feed selects a bus holds that bus.  So there is a route table in
which no bus is bound to two routes, and a schedule list, such that after
`syncBusFromSchedule` two different routes have the same `bus_id`. -/
theorem syncBusFromSchedule_breaks_oneBusOneRoute :
    (∀ (fault : String → SyncFault) (s : ScheduleRun) (r : String) (k : Kept)
        (cur : Route) (rest : List Route),
        fault r = SyncFault.none → selectById s.table r = cur :: rest →
        cur.bus_id ≠ some k.busId →
        (syncStep fault s (r, k)).table = updateBusId s.table k.busId r) ∧
      (∀ (env : SyncEnv) (feed : List Schedule) (table : List Route) (r b : String),
        env.response = HttpAnswer.answered 200 true (some feed) → env.connect = true →
        env.fault r = SyncFault.none → syncSelectedBus feed r = some b →
        busIdOf table r ≠ none →
        busIdOf (syncBusFromSchedule env table).1 r = some (some b)) ∧
      (∃ (table : List Route) (feed : List Schedule), OneBusOneRoute table ∧
        ¬ OneBusOneRoute (syncBusFromSchedule (exSyncEnv feed) table).1) := by
  refine ⟨?_, ?_, ?_⟩
  · intro fault s r k cur rest hf hsel hne
    unfold syncStep
    simp only
    rw [hf, if_neg (by decide), hsel]
    simp only
    rw [if_neg hne, if_neg (by decide)]
    have hlen : 0 < (cur :: rest).length := by simp
    rw [if_pos hlen]
  · intro env feed table r b hresp hconn hf hsel hex
    have hsel0 := hsel
    unfold syncSelectedBus at hsel
    cases hfind : (syncRouteBusMap feed).find? (fun kv => decide (kv.1 = r)) with
    | none => rw [hfind] at hsel; simp at hsel
    | some kv =>
      rw [hfind] at hsel
      simp only [Option.map_some', Option.some.injEq] at hsel
      have hkv := List.mem_of_find?_eq_some hfind
      have hk : kv.1 = r := by simpa using List.find?_some hfind
      have hlen : ¬ (syncRouteBusMap feed).length = 0 := by
        intro c
        rw [List.length_eq_zero] at c
        rw [c] at hkv
        simp at hkv
      have hfeed : ¬ feed.length = 0 := by
        intro c
        rw [List.length_eq_zero] at c
        rw [c] at hkv
        simp [syncRouteBusMap] at hkv
      unfold syncBusFromSchedule
      rw [hresp]
      have hs : schedulesOf 200 true (some feed) = feed := by simp [schedulesOf]
      simp only [hs]
      rw [if_neg hfeed, if_neg hlen, if_neg (by rw [hconn]; decide)]
      simp only
      have h := syncLoop_binds env.fault table (syncRouteBusMap feed)
        (syncRouteBusMap_keys_nodup feed) kv hkv (by rw [hk]; exact hf) (by rw [hk]; exact hex)
      rw [hk, hsel] at h
      exact h
  · exact ⟨[exRoute "R1" (some "B1") "active" 1, exRoute "R2" none "active" 2],
      [exSchedule "R2" "B1" 1], by decide, by decide⟩

/-! ## Lemmas on `main` of assign-buses-to-routes.js -/

theorem assignBusToRoute_writes (env : AssignEnv) (table : List Route) (routeId busId : String)
    (h1 : env.direct routeId busId ≠ DirectFault.connect)
    (h2 : env.direct routeId busId ≠ DirectFault.update) :
    assignBusToRoute env table routeId busId = (updateBusId table busId routeId, some true) := by
  unfold assignBusToRoute
  rcases assignBusToRouteViaAPI_spec env table routeId busId with h | h
  · rw [h]
  · rw [h]
    simp only
    unfold assignBusToRouteDirect
    rw [if_neg h1, if_neg h2]

theorem mainLoop_writes (env : AssignEnv)
    (hd : ∀ r b, env.direct r b ≠ DirectFault.connect ∧ env.direct r b ≠ DirectFault.update)
    (pairs : List (Route × Bus)) :
    ∀ table : List Route, (∀ p ∈ pairs, p.2.id ≠ none) →
      mainLoop env pairs table =
        (pairs.foldl (fun t p => updateBusId t (p.2.id.getD "") p.1.id) table, false) := by
  induction pairs with
  | nil => intro table _; rfl
  | cons p ps ih =>
    intro table hp
    obtain ⟨route, bus⟩ := p
    have hb := hp (route, bus) (List.mem_cons_self _ _)
    obtain ⟨busId, hbus⟩ := Option.ne_none_iff_exists'.1 hb
    simp only at hbus
    unfold mainLoop
    rw [hbus]
    simp only
    rw [assignBusToRoute_writes env table route.id busId (hd _ _).1 (hd _ _).2]
    simp only
    rw [ih _ (fun q hq => hp q (List.mem_cons_of_mem _ hq)), List.foldl_cons, hbus]
    rfl

theorem busIdOf_foldl_updateBusId_ne (r : String) (pairs : List (Route × Bus))
    (h : r ∉ pairs.map (fun p => p.1.id)) :
    ∀ table : List Route,
      busIdOf (pairs.foldl (fun t p => updateBusId t (p.2.id.getD "") p.1.id) table) r =
        busIdOf table r := by
  induction pairs with
  | nil => intro table; rfl
  | cons p ps ih =>
    intro table
    rw [List.map_cons, List.mem_cons, not_or] at h
    rw [List.foldl_cons, ih h.2, busIdOf_updateBusId, if_neg (fun c => h.1 c.symm)]

theorem busIdOf_foldl_updateBusId (pairs : List (Route × Bus))
    (hnd : (pairs.map (fun p => p.1.id)).Nodup) (p : Route × Bus) (hp : p ∈ pairs) :
    ∀ table : List Route, busIdOf table p.1.id ≠ none →
      busIdOf (pairs.foldl (fun t p => updateBusId t (p.2.id.getD "") p.1.id) table) p.1.id =
        some (some (p.2.id.getD "")) := by
  induction pairs with
  | nil => simp at hp
  | cons q qs ih =>
    intro table hex
    rw [List.map_cons, List.nodup_cons] at hnd
    rw [List.foldl_cons]
    rcases List.mem_cons.1 hp with rfl | hin
    · rw [busIdOf_foldl_updateBusId_ne _ qs hnd.1, busIdOf_updateBusId, if_pos rfl]
      cases hb : busIdOf table p.1.id with
      | none => exact absurd hb hex
      | some v => rfl
    · have hne : q.1.id ≠ p.1.id := by
        intro c
        apply hnd.1
        rw [c]
        exact List.mem_map_of_mem (fun p => p.1.id) hin
      apply ih hnd.2 hin
      rw [busIdOf_updateBusId, if_neg hne]
      exact hex

theorem zip_fst_sublist {α β : Type} (l1 : List α) :
    ∀ l2 : List β, ((l1.zip l2).map Prod.fst).Sublist l1 := by
  induction l1 with
  | nil => intro l2; simp
  | cons a as ih =>
    intro l2
    cases l2 with
    | nil => simp
    | cons b bs =>
      rw [List.zip_cons_cons, List.map_cons]
      exact (ih bs).cons₂ a

/-! ## C28 -/

/-- C28: `main` of assign-buses-to-routes.js pairs by position, with no conflict
check.  When the reads succeed, every bus has an `id`, no direct update fails
and the route ids are distinct, the `i`-th route of `routesWithoutBus` holds,
after `main`, the `i`-th bus of the full bus list (for every `i` below both
lengths), whichever routes hold that bus.  So there is a route table in which no
bus is bound to two routes, and a bus list, such that after `main` two
different routes have the same `bus_id`. -/
theorem main_pairs_by_position :
    (∀ (env : AssignEnv) (table : List Route) (buses : List Bus),
        env.routesQuery = Access.ok → getBuses env.buses = some buses →
        (∀ bus ∈ buses, bus.id ≠ none) →
        (∀ r b, env.direct r b ≠ DirectFault.connect ∧ env.direct r b ≠ DirectFault.update) →
        (table.map (fun r => r.id)).Nodup →
        ∀ (i : Nat) (route : Route) (bus : Bus),
          (routesWithoutBus (getRoutesWithPool table))[i]? = some route →
          buses[i]? = some bus →
          busIdOf (main env table).1 route.id = some bus.id) ∧
      (∃ (table : List Route) (buses : List Bus), OneBusOneRoute table ∧
        ¬ OneBusOneRoute (main (exAssignEnv buses) table).1) := by
  refine ⟨?_, ⟨[exRoute "R1" (some "B1") "active" 1, exRoute "R2" none "active" 2],
    [exBus "B1"], by decide, by decide⟩⟩
  intro env table buses hq hbuses hids hd hnd i route bus hr hb
  have hrmem : route ∈ routesWithoutBus (getRoutesWithPool table) := List.getElem?_mem hr
  have hbmem : bus ∈ buses := List.getElem?_mem hb
  have hzip : (route, bus) ∈ (routesWithoutBus (getRoutesWithPool table)).zip buses :=
    List.getElem?_mem (List.getElem?_zip_eq_some.2 ⟨hr, hb⟩)
  have h1 : ¬ (getRoutesWithPool table).length = 0 := by
    intro c
    rw [List.length_eq_zero] at c
    rw [c] at hrmem
    simp [routesWithoutBus] at hrmem
  have h2 : ¬ buses.length = 0 := by
    intro c
    rw [List.length_eq_zero] at c
    rw [c] at hbmem
    simp at hbmem
  have h3 : ¬ (routesWithoutBus (getRoutesWithPool table)).length = 0 := by
    intro c
    rw [List.length_eq_zero] at c
    rw [c] at hrmem
    simp at hrmem
  have h4 : ¬ buses.any (fun bus => decide (bus.id = none)) = true := by
    rw [List.any_eq_true]
    rintro ⟨x, hx, hxn⟩
    exact hids x hx (by simpa using hxn)
  unfold main
  rw [hq]
  simp only
  rw [hbuses]
  simp only
  rw [if_neg h1, if_neg h2, if_neg h3, if_neg h4,
    mainLoop_writes env hd _ table (fun p hp => hids p.2 (List.of_mem_zip hp).2)]
  simp only
  have hnd2 : (((routesWithoutBus (getRoutesWithPool table)).zip buses).map
      (fun p => p.1.id)).Nodup := by
    have hsub := (zip_fst_sublist (routesWithoutBus (getRoutesWithPool table)) buses).map
      (fun r : Route => r.id)
    rw [List.map_map] at hsub
    exact (routesWithoutBus_ids_nodup table hnd).sublist hsub
  have hex : busIdOf table route.id ≠ none := by
    rw [busIdOf_of_mem table hnd route (mem_routesWithoutBus hrmem).1]
    simp
  have h := busIdOf_foldl_updateBusId _ hnd2 (route, bus) hzip table hex
  simp only at h
  rw [h]
  obtain ⟨b, hbid⟩ := Option.ne_none_iff_exists'.1 (hids bus hbmem)
  rw [hbid]
  rfl

/-- Witness of C28: two routes without bus and the bus list `B7`, `B8`. -/
theorem main_pairs_by_position_witness :
    busIdOf (main (exAssignEnv [exBus "B7", exBus "B8"])
        [exRoute "R1" none "active" 1, exRoute "R2" none "active" 2]).1 "R2" =
      some (some "B8") :=
  main_pairs_by_position.1 (exAssignEnv [exBus "B7", exBus "B8"])
    [exRoute "R1" none "active" 1, exRoute "R2" none "active" 2] [exBus "B7", exBus "B8"]
    rfl rfl (by decide) (fun _ _ => ⟨by simp [exAssignEnv], by simp [exAssignEnv]⟩) (by decide)
    1 (exRoute "R2" none "active" 2) (exBus "B8") (by decide) (by decide)

/-- Witness of C27: the feed selects `B1`, the bus of `R1`, for route `R2`. -/
theorem syncBusFromSchedule_breaks_oneBusOneRoute_witness :
    busIdOf (syncBusFromSchedule (exSyncEnv [exSchedule "R2" "B1" 1])
        [exRoute "R1" (some "B1") "active" 1, exRoute "R2" none "active" 2]).1 "R2" =
      some (some "B1") :=
  syncBusFromSchedule_breaks_oneBusOneRoute.2.1 (exSyncEnv [exSchedule "R2" "B1" 1])
    [exSchedule "R2" "B1" 1]
    [exRoute "R1" (some "B1") "active" 1, exRoute "R2" none "active" 2] "R2" "B1"
    rfl rfl rfl (by decide) (by decide)

/-! ## Lemmas on the attempts of `assignBusesToRoutes` -/

theorem scanBusesLog_erase (env : AssignEnv) (route : Route) (bs : List Bus) :
    ∀ (s : FallbackRun) (log : List Attempt),
      ((scanBusesLog env route bs s log).1, (scanBusesLog env route bs s log).2.1) =
        scanBuses env route bs s := by
  induction bs with
  | nil => intro s log; rfl
  | cons bus rest ih =>
    intro s log
    unfold scanBusesLog scanBuses
    cases busKey bus with
    | none => exact ih s log
    | some busId =>
      simp only
      by_cases h1 : truthy (some busId) = false
      · rw [if_pos h1, if_pos h1]; exact ih s log
      · rw [if_neg h1, if_neg h1]
        by_cases h2 : busId ∈ s.usedBusIds
        · rw [if_pos h2, if_pos h2]; exact ih s log
        · rw [if_neg h2, if_neg h2]
          cases checkBusUsedInOtherRoute (env.firstCheck busId route.id) s.table busId
              route.id with
          | none => rfl
          | some used =>
            cases used with
            | true => exact ih _ _
            | false =>
              simp only
              cases assignBusToRouteWithPool env s.table route.id busId with
              | mk t res =>
                cases res with
                | none => rfl
                | some done =>
                  cases done with
                  | true => rfl
                  | false => exact ih _ _

theorem routeLoopLog_erase (env : AssignEnv) (unused : List Bus) (routes : List Route) :
    ∀ (s : FallbackRun) (log : List Attempt),
      ((routeLoopLog env unused routes s log).1, (routeLoopLog env unused routes s log).2.1) =
        routeLoop env unused routes s := by
  induction routes with
  | nil => intro s log; rfl
  | cons route rest ih =>
    intro s log
    unfold routeLoopLog routeLoop
    have h := scanBusesLog_erase env route unused s log
    cases hl : scanBusesLog env route unused s log with
    | mk s1 p =>
      cases p with
      | mk res log1 =>
        rw [hl] at h
        simp only at h
        rw [← h]
        cases res with
        | thrown => rfl
        | assigned => exact ih s1 log1
        | exhausted => exact ih _ log1

theorem nodup_append_attempt (log : List Attempt) (used : List String) (a : Attempt)
    (hnd : (log.map (fun x => x.busId)).Nodup)
    (hused : ∀ b ∈ log.map (fun x => x.busId), b ∈ used) (ha : a.busId ∉ used) :
    ((log ++ [a]).map (fun x => x.busId)).Nodup := by
  rw [List.map_append, List.nodup_append]
  refine ⟨hnd, List.nodup_singleton _, ?_⟩
  intro b hb hb1
  simp only [List.map_cons, List.map_nil, List.mem_singleton] at hb1
  exact ha (hb1 ▸ hused b hb)

theorem mem_append_attempt (log : List Attempt) (a : Attempt) (P : String → Prop)
    (h : ∀ b ∈ log.map (fun x => x.busId), P b) (ha : P a.busId) :
    ∀ b ∈ (log ++ [a]).map (fun x => x.busId), P b := by
  intro b hb
  rw [List.map_append, List.mem_append] at hb
  rcases hb with hb | hb
  · exact h b hb
  · simp only [List.map_cons, List.map_nil, List.mem_singleton] at hb
    rw [hb]
    exact ha

theorem scanBusesLog_inv (env : AssignEnv) (route : Route) (keys : List String)
    (bs : List Bus) (hkeys : ∀ bus ∈ bs, ∀ k, busKey bus = some k → k ∈ keys) :
    ∀ (s : FallbackRun) (log : List Attempt),
      (log.map (fun x => x.busId)).Nodup →
      (∀ b ∈ log.map (fun x => x.busId), b ∈ s.usedBusIds) →
      (∀ b ∈ log.map (fun x => x.busId), b ∈ keys) →
      ((scanBusesLog env route bs s log).2.2.map (fun x => x.busId)).Nodup ∧
        ((scanBusesLog env route bs s log).2.1 ≠ Scan.thrown →
          ∀ b ∈ (scanBusesLog env route bs s log).2.2.map (fun x => x.busId),
            b ∈ (scanBusesLog env route bs s log).1.usedBusIds) ∧
        (∀ b ∈ (scanBusesLog env route bs s log).2.2.map (fun x => x.busId), b ∈ keys) := by
  induction bs with
  | nil => intro s log hnd hused hk; exact ⟨hnd, fun _ => hused, hk⟩
  | cons bus rest ih =>
    intro s log hnd hused hk
    have ih1 := ih (fun b hb => hkeys b (List.mem_cons_of_mem _ hb))
    have hbus := hkeys bus (List.mem_cons_self _ _)
    unfold scanBusesLog
    cases hkey : busKey bus with
    | none => exact ih1 s log hnd hused hk
    | some busId =>
      have hin : busId ∈ keys := hbus busId hkey
      simp only
      by_cases h1 : truthy (some busId) = false
      · rw [if_pos h1]; exact ih1 s log hnd hused hk
      · rw [if_neg h1]
        by_cases h2 : busId ∈ s.usedBusIds
        · rw [if_pos h2]; exact ih1 s log hnd hused hk
        · rw [if_neg h2]
          have hnd1 : ∀ w : Bool, ((log ++ [Attempt.mk route.id busId w]).map (fun x => x.busId)).Nodup :=
            fun w => nodup_append_attempt log s.usedBusIds _ hnd hused h2
          have hk1 : ∀ w : Bool, ∀ b ∈ (log ++ [Attempt.mk route.id busId w]).map (fun x => x.busId), b ∈ keys :=
            fun w => mem_append_attempt log _ (fun b => b ∈ keys) hk hin
          have hused1 : ∀ w : Bool, ∀ b ∈ (log ++ [Attempt.mk route.id busId w]).map (fun x => x.busId), b ∈ busId :: s.usedBusIds :=
            fun w => mem_append_attempt log _ (fun b => b ∈ busId :: s.usedBusIds)
              (fun b hb => List.mem_cons_of_mem _ (hused b hb)) (List.mem_cons_self _ _)
          cases checkBusUsedInOtherRoute (env.firstCheck busId route.id) s.table busId
              route.id with
          | none => exact ⟨hnd1 false, fun c => absurd rfl c, hk1 false⟩
          | some used =>
            cases used with
            | true =>
              exact ih1 { s with usedBusIds := busId :: s.usedBusIds } _ (hnd1 false)
                (hused1 false) (hk1 false)
            | false =>
              simp only
              cases assignBusToRouteWithPool env s.table route.id busId with
              | mk t res =>
                cases res with
                | none => exact ⟨hnd1 true, fun c => absurd rfl c, hk1 true⟩
                | some done =>
                  cases done with
                  | true => exact ⟨hnd1 true, fun _ => hused1 true, hk1 true⟩
                  | false =>
                    exact ih1 { s with table := t, usedBusIds := busId :: s.usedBusIds } _
                      (hnd1 true) (hused1 true) (hk1 true)

theorem routeLoopLog_inv (env : AssignEnv) (unused : List Bus) (keys : List String)
    (hkeys : ∀ bus ∈ unused, ∀ k, busKey bus = some k → k ∈ keys) (routes : List Route) :
    ∀ (s : FallbackRun) (log : List Attempt),
      (log.map (fun x => x.busId)).Nodup →
      (∀ b ∈ log.map (fun x => x.busId), b ∈ s.usedBusIds) →
      (∀ b ∈ log.map (fun x => x.busId), b ∈ keys) →
      ((routeLoopLog env unused routes s log).2.2.map (fun x => x.busId)).Nodup ∧
        ((routeLoopLog env unused routes s log).2.1 = false →
          ∀ b ∈ (routeLoopLog env unused routes s log).2.2.map (fun x => x.busId),
            b ∈ (routeLoopLog env unused routes s log).1.usedBusIds) ∧
        (∀ b ∈ (routeLoopLog env unused routes s log).2.2.map (fun x => x.busId),
          b ∈ keys) := by
  induction routes with
  | nil => intro s log hnd hused hk; exact ⟨hnd, fun _ => hused, hk⟩
  | cons route rest ih =>
    intro s log hnd hused hk
    unfold routeLoopLog
    have h := scanBusesLog_inv env route keys unused hkeys s log hnd hused hk
    cases hl : scanBusesLog env route unused s log with
    | mk s1 p =>
      cases p with
      | mk res log1 =>
        rw [hl] at h
        simp only at h
        cases res with
        | thrown =>
          refine ⟨h.1, ?_, h.2.2⟩
          intro c
          exact absurd c (Bool.noConfusion)
        | assigned => exact ih s1 log1 h.1 (h.2.1 (by decide)) h.2.2
        | exhausted =>
          exact ih { s1 with skipCount := s1.skipCount + 1 } log1 h.1 (h.2.1 (by decide)) h.2.2

theorem attemptsOf_eq (env : AssignEnv) (table : List Route) :
    attemptsOf env table = [] ∨
      attemptsOf env table =
        (routeLoopLog env (unusedBuses table (busList env))
          (routesWithoutBus (getRoutesWithPool table))
          { table := table, usedBusIds := usedBusIdsOf table, successCount := 0,
            failCount := 0, skipCount := 0 } []).2.2 := by
  unfold attemptsOf busList
  cases env.routesQuery with
  | queryError => exact Or.inl rfl
  | connectError => exact Or.inl rfl
  | ok =>
    cases getBuses env.buses with
    | none => exact Or.inl rfl
    | some buses =>
      simp only [Option.getD_some]
      by_cases h3 : (getRoutesWithPool table).length = 0
      · rw [if_pos h3]; exact Or.inl rfl
      · rw [if_neg h3]
        by_cases h4 : buses.length = 0
        · rw [if_pos h4]; exact Or.inl rfl
        · rw [if_neg h4]
          by_cases h5 : (routesWithoutBus (getRoutesWithPool table)).length = 0
          · rw [if_pos h5]; exact Or.inl rfl
          · rw [if_neg h5]
            cases env.usedQuery with
            | queryError => exact Or.inl rfl
            | connectError => exact Or.inl rfl
            | ok =>
              simp only
              by_cases h7 : (unusedBuses table buses).length = 0
              · rw [if_pos h7]; exact Or.inl rfl
              · rw [if_neg h7]; exact Or.inr rfl

/-! ## C29 -/

/-- C29: each bus is tried at most once per run of `assignBusesToRoutes`.  The
bus ids passed to the conflict check of line 283 in one run are pairwise
distinct, and so are those for which `assignBusToRouteWithPool` is called: no
bus is checked or written for a second route, whatever the first attempt gave.
The number of attempts, and of write attempts, is at most the number of unused
buses.  In the loop, every bus id of an attempt is in `usedBusIds` when the
loop ends without an error having left it.  (The loops with the list of
attempts compute the same state as `routeLoop`.) -/
theorem assignBusesToRoutes_tries_each_bus_once (env : AssignEnv) (table : List Route) :
    ((attemptsOf env table).map (fun x => x.busId)).Nodup ∧
      (((attemptsOf env table).filter (fun x => x.write)).map (fun x => x.busId)).Nodup ∧
      (attemptsOf env table).length ≤ (unusedBuses table (busList env)).length ∧
      ((attemptsOf env table).filter (fun x => x.write)).length ≤
        (unusedBuses table (busList env)).length ∧
      (∀ (unused : List Bus) (routes : List Route) (s : FallbackRun),
        ((routeLoopLog env unused routes s []).1, (routeLoopLog env unused routes s []).2.1) =
            routeLoop env unused routes s ∧
          ((routeLoopLog env unused routes s []).2.1 = false →
            ∀ a ∈ (routeLoopLog env unused routes s []).2.2,
              a.busId ∈ (routeLoopLog env unused routes s []).1.usedBusIds)) := by
  have hinv : ((attemptsOf env table).map (fun x => x.busId)).Nodup ∧
      ∀ b ∈ (attemptsOf env table).map (fun x => x.busId),
        b ∈ unusedKeys table (busList env) := by
    rcases attemptsOf_eq env table with h | h
    · rw [h]
      exact ⟨List.nodup_nil, fun b hb => by simp at hb⟩
    · rw [h]
      have h1 := routeLoopLog_inv env (unusedBuses table (busList env))
        (unusedKeys table (busList env))
        (fun bus hbus k hk => by
          unfold unusedKeys
          rw [List.mem_filterMap]
          exact ⟨bus, hbus, hk⟩)
        (routesWithoutBus (getRoutesWithPool table))
        { table := table, usedBusIds := usedBusIdsOf table, successCount := 0,
          failCount := 0, skipCount := 0 } [] List.nodup_nil
        (fun b hb => by simp at hb) (fun b hb => by simp at hb)
      exact ⟨h1.1, h1.2.2⟩
  have hlen : (attemptsOf env table).length ≤ (unusedBuses table (busList env)).length := by
    have h1 := (List.subperm_of_subset hinv.1 hinv.2).length_le
    rw [List.length_map] at h1
    have h2 : (unusedKeys table (busList env)).length ≤
        (unusedBuses table (busList env)).length := by
      unfold unusedKeys
      exact List.length_filterMap_le _ _
    omega
  refine ⟨hinv.1, ?_, hlen, ?_, ?_⟩
  · exact hinv.1.sublist ((List.filter_sublist _).map _)
  · exact le_trans (List.length_filter_le _ _) hlen
  · intro unused routes s
    refine ⟨routeLoopLog_erase env unused routes s [], ?_⟩
    intro hflag a ha
    have h1 := routeLoopLog_inv env unused (unused.filterMap busKey)
      (fun bus hbus k hk => by
        rw [List.mem_filterMap]
        exact ⟨bus, hbus, hk⟩)
      routes s [] List.nodup_nil (fun b hb => by simp at hb) (fun b hb => by simp at hb)
    exact h1.2.1 hflag a.busId (List.mem_map_of_mem (fun x => x.busId) ha)

end TransTrack
